import Mathlib

/-!
# Stencil evaluation of the OpenMP controller

A shallow embedding of `OsdOmpEvalStencilsController::_UpdateValues` and
`OsdOmpEvalStencilsController::_UpdateDerivs`
(`src/tess_RifFilter/opensubdiv/osd/ompEvalStencilsController.cpp`), followed
by `OsdOmpComputeController::Refine`
(`src/tess_RifFilter/opensubdiv/osd/ompComputeController.h`), predicates of
`src/freestyle/stroke/Predicates1D.h`, the class `Material` of
`src/freestyle/scene_graph/Material.h` and methods of
`src/freestyle/view_map/SilhouetteGeomEngine.cpp`.

Conventions of the embedding.

* `real` is the rationals: every product and sum is exact.
* A buffer is a finite list of `real`; a cell outside it is storage the
  program does not own, and touching one is undefined behaviour, reported as
  `Fault.undefinedBehaviour`.  `std::vector::at` outside the vector throws
  `std::out_of_range`, reported as `Fault.outOfRange`.  Either one ends the
  call without a result.
* The control buffer, the output buffer, the du buffer and the dv buffer are
  four distinct objects, so a write to one never changes another.
* The iterations of an `omp parallel for` loop run one after the other.
  `_UpdateValues` and `_UpdateDerivs` run them in ascending order, one schedule
  of the loop; `_UpdateValuesInOrder` and `_UpdateDerivsInOrder` run them in
  the order of a given list.  Where the written descriptor has
  `length ≤ stride` the iterations write disjoint cells and every order
  leaves the same buffers; where the windows overlap the result depends on
  the order, and a statement over the ascending order alone says nothing of
  the other schedules.
* Counts, positions and descriptor fields are natural numbers; `int`
  overflow is not modelled.
-/

namespace OpenSubdiv

/-- The scalar type of vertex data; exact arithmetic. -/
abbrev real := ℚ

/-- The two ways a call ends without a result: `std::out_of_range` thrown by
`std::vector::at`, and an access outside the storage of a vector or buffer. -/
inductive Fault where
  | outOfRange
  | undefinedBehaviour
  deriving DecidableEq, Repr

/-- The counted loop `for (int i = 0; i < n; ++i) body(i)` over a state that
the body may fail to produce: iterations `0 .. n-1` in ascending order,
stopping at the first fault. -/
def forLoop {σ : Type} (body : Nat → σ → Except Fault σ) : Nat → σ → Except Fault σ
  | 0, s => Except.ok s
  | n + 1, s =>
    match forLoop body n s with
    | Except.ok t => body n t
    | Except.error e => Except.error e

/-- Unchecked element access `v[i]` of a `std::vector`: outside the vector the
behaviour is undefined. -/
def vectorIndex {α : Type} (v : List α) (i : Nat) : Except Fault α :=
  match v[i]? with
  | some x => Except.ok x
  | none => Except.error Fault.undefinedBehaviour

/-- Address of a checked element access, `&v.at(pos)`: the position itself when
it names an element of the vector, `std::out_of_range` otherwise. -/
def vectorAt {α : Type} (v : List α) (pos : Nat) : Except Fault Nat :=
  if pos < v.length then Except.ok pos else Except.error Fault.outOfRange

/-- Read of one cell of a writable buffer through a pointer into it. -/
def readCell (buf : List real) (p : Nat) : Except Fault real :=
  match buf[p]? with
  | some x => Except.ok x
  | none => Except.error Fault.undefinedBehaviour

/-- Write of one cell of a writable buffer through a pointer into it. -/
def writeCell (buf : List real) (p : Nat) (x : real) : Except Fault (List real) :=
  if p < buf.length then Except.ok (buf.set p x) else Except.error Fault.undefinedBehaviour

/-- The call `memset(out, 0, length*sizeof(real))`: the `length` cells from
`out` on become zero, one after the other. -/
def memsetZero (buf : List real) (out length : Nat) : Except Fault (List real) :=
  forLoop (fun k b => writeCell b (out + k) 0) length buf

/-- The compound assignment `buf[p] += x`: the cell is read, then written. -/
def addAssign (buf : List real) (p : Nat) (x : real) : Except Fault (List real) :=
  match readCell buf p with
  | Except.error e => Except.error e
  | Except.ok o => writeCell buf p (o + x)

/-- A `real const *`: the buffer its base addresses (`none` for the null
base) and the displacement from that base, counted in reals. -/
structure ConstRealPtr where
  data : Option (List real)
  pos : Nat

/-- Pointer arithmetic `p + n`. -/
def ConstRealPtr.add (p : ConstRealPtr) (n : Nat) : ConstRealPtr :=
  { data := p.data, pos := p.pos + n }

/-- The test `not p`: a pointer is null when its address is zero, that is a
null base with no displacement.  A null base displaced by `n > 0` reals is the
address `n * sizeof(real)`, which is not zero; a read through it is undefined
behaviour (`ConstRealPtr.read`). -/
def ConstRealPtr.isNull (p : ConstRealPtr) : Bool :=
  p.data.isNone && p.pos == 0

/-- The read `p[k]`. -/
def ConstRealPtr.read (p : ConstRealPtr) (k : Nat) : Except Fault real :=
  match p.data with
  | none => Except.error Fault.undefinedBehaviour
  | some buf =>
    match buf[p.pos + k]? with
    | some x => Except.ok x
    | none => Except.error Fault.undefinedBehaviour

/-- Modelled from the spec: the header declaring `OsdVertexBufferDescriptor`
is not among the sources.  The spec gives the three fields as unsigned
integers: base offset, stride between elements and channel count. -/
structure OsdVertexBufferDescriptor where
  offset : Nat
  length : Nat
  stride : Nat
  deriving DecidableEq, Repr

/-- Modelled from the spec: `OsdVertexBufferDescriptor::CanEval` is not among
the sources.  The spec: the control descriptor can supply at least as many
channels as the other descriptor requires; the check fails when the other
descriptor requests more channels than the control descriptor can supply. -/
def OsdVertexBufferDescriptor.CanEval (self other : OsdVertexBufferDescriptor) : Bool :=
  decide (other.length ≤ self.length)

/-- Modelled from the spec: the header declaring `FarStencilTables` is not
among the sources.  The spec names the flat sequences; the number of stencils
is kept as a field of its own. -/
structure FarStencilTables where
  numStencils : Nat
  sizes : List Nat
  offsets : List Nat
  indices : List Nat
  weights : List real
  duWeights : List real
  dvWeights : List real
  deriving DecidableEq, Repr

/-- Modelled from the spec: accessor of the absent header, the number of
output elements of the table. -/
def FarStencilTables.GetNumStencils (t : FarStencilTables) : Nat := t.numStencils

/-- Modelled from the spec: accessor of the absent header, the run lengths. -/
def FarStencilTables.GetSizes (t : FarStencilTables) : List Nat := t.sizes

/-- Modelled from the spec: accessor of the absent header, the starting
positions of the runs. -/
def FarStencilTables.GetOffsets (t : FarStencilTables) : List Nat := t.offsets

/-- Modelled from the spec: accessor of the absent header, the flat sequence
of control-vertex indices. -/
def FarStencilTables.GetControlIndices (t : FarStencilTables) : List Nat := t.indices

/-- Modelled from the spec: accessor of the absent header, the flat sequence
of weights. -/
def FarStencilTables.GetWeights (t : FarStencilTables) : List real := t.weights

/-- Modelled from the spec: accessor of the absent header, the weights of the
u derivative. -/
def FarStencilTables.GetDuWeights (t : FarStencilTables) : List real := t.duWeights

/-- Modelled from the spec: accessor of the absent header, the weights of the
v derivative. -/
def FarStencilTables.GetDvWeights (t : FarStencilTables) : List real := t.dvWeights

/-- Modelled from the spec: the header declaring `OsdCpuEvalStencilsContext`
is not among the sources.  The context holds one stencil table, the control
descriptor with its base pointer (`none` for the null pointer) and the
descriptors and buffers of the three output streams.  An output pointer that
addresses no storage, the null pointer included, is the empty buffer: the
controller never tests an output pointer. -/
structure OsdCpuEvalStencilsContext where
  stencils : FarStencilTables
  controlDataDesc : OsdVertexBufferDescriptor
  outputDataDesc : OsdVertexBufferDescriptor
  duDataDesc : OsdVertexBufferDescriptor
  dvDataDesc : OsdVertexBufferDescriptor
  controlData : Option (List real)
  outputData : List real
  outputUDerivData : List real
  outputVDerivData : List real
  deriving DecidableEq, Repr

/-- Modelled from the spec: accessor of the absent header, the stencil table
of the context. -/
def OsdCpuEvalStencilsContext.GetStencilTables (c : OsdCpuEvalStencilsContext) :
    FarStencilTables := c.stencils

/-- Modelled from the spec: accessor of the absent header, the descriptor of
the control data. -/
def OsdCpuEvalStencilsContext.GetControlDataDescriptor (c : OsdCpuEvalStencilsContext) :
    OsdVertexBufferDescriptor := c.controlDataDesc

/-- Modelled from the spec: accessor of the absent header, the descriptor of
the position output. -/
def OsdCpuEvalStencilsContext.GetOutputDataDescriptor (c : OsdCpuEvalStencilsContext) :
    OsdVertexBufferDescriptor := c.outputDataDesc

/-- Modelled from the spec: accessor of the absent header, the descriptor of
the du output. -/
def OsdCpuEvalStencilsContext.GetDuDataDescriptor (c : OsdCpuEvalStencilsContext) :
    OsdVertexBufferDescriptor := c.duDataDesc

/-- Modelled from the spec: accessor of the absent header, the descriptor of
the dv output. -/
def OsdCpuEvalStencilsContext.GetDvDataDescriptor (c : OsdCpuEvalStencilsContext) :
    OsdVertexBufferDescriptor := c.dvDataDesc

/-- Modelled from the spec: accessor of the absent header, the base pointer of
the control data, with no displacement. -/
def OsdCpuEvalStencilsContext.GetControlData (c : OsdCpuEvalStencilsContext) :
    ConstRealPtr := { data := c.controlData, pos := 0 }

/-- Modelled from the spec: accessor of the absent header, the output buffer
of positions. -/
def OsdCpuEvalStencilsContext.GetOutputData (c : OsdCpuEvalStencilsContext) :
    List real := c.outputData

/-- Modelled from the spec: accessor of the absent header, the du buffer. -/
def OsdCpuEvalStencilsContext.GetOutputUDerivData (c : OsdCpuEvalStencilsContext) :
    List real := c.outputUDerivData

/-- Modelled from the spec: accessor of the absent header, the dv buffer. -/
def OsdCpuEvalStencilsContext.GetOutputVDerivData (c : OsdCpuEvalStencilsContext) :
    List real := c.outputVDerivData

namespace OsdOmpEvalStencilsController

/-- The innermost loop of `_UpdateValues`, lines 81-83:
`for (k = 0; k < length; ++k) out[k] += cv[k] * (*weight)`. -/
def accumulate (cv : ConstRealPtr) (weight : real) (out length : Nat)
    (outData : List real) : Except Fault (List real) :=
  forLoop (fun k b =>
    match cv.read k with
    | Except.error e => Except.error e
    | Except.ok c => addAssign b (out + k) (c * weight)) length outData

/-- The body of the parallel loop of `_UpdateValues`, lines 66-84, for the
output element `i`. -/
def valuesBody (stencils : FarStencilTables) (ctrlDesc outDesc : OsdVertexBufferDescriptor)
    (ctrl : ConstRealPtr) (i : Nat) (outData : List real) : Except Fault (List real) :=
  match vectorIndex stencils.GetSizes i with
  | Except.error e => Except.error e
  | Except.ok size =>
  match vectorIndex stencils.GetOffsets i with
  | Except.error e => Except.error e
  | Except.ok offset =>
  match vectorAt stencils.GetControlIndices offset with
  | Except.error e => Except.error e
  | Except.ok index =>
  match vectorAt stencils.GetWeights offset with
  | Except.error e => Except.error e
  | Except.ok weight =>
  let out := i * outDesc.stride + outDesc.offset
  match memsetZero outData out outDesc.length with
  | Except.error e => Except.error e
  | Except.ok zeroed =>
    forLoop (fun j b =>
      match vectorIndex stencils.GetControlIndices (index + j) with
      | Except.error e => Except.error e
      | Except.ok idx =>
        match vectorIndex stencils.GetWeights (weight + j) with
        | Except.error e => Except.error e
        | Except.ok w =>
          let cv := ctrl.add (idx * ctrlDesc.stride)
          accumulate cv w out outDesc.length b) size zeroed

/-- The method `int _UpdateValues(OsdCpuEvalStencilsContext * context)`, lines
40-88: the returned count together with the context after the call.  The
iterations of the parallel loop of lines 63-64 run in ascending order;
`_UpdateValuesInOrder` runs them in any other order. -/
def _UpdateValues (context : OsdCpuEvalStencilsContext) :
    Except Fault (Nat × OsdCpuEvalStencilsContext) :=
  let result := 0
  let stencils := context.GetStencilTables
  let nstencils := stencils.GetNumStencils
  if nstencils = 0 then Except.ok (result, context) else
  let ctrlDesc := context.GetControlDataDescriptor
  let outDesc := context.GetOutputDataDescriptor
  if ! ctrlDesc.CanEval outDesc then Except.ok (0, context) else
  let ctrl := context.GetControlData.add ctrlDesc.offset
  if ctrl.isNull then Except.ok (result, context) else
  match forLoop (valuesBody stencils ctrlDesc outDesc ctrl) nstencils context.GetOutputData with
  | Except.error e => Except.error e
  | Except.ok outData => Except.ok (nstencils, { context with outputData := outData })

/-- The innermost loop of `_UpdateDerivs`, lines 135-138, over the pair of the
du buffer and the dv buffer: `for (k = 0; k < length; ++k)` with the two
statements `du[k] += cv[k] * (*duweight)` and `dv[k] += cv[k] * (*dvweight)`;
the caller passes `duDesc.length` as `length`. -/
def accumulateDerivs (cv : ConstRealPtr) (duweight dvweight : real) (du dv length : Nat)
    (data : List real × List real) : Except Fault (List real × List real) :=
  forLoop (fun k s =>
    match cv.read k with
    | Except.error e => Except.error e
    | Except.ok cu =>
      match addAssign s.1 (du + k) (cu * duweight) with
      | Except.error e => Except.error e
      | Except.ok duData =>
        match cv.read k with
        | Except.error e => Except.error e
        | Except.ok cw =>
          match addAssign s.2 (dv + k) (cw * dvweight) with
          | Except.error e => Except.error e
          | Except.ok dvData => Except.ok (duData, dvData)) length data

/-- The body of the parallel loop of `_UpdateDerivs`, lines 117-139, for the
output element `i`, over the pair of the du buffer and the dv buffer. -/
def derivsBody (stencils : FarStencilTables)
    (ctrlDesc duDesc dvDesc : OsdVertexBufferDescriptor)
    (ctrl : ConstRealPtr) (i : Nat) (data : List real × List real) :
    Except Fault (List real × List real) :=
  match vectorIndex stencils.GetSizes i with
  | Except.error e => Except.error e
  | Except.ok size =>
  match vectorIndex stencils.GetOffsets i with
  | Except.error e => Except.error e
  | Except.ok offset =>
  match vectorAt stencils.GetControlIndices offset with
  | Except.error e => Except.error e
  | Except.ok index =>
  match vectorAt stencils.GetDuWeights offset with
  | Except.error e => Except.error e
  | Except.ok duweight =>
  match vectorAt stencils.GetDvWeights offset with
  | Except.error e => Except.error e
  | Except.ok dvweight =>
  let du := i * duDesc.stride + duDesc.offset
  let dv := i * dvDesc.stride + dvDesc.offset
  match memsetZero data.1 du duDesc.length with
  | Except.error e => Except.error e
  | Except.ok duZeroed =>
  match memsetZero data.2 dv dvDesc.length with
  | Except.error e => Except.error e
  | Except.ok dvZeroed =>
    forLoop (fun j s =>
      match vectorIndex stencils.GetControlIndices (index + j) with
      | Except.error e => Except.error e
      | Except.ok idx =>
        match vectorIndex stencils.GetDuWeights (duweight + j) with
        | Except.error e => Except.error e
        | Except.ok wu =>
          match vectorIndex stencils.GetDvWeights (dvweight + j) with
          | Except.error e => Except.error e
          | Except.ok wv =>
            let cv := ctrl.add (idx * ctrlDesc.stride)
            accumulateDerivs cv wu wv du dv duDesc.length s) size (duZeroed, dvZeroed)

/-- The method `int _UpdateDerivs(OsdCpuEvalStencilsContext * context)`, lines
90-143: the returned count together with the context after the call.  The
iterations of the parallel loop of lines 114-115 run in ascending order;
`_UpdateDerivsInOrder` runs them in any other order. -/
def _UpdateDerivs (context : OsdCpuEvalStencilsContext) :
    Except Fault (Nat × OsdCpuEvalStencilsContext) :=
  let result := 0
  let stencils := context.GetStencilTables
  let nstencils := stencils.GetNumStencils
  if nstencils = 0 then Except.ok (result, context) else
  let ctrlDesc := context.GetControlDataDescriptor
  let duDesc := context.GetDuDataDescriptor
  let dvDesc := context.GetDvDataDescriptor
  if ! (ctrlDesc.CanEval duDesc && ctrlDesc.CanEval dvDesc) then Except.ok (0, context) else
  let ctrl := context.GetControlData.add ctrlDesc.offset
  if ctrl.isNull then Except.ok (result, context) else
  match forLoop (derivsBody stencils ctrlDesc duDesc dvDesc ctrl) nstencils
      (context.GetOutputUDerivData, context.GetOutputVDerivData) with
  | Except.error e => Except.error e
  | Except.ok data =>
    Except.ok (nstencils,
      { context with outputUDerivData := data.1, outputVDerivData := data.2 })

end OsdOmpEvalStencilsController

end OpenSubdiv

/-! ## Definitions used to state the properties -/

namespace OpenSubdiv

/-- Position of the first channel of element `i` in a buffer laid out by the
descriptor: `i * stride + offset`. -/
def OsdVertexBufferDescriptor.slot (d : OsdVertexBufferDescriptor) (i : Nat) : Nat :=
  i * d.stride + d.offset

/-- The cell `c` is one of the `length` channels of element `i`. -/
def OsdVertexBufferDescriptor.covers (d : OsdVertexBufferDescriptor) (i c : Nat) : Prop :=
  d.slot i ≤ c ∧ c < d.slot i + d.length

instance (d : OsdVertexBufferDescriptor) (i c : Nat) : Decidable (d.covers i c) := by
  unfold OsdVertexBufferDescriptor.covers
  exact inferInstance

/-- The greatest element below `n` whose channels contain the cell `c`, when
there is one: the last element of an ascending run over `n` elements to write
the cell. -/
def OsdVertexBufferDescriptor.lastWriter (d : OsdVertexBufferDescriptor) : Nat → Nat → Option Nat
  | 0, _ => none
  | n + 1, c => if d.covers n c then some n else d.lastWriter n c

/-- Channel `k` of the control vertex `index`:
`control[ctrlDesc.offset + index * ctrlDesc.stride + k]`, zero where the
control buffer has no such cell. -/
def controlValue (control : Option (List real)) (ctrlDesc : OsdVertexBufferDescriptor)
    (index k : Nat) : real :=
  (control.getD []).getD (ctrlDesc.offset + index * ctrlDesc.stride + k) 0

/-- The weighted sum of the contract for element `i` and channel `k`, over a
weight array `weights`: the sum over `j` in `[offsets[i], offsets[i] + sizes[i])`
of `weights[j] * control[ctrlDesc.offset + indices[j] * ctrlDesc.stride + k]`. -/
def stencilSum (t : FarStencilTables) (weights : List real)
    (ctrlDesc : OsdVertexBufferDescriptor) (control : Option (List real)) (i k : Nat) : real :=
  ∑ j ∈ Finset.Ico (t.offsets.getD i 0) (t.offsets.getD i 0 + t.sizes.getD i 0),
    weights.getD j 0 * controlValue control ctrlDesc (t.indices.getD j 0) k

/-- Every lookup that the loop body of `_UpdateValues` makes for element `i`
is in range, for an output buffer of `outLength` cells: `sizes[i]` and
`offsets[i]` exist, `offsets[i]` is a position of `indices` and of `weights`,
the `length` channels of the element lie in the output buffer, and every
position of the run lies in `indices` and `weights` and names a control vertex
whose first `length` channels lie in the control buffer. -/
def ValuesInRange (t : FarStencilTables) (ctrlDesc outDesc : OsdVertexBufferDescriptor)
    (control : Option (List real)) (outLength i : Nat) : Prop :=
  i < t.sizes.length ∧ i < t.offsets.length ∧
  t.offsets.getD i 0 < t.indices.length ∧ t.offsets.getD i 0 < t.weights.length ∧
  (outDesc.length ≠ 0 → outDesc.slot i + outDesc.length ≤ outLength) ∧
  ∀ j, j < t.sizes.getD i 0 →
    t.offsets.getD i 0 + j < t.indices.length ∧ t.offsets.getD i 0 + j < t.weights.length ∧
    ∀ k, k < outDesc.length →
      ctrlDesc.offset + t.indices.getD (t.offsets.getD i 0 + j) 0 * ctrlDesc.stride + k
        < (control.getD []).length

end OpenSubdiv

/-! ## The contract of the position evaluation and concrete contexts -/

namespace OpenSubdiv

/-- The contract of the position evaluation between the context before a call
and the context after it: for every output element `i` below the number of
stencils and every channel `k` below the output descriptor's length, the cell
`outDesc.offset + i * outDesc.stride + k` of the output buffer holds the
weighted sum of the run of `i`. -/
def ValuesContract (before after : OsdCpuEvalStencilsContext) : Prop :=
  ∀ i, i < before.stencils.GetNumStencils → ∀ k, k < before.outputDataDesc.length →
    after.outputData[before.outputDataDesc.offset + i * before.outputDataDesc.stride + k]? =
      some (stencilSum before.stencils before.stencils.weights before.controlDataDesc
        before.controlData i k)

/-- The context with another control buffer bound. -/
def OsdCpuEvalStencilsContext.withControl (c : OsdCpuEvalStencilsContext)
    (control : List real) : OsdCpuEvalStencilsContext :=
  { c with controlData := some control }

/-- A tightly packed descriptor of `n` channels: offset 0, stride `n`. -/
def packed (n : Nat) : OsdVertexBufferDescriptor :=
  { offset := 0, length := n, stride := n }

/-- The stencil table of the concrete scenario: element 0 averages the control
vertices 0 and 1, element 1 copies the control vertex 1. -/
def scenarioTable : FarStencilTables :=
  { numStencils := 2, sizes := [2, 1], offsets := [0, 2], indices := [0, 1, 1],
    weights := [1/2, 1/2, 1], duWeights := [1/2, -1/2, 0], dvWeights := [0, 1, 0] }

/-- The context of the concrete scenario: three channels, tightly packed, the
control buffer `[[1,2,3],[3,4,5]]` and output buffers filled with a sentinel. -/
def scenarioContext : OsdCpuEvalStencilsContext :=
  { stencils := scenarioTable,
    controlDataDesc := packed 3, outputDataDesc := packed 3,
    duDataDesc := packed 3, dvDataDesc := packed 3,
    controlData := some [1, 2, 3, 3, 4, 5],
    outputData := [9, 9, 9, 9, 9, 9, 9],
    outputUDerivData := [9, 9, 9, 9, 9, 9],
    outputVDerivData := [9, 9, 9, 9, 9, 9] }

/-- Two one-channel elements written through an output descriptor of stride 0:
both elements occupy cell 0 of the output buffer. -/
def overlapContext : OsdCpuEvalStencilsContext :=
  { stencils := { numStencils := 2, sizes := [1, 1], offsets := [0, 1], indices := [0, 1],
                  weights := [1, 1], duWeights := [1, 1], dvWeights := [1, 1] },
    controlDataDesc := packed 1,
    outputDataDesc := { offset := 0, length := 1, stride := 0 },
    duDataDesc := packed 1, dvDataDesc := packed 1,
    controlData := some [1, 2],
    outputData := [9], outputUDerivData := [9, 9], outputVDerivData := [9, 9] }

/-- A table of one element with an empty run over empty index and weight
arrays: `offsets[0] = 0` is the length of both arrays. -/
def emptyRunContext : OsdCpuEvalStencilsContext :=
  { stencils := { numStencils := 1, sizes := [0], offsets := [0], indices := [],
                  weights := [], duWeights := [], dvWeights := [] },
    controlDataDesc := packed 1, outputDataDesc := packed 1,
    duDataDesc := packed 1, dvDataDesc := packed 1,
    controlData := some [1],
    outputData := [9], outputUDerivData := [9], outputVDerivData := [9] }

end OpenSubdiv

namespace OpenSubdiv

/-- One element over a two-channel control vertex, with a du descriptor of one
channel and a dv descriptor of two channels. -/
def unequalLengthsContext : OsdCpuEvalStencilsContext :=
  { stencils := { numStencils := 1, sizes := [1], offsets := [0], indices := [0],
                  weights := [1], duWeights := [1], dvWeights := [1] },
    controlDataDesc := packed 2, outputDataDesc := packed 2,
    duDataDesc := packed 1, dvDataDesc := packed 2,
    controlData := some [5, 7],
    outputData := [9, 9], outputUDerivData := [9], outputVDerivData := [9, 9] }

/-- The scenario with an output descriptor of four channels over the
three-channel control descriptor. -/
def wideOutputContext : OsdCpuEvalStencilsContext :=
  { scenarioContext with outputDataDesc := packed 4 }

/-- The scenario with a du descriptor of four channels over the three-channel
control descriptor; the dv descriptor keeps three channels. -/
def wideDuContext : OsdCpuEvalStencilsContext :=
  { scenarioContext with duDataDesc := packed 4 }

/-- The scenario over a table without stencils. -/
def noStencilContext : OsdCpuEvalStencilsContext :=
  { scenarioContext with
    stencils := { numStencils := 0, sizes := [], offsets := [], indices := [],
                  weights := [], duWeights := [], dvWeights := [] } }

/-- A null control base pointer under a control descriptor of offset 1, and a
table of one element with an empty run that starts inside the index and
weight arrays. -/
def nullControlContext : OsdCpuEvalStencilsContext :=
  { stencils := { numStencils := 1, sizes := [0], offsets := [0], indices := [0],
                  weights := [1], duWeights := [1], dvWeights := [1] },
    controlDataDesc := { offset := 1, length := 1, stride := 1 },
    outputDataDesc := packed 1, duDataDesc := packed 1, dvDataDesc := packed 1,
    controlData := none,
    outputData := [9], outputUDerivData := [9], outputVDerivData := [9] }

end OpenSubdiv

namespace OpenSubdiv

/-- An output descriptor of stride 0 and length 1 over two elements: element 0
has an empty run, element 1 copies the control vertex 0. -/
def overlapEmptyRunContext : OsdCpuEvalStencilsContext :=
  { stencils := { numStencils := 2, sizes := [0, 1], offsets := [0, 0], indices := [0],
                  weights := [1], duWeights := [1], dvWeights := [1] },
    controlDataDesc := packed 1,
    outputDataDesc := { offset := 0, length := 1, stride := 0 },
    duDataDesc := packed 1, dvDataDesc := packed 1,
    controlData := some [5],
    outputData := [9], outputUDerivData := [9, 9], outputVDerivData := [9, 9] }

/-- A table whose last element has an empty run that starts at the end of the
index and weight arrays: `offsets[1] = 1` is the length of both. -/
def trailingEmptyRunContext : OsdCpuEvalStencilsContext :=
  { stencils := { numStencils := 2, sizes := [1, 0], offsets := [0, 1], indices := [0],
                  weights := [1], duWeights := [1], dvWeights := [1] },
    controlDataDesc := packed 1, outputDataDesc := packed 1,
    duDataDesc := packed 1, dvDataDesc := packed 1,
    controlData := some [5],
    outputData := [9, 9], outputUDerivData := [9, 9], outputVDerivData := [9, 9] }

/-- A table whose first element has an empty run that starts inside the index
and weight arrays; element 1 copies the control vertex 0. -/
def emptyMiddleRunContext : OsdCpuEvalStencilsContext :=
  { stencils := { numStencils := 2, sizes := [0, 1], offsets := [0, 0], indices := [0],
                  weights := [1], duWeights := [1], dvWeights := [1] },
    controlDataDesc := packed 1, outputDataDesc := packed 1,
    duDataDesc := packed 1, dvDataDesc := packed 1,
    controlData := some [5],
    outputData := [9, 9, 9], outputUDerivData := [9, 9], outputVDerivData := [9, 9] }

end OpenSubdiv

namespace OpenSubdiv

/-- The control buffer of the concrete scenario. -/
def scenarioControl : List real := [1, 2, 3, 3, 4, 5]

/-- A second control buffer of the layout of the scenario. -/
def onesControl : List real := [1, 1, 1, 1, 1, 1]

end OpenSubdiv

/-! ## Contexts of the derivative evaluation -/

namespace OpenSubdiv

/-- One element over a two-channel control vertex, with a du descriptor of two
channels and a dv descriptor of one channel; the dv buffer has a second cell
after the one channel of element 0. -/
def narrowDvContext : OsdCpuEvalStencilsContext :=
  { stencils := { numStencils := 1, sizes := [1], offsets := [0], indices := [0],
                  weights := [1], duWeights := [1], dvWeights := [1] },
    controlDataDesc := packed 2, outputDataDesc := packed 2,
    duDataDesc := packed 2, dvDataDesc := packed 1,
    controlData := some [5, 7],
    outputData := [9, 9], outputUDerivData := [9, 9], outputVDerivData := [9, 9] }

/-- The stencil table of the concrete scenario, sizes `[2,1]`, offsets `[0,2]`,
indices `[0,1,1]` and weights `[0.5,0.5,1.0]`, over given arrays of derivative
weights. -/
def positionTable (duWeights dvWeights : List real) : FarStencilTables :=
  { numStencils := 2, sizes := [2, 1], offsets := [0, 2], indices := [0, 1, 1],
    weights := [1/2, 1/2, 1], duWeights := duWeights, dvWeights := dvWeights }

/-- The stencil table of the concrete scenario with the derivative weights of
the derivative scenario on the run of element 0, `duWeights = [0.5, -0.5]` and
`dvWeights = [0, 1.0]`, and the weights `wu` and `wv` on the run of
element 1. -/
def derivativeTable (wu wv : real) : FarStencilTables :=
  positionTable [1/2, -1/2, wu] [0, 1, wv]

/-- The context of the concrete scenario over a given table and given initial
contents of the three output buffers: three channels, tightly packed, the
control buffer `[[1,2,3],[3,4,5]]`. -/
def scenarioOver (t : FarStencilTables) (out du dv : List real) : OsdCpuEvalStencilsContext :=
  { stencils := t,
    controlDataDesc := packed 3, outputDataDesc := packed 3,
    duDataDesc := packed 3, dvDataDesc := packed 3,
    controlData := some [1, 2, 3, 3, 4, 5],
    outputData := out, outputUDerivData := du, outputVDerivData := dv }

end OpenSubdiv

/-! ## The element loop in another order, and well-formed tables -/

namespace OpenSubdiv

/-- The iterations of a loop run one after the other in the order of the list
`order`, stopping at the first fault. -/
def forEachIn {σ : Type} (body : Nat → σ → Except Fault σ) : List Nat → σ → Except Fault σ
  | [], s => Except.ok s
  | i :: rest, s =>
    match body i s with
    | Except.ok t => forEachIn body rest t
    | Except.error e => Except.error e

namespace OsdOmpEvalStencilsController

/-- The method `_UpdateValues` with the iterations of its parallel loop run in
the order of the list `order` instead of ascending; the rest is the text of
`_UpdateValues`. -/
def _UpdateValuesInOrder (order : List Nat) (context : OsdCpuEvalStencilsContext) :
    Except Fault (Nat × OsdCpuEvalStencilsContext) :=
  let result := 0
  let stencils := context.GetStencilTables
  let nstencils := stencils.GetNumStencils
  if nstencils = 0 then Except.ok (result, context) else
  let ctrlDesc := context.GetControlDataDescriptor
  let outDesc := context.GetOutputDataDescriptor
  if ! ctrlDesc.CanEval outDesc then Except.ok (0, context) else
  let ctrl := context.GetControlData.add ctrlDesc.offset
  if ctrl.isNull then Except.ok (result, context) else
  match forEachIn (valuesBody stencils ctrlDesc outDesc ctrl) order context.GetOutputData with
  | Except.error e => Except.error e
  | Except.ok outData => Except.ok (nstencils, { context with outputData := outData })

/-- The method `_UpdateDerivs` with the iterations of its parallel loop run in
the order of the list `order` instead of ascending; the rest is the text of
`_UpdateDerivs`. -/
def _UpdateDerivsInOrder (order : List Nat) (context : OsdCpuEvalStencilsContext) :
    Except Fault (Nat × OsdCpuEvalStencilsContext) :=
  let result := 0
  let stencils := context.GetStencilTables
  let nstencils := stencils.GetNumStencils
  if nstencils = 0 then Except.ok (result, context) else
  let ctrlDesc := context.GetControlDataDescriptor
  let duDesc := context.GetDuDataDescriptor
  let dvDesc := context.GetDvDataDescriptor
  if ! (ctrlDesc.CanEval duDesc && ctrlDesc.CanEval dvDesc) then Except.ok (0, context) else
  let ctrl := context.GetControlData.add ctrlDesc.offset
  if ctrl.isNull then Except.ok (result, context) else
  match forEachIn (derivsBody stencils ctrlDesc duDesc dvDesc ctrl) order
      (context.GetOutputUDerivData, context.GetOutputVDerivData) with
  | Except.error e => Except.error e
  | Except.ok data =>
    Except.ok (nstencils,
      { context with outputUDerivData := data.1, outputVDerivData := data.2 })

end OsdOmpEvalStencilsController

/-- A well-formed stencil table over `numControlVertices` control vertices, in
the words of the claim on the safety of the element steps: `sizes` and
`offsets` have one entry for each stencil, `indices` and `weights` have one
length, every run ends inside them (`offsets[i] + sizes[i] ≤ |indices|`), and
every index names a control vertex. -/
def WellFormedTable (t : FarStencilTables) (numControlVertices : Nat) : Prop :=
  t.sizes.length = t.numStencils ∧ t.offsets.length = t.numStencils ∧
  t.indices.length = t.weights.length ∧
  (∀ i, i < t.numStencils → t.offsets.getD i 0 + t.sizes.getD i 0 ≤ t.indices.length) ∧
  ∀ idx, idx ∈ t.indices → idx < numControlVertices

/-- A control buffer holds `numControlVertices` vertices under a descriptor:
the `length` channels of each of them lie in the buffer. -/
def HoldsVertices (control : Option (List real)) (ctrlDesc : OsdVertexBufferDescriptor)
    (numControlVertices : Nat) : Prop :=
  ∀ v, v < numControlVertices →
    ctrlDesc.offset + v * ctrlDesc.stride + ctrlDesc.length ≤ (control.getD []).length

end OpenSubdiv

/-! ## The compute controller

`OsdOmpComputeController::Refine` of
`src/tess_RifFilter/opensubdiv/osd/ompComputeController.h` and the constructor
of `OsdOmpEvalStencilsController`.  The calls that `Refine` makes are recorded,
oldest first, next to the context they act on. -/

namespace OpenSubdiv

/-- Modelled from the spec: the header declaring `FarKernelBatch` is not among
the sources.  The spec gives a kernel batch as kernel type, rule variant, the
range of output indices and the level. -/
structure FarKernelBatch where
  kernelType : Nat
  ruleVariant : Nat
  indexStart : Nat
  indexEnd : Nat
  level : Nat
  deriving DecidableEq, Repr

/-- Modelled from the spec: the header declaring `OsdCpuComputeContext` is not
among the sources.  The spec: `Bind` attaches fresh buffer pointers for one
evaluation, `Unbind` clears them.  A buffer pointer is the number naming a
host buffer, or `none` for the null pointer; the context is Unbound when it
holds no pointer. -/
structure OsdCpuComputeContext where
  currentVertexBuffer : Option Nat
  currentVaryingBuffer : Option Nat
  deriving DecidableEq, Repr

/-- Modelled from the spec: `OsdCpuComputeContext::Bind` attaches the two
buffer pointers. -/
def OsdCpuComputeContext.Bind (_c : OsdCpuComputeContext)
    (vertexBuffer varyingBuffer : Option Nat) : OsdCpuComputeContext :=
  { currentVertexBuffer := vertexBuffer, currentVaryingBuffer := varyingBuffer }

/-- Modelled from the spec: `OsdCpuComputeContext::Unbind` clears the buffer
pointers. -/
def OsdCpuComputeContext.Unbind (_c : OsdCpuComputeContext) : OsdCpuComputeContext :=
  { currentVertexBuffer := none, currentVaryingBuffer := none }

/-- The context holds no buffer pointer. -/
def OsdCpuComputeContext.Unbound (c : OsdCpuComputeContext) : Prop :=
  c.currentVertexBuffer = none ∧ c.currentVaryingBuffer = none

/-- One call made by `Refine`. -/
inductive RefineCall where
  | omp_set_num_threads (numThreads : Int)
  | Bind (vertexBuffer varyingBuffer : Option Nat)
  | FarDispatcherRefine (batches : List FarKernelBatch) (maxlevel : Int)
  | Unbind
  deriving DecidableEq, Repr

/-- The context that `Refine` acts on together with the calls made so far,
oldest first. -/
structure RefineState where
  context : OsdCpuComputeContext
  calls : List RefineCall
  deriving DecidableEq, Repr

/-- The controller object: its one data member (line 140). -/
structure OsdOmpComputeController where
  _numThreads : Int
  deriving DecidableEq, Repr

namespace OsdOmpComputeController

/-- The four-argument `Refine`, lines 72-88.  `FarDispatcher::Refine` is not
among the sources: its effect on the context is the parameter `dispatcher`. -/
def Refine (self : OsdOmpComputeController)
    (dispatcher : OsdOmpComputeController → List FarKernelBatch → Int →
      OsdCpuComputeContext → OsdCpuComputeContext)
    (s : RefineState) (batches : List FarKernelBatch)
    (vertexBuffer varyingBuffer : Option Nat) : RefineState :=
  if batches.isEmpty then s else
  let s1 : RefineState :=
    { context := s.context,
      calls := s.calls ++ [RefineCall.omp_set_num_threads self._numThreads] }
  let s2 : RefineState :=
    { context := s1.context.Bind vertexBuffer varyingBuffer,
      calls := s1.calls ++ [RefineCall.Bind vertexBuffer varyingBuffer] }
  let s3 : RefineState :=
    { context := dispatcher self batches (-1) s2.context,
      calls := s2.calls ++ [RefineCall.FarDispatcherRefine batches (-1)] }
  { context := s3.context.Unbind, calls := s3.calls ++ [RefineCall.Unbind] }

/-- The three-argument `Refine`, lines 99-104: the four-argument one with
`(VERTEX_BUFFER*)0` as the varying buffer. -/
def Refine3 (self : OsdOmpComputeController)
    (dispatcher : OsdOmpComputeController → List FarKernelBatch → Int →
      OsdCpuComputeContext → OsdCpuComputeContext)
    (s : RefineState) (batches : List FarKernelBatch)
    (vertexBuffer : Option Nat) : RefineState :=
  Refine self dispatcher s batches vertexBuffer none

end OsdOmpComputeController

/-- The constructor `OsdOmpEvalStencilsController(int numThreads)`, lines 32-35
of `ompEvalStencilsController.cpp`: the value stored in `_numThreads`.  The
result of `omp_get_num_procs()` is the parameter `omp_get_num_procs`. -/
def OsdOmpEvalStencilsController.construct (omp_get_num_procs numThreads : Int) : Int :=
  if numThreads = -1 then omp_get_num_procs else numThreads

/-- A dispatcher that leaves the context as it finds it. -/
def idleDispatcher : OsdOmpComputeController → List FarKernelBatch → Int →
    OsdCpuComputeContext → OsdCpuComputeContext :=
  fun _ _ _ c => c

/-- A dispatcher that leaves other pointers in the context. -/
def rebindingDispatcher : OsdOmpComputeController → List FarKernelBatch → Int →
    OsdCpuComputeContext → OsdCpuComputeContext :=
  fun _ _ _ _ => { currentVertexBuffer := some 7, currentVaryingBuffer := some 8 }

/-- An Unbound context before any call. -/
def freshState : RefineState :=
  { context := { currentVertexBuffer := none, currentVaryingBuffer := none }, calls := [] }

/-- A controller of four threads. -/
def fourThreads : OsdOmpComputeController := { _numThreads := 4 }

/-- One batch over the output elements 0 to 9. -/
def oneBatch : List FarKernelBatch :=
  [{ kernelType := 1, ruleVariant := 0, indexStart := 0, indexEnd := 10, level := 1 }]

end OpenSubdiv

/-! ## Predicates on one-dimensional elements

`src/freestyle/stroke/Predicates1D.h`. -/

namespace Predicates1D

/-- The header declaring `Id` is not among the sources; an `Id` is the pair of
unsigned numbers it is built from (`Id(idFirst, idSecond)`, line 309), and two
of them are equal when both numbers are. -/
structure Id where
  first : Nat
  second : Nat
  deriving DecidableEq, Repr

/-- The header declaring `ViewShape` is not among the sources; of a
`ViewShape` the model keeps the `Id` returned by `getId()`. -/
structure ViewShape where
  id : Id
  deriving DecidableEq, Repr

/-- The accessor `getId()`. -/
def ViewShape.getId (s : ViewShape) : Id := s.id

/-- The header declaring `ViewEdge` is not among the sources; of a `ViewEdge`
the model keeps the unsigned number returned by `getChainingTimeStamp()`. -/
structure ViewEdge where
  chainingTimeStamp : Nat
  deriving DecidableEq, Repr

/-- The accessor `getChainingTimeStamp()`. -/
def ViewEdge.getChainingTimeStamp (e : ViewEdge) : Nat := e.chainingTimeStamp

/-- The header declaring `Interface1D` is not among the sources; of an
`Interface1D` the model keeps what the predicates below read: the 2D length
returned by `getLength2D()`, an exact number; the unsigned number returned by
`getTimeStamp()`; the `ViewEdge` that `dynamic_cast<ViewEdge*>` yields, `none`
when the element is no `ViewEdge` and the cast yields the null pointer; and the
shapes that `Functions1D::getShapeF1D` puts into the set it is given, in the
order in which the set iterates over them. -/
structure Interface1D where
  length2D : ℚ
  timeStamp : Nat := 0
  viewEdge : Option ViewEdge := none
  shapes : List ViewShape := []
  deriving DecidableEq, Repr

/-- The accessor `getLength2D()`. -/
def Interface1D.getLength2D (i : Interface1D) : ℚ := i.length2D

/-- The accessor `getTimeStamp()`. -/
def Interface1D.getTimeStamp (i : Interface1D) : Nat := i.timeStamp

/-- The `()` operator of `EqualToTimeStampUP1D`, lines 261-263, for the
predicate built with `ts`. -/
def EqualToTimeStampUP1D (ts : Nat) (inter : Interface1D) : Bool :=
  inter.getTimeStamp == ts

/-- The `()` operator of `EqualToChainingTimeStampUP1D`, lines 283-288, for the
predicate built with `ts`. -/
def EqualToChainingTimeStampUP1D (ts : Nat) (inter : Interface1D) : Bool :=
  match inter.viewEdge with
  | none => false
  | some edge => decide (edge.getChainingTimeStamp ≥ ts)

/-- The inner loop of `SameShapeIdBP1D`, lines 403-408, over the shapes of the
second element that are left: `true` when the loop returns true, `false` when
it runs to its end. -/
def sameShapeIdInner (current : Id) : List ViewShape → Bool
  | [] => false
  | s2 :: rest => if s2.getId = current then true else sameShapeIdInner current rest

/-- The outer loop of `SameShapeIdBP1D`, lines 399-409, over the shapes of the
first element that are left, followed by the `return false` of line 410. -/
def sameShapeIdOuter (shapes2 : List ViewShape) : List ViewShape → Bool
  | [] => false
  | s :: rest =>
    if sameShapeIdInner s.getId shapes2 then true else sameShapeIdOuter shapes2 rest

/-- The `()` operator of `SameShapeIdBP1D`, lines 393-411. -/
def SameShapeIdBP1D (i1 i2 : Interface1D) : Bool :=
  let shapes1 := i1.shapes
  let shapes2 := i2.shapes
  sameShapeIdOuter shapes2 shapes1

/-- The `()` operator of `Length2DBP1D`, lines 376-378. -/
def Length2DBP1D (i1 i2 : Interface1D) : Bool :=
  decide (i1.getLength2D > i2.getLength2D)

/-- An element of 2D length 2. -/
def longElement : Interface1D := { length2D := 2 }

/-- An element of 2D length 1. -/
def shortElement : Interface1D := { length2D := 1 }

/-- A `ViewEdge` of time stamp 5 and chaining time stamp 5. -/
def chainedEdge : Interface1D :=
  { length2D := 1, timeStamp := 5, viewEdge := some { chainingTimeStamp := 5 } }

/-- An element of time stamp 3 that is no `ViewEdge`. -/
def plainElement : Interface1D := { length2D := 1, timeStamp := 3 }

/-- An element of the shapes of Ids (1,0) and (2,0). -/
def twoShapeElement : Interface1D :=
  { length2D := 1, shapes := [{ id := { first := 1, second := 0 } },
                              { id := { first := 2, second := 0 } }] }

/-- An element of the shapes of Ids (3,0) and (2,0). -/
def otherShapeElement : Interface1D :=
  { length2D := 1, shapes := [{ id := { first := 3, second := 0 } },
                              { id := { first := 2, second := 0 } }] }

end Predicates1D

/-! ## Materials

`src/freestyle/scene_graph/Material.h`.  A `float` is an exact number; an array
of four floats is a function on the four indices. -/

/-- The loop `for (i = 0; i < 4; i++) body(i)` over a state. -/
def forEach4 {σ : Type} (body : Fin 4 → σ → σ) (s : σ) : σ :=
  body 3 (body 2 (body 1 (body 0 s)))

/-- The data members of `Material`, lines 172-177. -/
structure Material where
  Diffuse : Fin 4 → ℚ
  Specular : Fin 4 → ℚ
  Ambient : Fin 4 → ℚ
  Emission : Fin 4 → ℚ
  Shininess : ℚ

namespace Material

/-- The accessor `diffuse()`, line 67. -/
def diffuse (m : Material) : Fin 4 → ℚ := m.Diffuse
/-- The accessor `diffuseR()`, line 69. -/
def diffuseR (m : Material) : ℚ := m.Diffuse 0
/-- The accessor `diffuseG()`, line 71. -/
def diffuseG (m : Material) : ℚ := m.Diffuse 1
/-- The accessor `diffuseB()`, line 73. -/
def diffuseB (m : Material) : ℚ := m.Diffuse 2
/-- The accessor `diffuseA()`, line 75. -/
def diffuseA (m : Material) : ℚ := m.Diffuse 3

/-- The accessor `specular()`, line 78. -/
def specular (m : Material) : Fin 4 → ℚ := m.Specular
/-- The accessor `specularR()`, line 80. -/
def specularR (m : Material) : ℚ := m.Specular 0
/-- The accessor `specularG()`, line 82. -/
def specularG (m : Material) : ℚ := m.Specular 1
/-- The accessor `specularB()`, line 84. -/
def specularB (m : Material) : ℚ := m.Specular 2
/-- The accessor `specularA()`, line 86. -/
def specularA (m : Material) : ℚ := m.Specular 3

/-- The accessor `ambient()`, line 89. -/
def ambient (m : Material) : Fin 4 → ℚ := m.Ambient
/-- The accessor `ambientR()`, line 91. -/
def ambientR (m : Material) : ℚ := m.Ambient 0
/-- The accessor `ambientG()`, line 93. -/
def ambientG (m : Material) : ℚ := m.Ambient 1
/-- The accessor `ambientB()`, line 95. -/
def ambientB (m : Material) : ℚ := m.Ambient 2
/-- The accessor `ambientA()`, line 97. -/
def ambientA (m : Material) : ℚ := m.Ambient 3

/-- The accessor `emission()`, line 100. -/
def emission (m : Material) : Fin 4 → ℚ := m.Emission
/-- The accessor `emissionR()`, line 102. -/
def emissionR (m : Material) : ℚ := m.Emission 0
/-- The accessor `emissionG()`, line 104. -/
def emissionG (m : Material) : ℚ := m.Emission 1
/-- The accessor `emissionB()`, line 106. -/
def emissionB (m : Material) : ℚ := m.Emission 2
/-- The accessor `emissionA()`, line 108. -/
def emissionA (m : Material) : ℚ := m.Emission 3

/-- The accessor `shininess()`, line 111. -/
def shininess (m : Material) : ℚ := m.Shininess

/-- The constructor from four arrays and a shininess, lines 198-213, run on an
object `self` whose members hold whatever the storage held before. -/
def construct (self : Material) (iDiffuse iAmbiant iSpecular iEmission : Fin 4 → ℚ)
    (iShininess : ℚ) : Material :=
  let filled := forEach4 (fun i (m : Material) =>
    let m1 := { m with Diffuse := Function.update m.Diffuse i (iDiffuse i) }
    let m2 := { m1 with Specular := Function.update m1.Specular i (iSpecular i) }
    let m3 := { m2 with Ambient := Function.update m2.Ambient i (iAmbiant i) }
    { m3 with Emission := Function.update m3.Emission i (iEmission i) }) self
  { filled with Shininess := iShininess }

/-- The setter `SetDiffuse`, lines 228-234. -/
def SetDiffuse (self : Material) (r g b a : ℚ) : Material :=
  let m0 := { self with Diffuse := Function.update self.Diffuse 0 r }
  let m1 := { m0 with Diffuse := Function.update m0.Diffuse 1 g }
  let m2 := { m1 with Diffuse := Function.update m1.Diffuse 2 b }
  { m2 with Diffuse := Function.update m2.Diffuse 3 a }

/-- The setter `SetSpecular`, lines 236-242. -/
def SetSpecular (self : Material) (r g b a : ℚ) : Material :=
  let m0 := { self with Specular := Function.update self.Specular 0 r }
  let m1 := { m0 with Specular := Function.update m0.Specular 1 g }
  let m2 := { m1 with Specular := Function.update m1.Specular 2 b }
  { m2 with Specular := Function.update m2.Specular 3 a }

/-- The setter `SetAmbient`, lines 244-250. -/
def SetAmbient (self : Material) (r g b a : ℚ) : Material :=
  let m0 := { self with Ambient := Function.update self.Ambient 0 r }
  let m1 := { m0 with Ambient := Function.update m0.Ambient 1 g }
  let m2 := { m1 with Ambient := Function.update m1.Ambient 2 b }
  { m2 with Ambient := Function.update m2.Ambient 3 a }

/-- The setter `SetEmission`, lines 252-258. -/
def SetEmission (self : Material) (r g b a : ℚ) : Material :=
  let m0 := { self with Emission := Function.update self.Emission 0 r }
  let m1 := { m0 with Emission := Function.update m0.Emission 1 g }
  let m2 := { m1 with Emission := Function.update m1.Emission 2 b }
  { m2 with Emission := Function.update m2.Emission 3 a }

/-- The setter `SetShininess`, lines 260-263. -/
def SetShininess (self : Material) (s : ℚ) : Material :=
  { self with Shininess := s }

/-- The loop of `operator!=`, lines 284-294, over the indices that are left,
followed by the `return false` of line 296. -/
def notEqualLoop (self m : Material) : List (Fin 4) → Bool
  | [] => false
  | i :: rest =>
    if self.Diffuse i ≠ m.diffuse i then true
    else if self.Specular i ≠ m.specular i then true
    else if self.Ambient i ≠ m.ambient i then true
    else if self.Emission i ≠ m.emission i then true
    else notEqualLoop self m rest

/-- The operator `!=`, lines 280-297. -/
def notEqual (self m : Material) : Bool :=
  if self.Shininess ≠ m.shininess then true
  else notEqualLoop self m [0, 1, 2, 3]

/-- The operator `==`, lines 299-302. -/
def equal (self m : Material) : Bool :=
  ! (self.notEqual m)

end Material

/-- The colour red, green, blue, alpha given by its four components. -/
def colour (r g b a : ℚ) : Fin 4 → ℚ := ![r, g, b, a]

/-! ## The silhouette geometry engine

`src/freestyle/view_map/SilhouetteGeomEngine.cpp`.  A `real` is an exact
number; the arguments of `SetTransform` are values, distinct from the static
members it assigns. -/

/-- The static data members of `SilhouetteGeomEngine` that `SetTransform` and
`SetFrustum` read or assign, lines 31-56. -/
structure SilhouetteGeomEngine where
  _translation : Fin 3 → ℚ
  _modelViewMatrix : Fin 4 → Fin 4 → ℚ
  _projectionMatrix : Fin 4 → Fin 4 → ℚ
  _transform : Fin 4 → Fin 4 → ℚ
  _viewport : Fin 4 → Int
  _Focal : ℚ
  _glProjectionMatrix : Fin 4 → Fin 4 → ℚ
  _glModelViewMatrix : Fin 4 → Fin 4 → ℚ
  _znear : ℚ
  _zfar : ℚ

namespace SilhouetteGeomEngine

/-- The assignment `m[i][j] = x` to one cell of a 4 by 4 array. -/
def assign (m : Fin 4 → Fin 4 → ℚ) (i j : Fin 4) (x : ℚ) : Fin 4 → Fin 4 → ℚ :=
  Function.update m i (Function.update (m i) j x)

/-- The first loop nest of `SetTransform`, lines 67-73. -/
def copyModelView (iModelViewMatrix : Fin 4 → Fin 4 → ℚ)
    (s : SilhouetteGeomEngine) : SilhouetteGeomEngine :=
  forEach4 (fun i s => forEach4 (fun j (s : SilhouetteGeomEngine) =>
    let s1 := { s with
      _modelViewMatrix := assign s._modelViewMatrix i j (iModelViewMatrix j i) }
    { s1 with
      _glModelViewMatrix := assign s1._glModelViewMatrix i j (iModelViewMatrix i j) }) s) s

/-- The second loop nest of `SetTransform`, lines 75-81. -/
def copyProjection (iProjectionMatrix : Fin 4 → Fin 4 → ℚ)
    (s : SilhouetteGeomEngine) : SilhouetteGeomEngine :=
  forEach4 (fun i s => forEach4 (fun j (s : SilhouetteGeomEngine) =>
    let s1 := { s with
      _projectionMatrix := assign s._projectionMatrix i j (iProjectionMatrix j i) }
    { s1 with
      _glProjectionMatrix := assign s1._glProjectionMatrix i j (iProjectionMatrix i j) }) s) s

/-- The third loop nest of `SetTransform`, lines 83-90: each cell of
`_transform` is set to 0 and then gains the four products one after the
other. -/
def combine (s : SilhouetteGeomEngine) : SilhouetteGeomEngine :=
  forEach4 (fun i s => forEach4 (fun j (s : SilhouetteGeomEngine) =>
    let s0 := { s with _transform := assign s._transform i j 0 }
    forEach4 (fun k (s : SilhouetteGeomEngine) =>
      let sum := s._transform i j + s._projectionMatrix i k * s._modelViewMatrix k j
      { s with _transform := assign s._transform i j sum }) s0) s) s

/-- The method `SetTransform`, lines 60-96. -/
def SetTransform (s : SilhouetteGeomEngine)
    (iModelViewMatrix iProjectionMatrix : Fin 4 → Fin 4 → ℚ)
    (iViewport : Fin 4 → Int) (iFocal : ℚ) : SilhouetteGeomEngine :=
  let s0 := { s with _translation := Function.update s._translation 0 (iModelViewMatrix 3 0) }
  let s1 := { s0 with _translation := Function.update s0._translation 1 (iModelViewMatrix 3 1) }
  let s2 := { s1 with _translation := Function.update s1._translation 2 (iModelViewMatrix 3 2) }
  let s3 := copyModelView iModelViewMatrix s2
  let s4 := copyProjection iProjectionMatrix s3
  let s5 := combine s4
  let s6 := forEach4 (fun i (s : SilhouetteGeomEngine) =>
    { s with _viewport := Function.update s._viewport i (iViewport i) }) s5
  { s6 with _Focal := iFocal }

/-- The method `ImageToWorldParameter`, lines 149-208: its first statement is
`return t;`, so no statement after it is run.  `FEdge` is the type of the
edges, which the header that declares it, not among the sources, would
give. -/
def ImageToWorldParameter {FEdge : Type} (_s : SilhouetteGeomEngine) (_fe : FEdge) (t : ℚ) : ℚ :=
  t

/-- The 4 by 4 identity matrix. -/
def identity4 : Fin 4 → Fin 4 → ℚ := fun i j => if i = j then 1 else 0

end SilhouetteGeomEngine

namespace OpenSubdiv

/-- The concrete scenario over a table whose derivative weights are its
weights, with tightly packed three-channel descriptors for all three streams
and three output buffers of six cells with different contents. -/
def agreeingContext : OsdCpuEvalStencilsContext :=
  scenarioOver (positionTable [1/2, 1/2, 1] [1/2, 1/2, 1])
    [9, 9, 9, 9, 9, 9] [8, 8, 8, 8, 8, 8] [7, 7, 7, 7, 7, 7]

/-- The two one-channel elements of `overlapContext` with the output
descriptor of stride 0 as du and dv descriptor too, over derivative buffers of
one cell: the derivative weights are the weights, and both elements occupy
cell 0 of each of the three buffers. -/
def overlapAgreeingContext : OsdCpuEvalStencilsContext :=
  { overlapContext with
    duDataDesc := overlapContext.outputDataDesc,
    dvDataDesc := overlapContext.outputDataDesc,
    outputUDerivData := [9], outputVDerivData := [9] }

end OpenSubdiv

/-! ## Loops and buffer accesses -/

namespace OpenSubdiv

theorem forLoop_progress {σ : Type} (body : Nat → σ → Except Fault σ) (Inv : Nat → σ → Prop)
    (n : Nat) (s : σ) (h0 : Inv 0 s)
    (hstep : ∀ i, i < n → ∀ u, Inv i u → ∃ v, body i u = Except.ok v ∧ Inv (i + 1) v) :
    ∃ t, forLoop body n s = Except.ok t ∧ Inv n t := by
  induction n with
  | zero => exact ⟨s, rfl, h0⟩
  | succ m ih =>
    obtain ⟨u, hu, hInv⟩ := ih (fun i hi => hstep i (Nat.lt_succ_of_lt hi))
    obtain ⟨v, hv, hInv'⟩ := hstep m (Nat.lt_succ_self m) u hInv
    exact ⟨v, by simp [forLoop, hu, hv], hInv'⟩

theorem forLoop_inversion {σ : Type} (body : Nat → σ → Except Fault σ) (Inv : Nat → σ → Prop)
    (n : Nat) (s t : σ) (hrun : forLoop body n s = Except.ok t) (h0 : Inv 0 s)
    (hstep : ∀ i, i < n → ∀ u v, Inv i u → body i u = Except.ok v → Inv (i + 1) v) :
    Inv n t := by
  induction n generalizing t with
  | zero =>
    simp only [forLoop, Except.ok.injEq] at hrun
    exact hrun ▸ h0
  | succ m ih =>
    simp only [forLoop] at hrun
    cases hu : forLoop body m s with
    | error e => simp [hu] at hrun
    | ok u =>
      rw [hu] at hrun
      exact hstep m (Nat.lt_succ_self m) u t
        (ih u hu (fun i hi => hstep i (Nat.lt_succ_of_lt hi))) hrun

theorem writeCell_eq_ok {buf : List real} {p : Nat} {x : real} {b : List real} :
    writeCell buf p x = Except.ok b ↔ p < buf.length ∧ b = buf.set p x := by
  unfold writeCell
  split
  · simp_all [eq_comm]
  · simp_all

theorem readCell_eq_ok {buf : List real} {p : Nat} {x : real} :
    readCell buf p = Except.ok x ↔ p < buf.length ∧ x = buf.getD p 0 := by
  unfold readCell
  by_cases h : p < buf.length
  · simp [List.getElem?_eq_getElem h, h, eq_comm]
  · simp [List.getElem?_eq_none (Nat.le_of_not_lt h), h]

theorem addAssign_eq_ok {buf : List real} {p : Nat} {x : real} {b : List real} :
    addAssign buf p x = Except.ok b ↔ p < buf.length ∧ b = buf.set p (buf.getD p 0 + x) := by
  unfold addAssign
  cases hr : readCell buf p with
  | error e =>
    constructor
    · intro h
      cases h
    · rintro ⟨hp, -⟩
      have : readCell buf p = Except.ok (buf.getD p 0) := readCell_eq_ok.mpr ⟨hp, rfl⟩
      simp [hr] at this
  | ok o =>
    obtain ⟨hp, ho⟩ := readCell_eq_ok.mp hr
    simp only [writeCell_eq_ok, ho]

theorem vectorIndex_eq_ok {v : List Nat} {i x : Nat} :
    vectorIndex v i = Except.ok x ↔ i < v.length ∧ x = v.getD i 0 := by
  unfold vectorIndex
  by_cases h : i < v.length
  · simp [List.getElem?_eq_getElem h, h, eq_comm]
  · simp [List.getElem?_eq_none (Nat.le_of_not_lt h), h]

theorem vectorIndex_real_eq_ok {v : List real} {i : Nat} {x : real} :
    vectorIndex v i = Except.ok x ↔ i < v.length ∧ x = v.getD i 0 := by
  unfold vectorIndex
  by_cases h : i < v.length
  · simp [List.getElem?_eq_getElem h, h, eq_comm]
  · simp [List.getElem?_eq_none (Nat.le_of_not_lt h), h]

theorem vectorAt_eq_ok {α : Type} {v : List α} {pos x : Nat} :
    vectorAt v pos = Except.ok x ↔ pos < v.length ∧ x = pos := by
  unfold vectorAt
  split
  · simp_all [eq_comm]
  · simp_all

theorem ConstRealPtr.read_eq_ok {p : ConstRealPtr} {k : Nat} {x : real} :
    p.read k = Except.ok x ↔
      p.pos + k < (p.data.getD []).length ∧ x = (p.data.getD []).getD (p.pos + k) 0 := by
  unfold ConstRealPtr.read
  cases hd : p.data with
  | none => simp
  | some buf =>
    by_cases h : p.pos + k < buf.length
    · simp [List.getElem?_eq_getElem h, h, eq_comm]
    · simp [List.getElem?_eq_none (Nat.le_of_not_lt h), h]

end OpenSubdiv

/-! ## The loops of one output element -/

namespace OpenSubdiv

theorem memsetZero_ok {buf : List real} {p len : Nat} (h : len ≠ 0 → p + len ≤ buf.length) :
    ∃ b, memsetZero buf p len = Except.ok b := by
  obtain ⟨b, hb, -⟩ := forLoop_progress (fun k b => writeCell b (p + k) 0)
    (fun _ u => u.length = buf.length) len buf rfl (by
      intro k hk u hu
      refine ⟨u.set (p + k) 0, writeCell_eq_ok.mpr ⟨?_, rfl⟩, by simp [hu]⟩
      have := h (by omega)
      omega)
  exact ⟨b, hb⟩

theorem memsetZero_spec {buf b : List real} {p len : Nat}
    (h : memsetZero buf p len = Except.ok b) :
    b.length = buf.length ∧ (len ≠ 0 → p + len ≤ buf.length) ∧
      ∀ c, b[c]? = if p ≤ c ∧ c < p + len then some 0 else buf[c]? := by
  have key := forLoop_inversion (fun k b => writeCell b (p + k) 0)
    (fun k u => u.length = buf.length ∧ (k ≠ 0 → p + k ≤ buf.length) ∧
      ∀ c, u[c]? = if p ≤ c ∧ c < p + k then some 0 else buf[c]?)
    len buf b h ⟨rfl, by simp, by intro c; rw [if_neg (by omega)]⟩ (by
      intro k _ u v ⟨hlen, _, hcells⟩ hv
      obtain ⟨hp, rfl⟩ := writeCell_eq_ok.mp hv
      refine ⟨by simp [hlen], fun _ => by omega, ?_⟩
      intro c
      rw [List.getElem?_set, hcells c]
      by_cases hc : p + k = c
      · subst hc
        simp [hp]
      · rw [if_neg hc]
        by_cases h1 : p ≤ c ∧ c < p + k
        · rw [if_pos h1, if_pos ⟨h1.1, by omega⟩]
        · rw [if_neg h1, if_neg (by omega)])
  exact key

theorem accumulate_ok {cv : ConstRealPtr} {w : real} {p len : Nat} {buf : List real}
    (hout : ∀ k, k < len → p + k < buf.length)
    (hcv : ∀ k, k < len → cv.pos + k < (cv.data.getD []).length) :
    ∃ b, OsdOmpEvalStencilsController.accumulate cv w p len buf = Except.ok b := by
  unfold OsdOmpEvalStencilsController.accumulate
  obtain ⟨b, hb, -⟩ := forLoop_progress
    (fun k b =>
      match cv.read k with
      | Except.error e => Except.error e
      | Except.ok c => addAssign b (p + k) (c * w))
    (fun _ u => u.length = buf.length) len buf rfl (by
      intro k hk u hu
      have hr : cv.read k = Except.ok ((cv.data.getD []).getD (cv.pos + k) 0) :=
        ConstRealPtr.read_eq_ok.mpr ⟨hcv k hk, rfl⟩
      refine ⟨u.set (p + k) (u.getD (p + k) 0 + (cv.data.getD []).getD (cv.pos + k) 0 * w),
        ?_, by simp [hu]⟩
      simp only [hr]
      exact addAssign_eq_ok.mpr ⟨by rw [hu]; exact hout k hk, rfl⟩)
  exact ⟨b, hb⟩

theorem accumulate_spec {cv : ConstRealPtr} {w : real} {p len : Nat} {buf b : List real}
    (h : OsdOmpEvalStencilsController.accumulate cv w p len buf = Except.ok b) :
    b.length = buf.length ∧
      (∀ k, k < len → p + k < buf.length ∧ cv.pos + k < (cv.data.getD []).length) ∧
      ∀ c, b[c]? = if p ≤ c ∧ c < p + len
        then some (buf.getD c 0 + (cv.data.getD []).getD (cv.pos + (c - p)) 0 * w)
        else buf[c]? := by
  unfold OsdOmpEvalStencilsController.accumulate at h
  have key := forLoop_inversion _
    (fun k u => u.length = buf.length ∧
      (∀ k', k' < k → p + k' < buf.length ∧ cv.pos + k' < (cv.data.getD []).length) ∧
      ∀ c, u[c]? = if p ≤ c ∧ c < p + k
        then some (buf.getD c 0 + (cv.data.getD []).getD (cv.pos + (c - p)) 0 * w)
        else buf[c]?)
    len buf b h ⟨rfl, by simp, by intro c; rw [if_neg (by omega)]⟩ (by
      intro k _ u v ⟨hlen, hsafe, hcells⟩ hv
      cases hr : cv.read k with
      | error e => simp [hr] at hv
      | ok x =>
        simp only [hr] at hv
        obtain ⟨hx, rfl⟩ := ConstRealPtr.read_eq_ok.mp hr
        obtain ⟨hp, rfl⟩ := addAssign_eq_ok.mp hv
        have hold : u.getD (p + k) 0 = buf.getD (p + k) 0 := by
          simp only [List.getD_eq_getElem?_getD]
          rw [hcells (p + k), if_neg (by omega)]
        refine ⟨by simp [hlen], ?_, ?_⟩
        · intro k' hk'
          by_cases hkk : k' = k
          · subst hkk
            exact ⟨by omega, hx⟩
          · exact hsafe k' (by omega)
        · intro c
          rw [List.getElem?_set, hcells c]
          by_cases hc : p + k = c
          · subst hc
            rw [if_pos rfl, if_pos hp, if_pos ⟨by omega, by omega⟩, hold]
            simp
          · rw [if_neg hc]
            by_cases h1 : p ≤ c ∧ c < p + k
            · rw [if_pos h1, if_pos ⟨h1.1, by omega⟩]
            · rw [if_neg h1, if_neg (by omega)])
  exact key

end OpenSubdiv

namespace OpenSubdiv

theorem stencilSum_eq_range (t : FarStencilTables) (weights : List real)
    (ctrlDesc : OsdVertexBufferDescriptor) (control : Option (List real)) (i k : Nat) :
    stencilSum t weights ctrlDesc control i k =
      ∑ j ∈ Finset.range (t.sizes.getD i 0),
        weights.getD (t.offsets.getD i 0 + j) 0 *
          controlValue control ctrlDesc (t.indices.getD (t.offsets.getD i 0 + j) 0) k := by
  unfold stencilSum
  rw [Finset.sum_Ico_eq_sum_range]
  simp

/-- The run loop of `valuesBody` (lines 77-84) started on a buffer `z`: when
it returns, every lookup of the run was in range and each channel of the
element has gained the weighted sum of the run. -/
theorem valuesRun_spec {t : FarStencilTables} {ctrlDesc : OsdVertexBufferDescriptor}
    {ctrl : ConstRealPtr} {off p len size : Nat} {z b : List real}
    (hpos : ctrl.pos = ctrlDesc.offset) (hwin : len ≠ 0 → p + len ≤ z.length)
    (h : forLoop (fun j b =>
      match vectorIndex t.indices (off + j) with
      | Except.error e => Except.error e
      | Except.ok idx =>
        match vectorIndex t.weights (off + j) with
        | Except.error e => Except.error e
        | Except.ok w =>
          OsdOmpEvalStencilsController.accumulate (ctrl.add (idx * ctrlDesc.stride)) w p len b)
      size z = Except.ok b) :
    b.length = z.length ∧
      (∀ j, j < size → off + j < t.indices.length ∧ off + j < t.weights.length ∧
        ∀ k, k < len → p + k < z.length ∧
          ctrlDesc.offset + t.indices.getD (off + j) 0 * ctrlDesc.stride + k
            < (ctrl.data.getD []).length) ∧
      ∀ c, b[c]? = if p ≤ c ∧ c < p + len
        then some (z.getD c 0 + ∑ j ∈ Finset.range size, t.weights.getD (off + j) 0 *
          controlValue ctrl.data ctrlDesc (t.indices.getD (off + j) 0) (c - p))
        else z[c]? := by
  have key := forLoop_inversion _
    (fun n u => u.length = z.length ∧
      (∀ j, j < n → off + j < t.indices.length ∧ off + j < t.weights.length ∧
        ∀ k, k < len → p + k < z.length ∧
          ctrlDesc.offset + t.indices.getD (off + j) 0 * ctrlDesc.stride + k
            < (ctrl.data.getD []).length) ∧
      ∀ c, u[c]? = if p ≤ c ∧ c < p + len
        then some (z.getD c 0 + ∑ j ∈ Finset.range n, t.weights.getD (off + j) 0 *
          controlValue ctrl.data ctrlDesc (t.indices.getD (off + j) 0) (c - p))
        else z[c]?)
    size z b h ⟨rfl, by simp, by
      intro c
      by_cases hc : p ≤ c ∧ c < p + len
      · rw [if_pos hc]
        simp only [Finset.range_zero, Finset.sum_empty, add_zero, List.getD_eq_getElem?_getD]
        have hcz : c < z.length := by
          have := hwin (by omega)
          omega
        simp [List.getElem?_eq_getElem hcz]
      · rw [if_neg hc]⟩ (by
      intro n _ u v ⟨hlen, hsafe, hcells⟩ hv
      cases hi : vectorIndex t.indices (off + n) with
      | error e => simp [hi] at hv
      | ok idx =>
        simp only [hi] at hv
        cases hw : vectorIndex t.weights (off + n) with
        | error e => simp [hw] at hv
        | ok w =>
          simp only [hw] at hv
          obtain ⟨hidx, rfl⟩ := vectorIndex_eq_ok.mp hi
          obtain ⟨hwt, rfl⟩ := vectorIndex_real_eq_ok.mp hw
          obtain ⟨hlen', hacc, hcells'⟩ := accumulate_spec hv
          refine ⟨by rw [hlen', hlen], ?_, ?_⟩
          · intro j hj
            by_cases hjn : j = n
            · subst hjn
              refine ⟨hidx, hwt, fun k hk => ?_⟩
              have := hacc k hk
              simp only [ConstRealPtr.add, hpos] at this
              exact ⟨by omega, this.2⟩
            · exact hsafe j (by omega)
          · intro c
            rw [hcells' c]
            by_cases hc : p ≤ c ∧ c < p + len
            · rw [if_pos hc, if_pos hc]
              have hu : u.getD c 0 = z.getD c 0 + ∑ j ∈ Finset.range n,
                  t.weights.getD (off + j) 0 *
                    controlValue ctrl.data ctrlDesc (t.indices.getD (off + j) 0) (c - p) := by
                rw [List.getD_eq_getElem?_getD u, hcells c, if_pos hc]
                rfl
              rw [hu, Finset.sum_range_succ]
              simp only [ConstRealPtr.add, hpos, controlValue]
              congr 1
              ring
            · rw [if_neg hc, if_neg hc, hcells c, if_neg hc])
  exact key

end OpenSubdiv

namespace OpenSubdiv

theorem valuesRun_ok {t : FarStencilTables} {ctrlDesc : OsdVertexBufferDescriptor}
    {ctrl : ConstRealPtr} {off p len size : Nat} {z : List real}
    (hpos : ctrl.pos = ctrlDesc.offset) (hwin : len ≠ 0 → p + len ≤ z.length)
    (hsafe : ∀ j, j < size → off + j < t.indices.length ∧ off + j < t.weights.length ∧
        ∀ k, k < len →
          ctrlDesc.offset + t.indices.getD (off + j) 0 * ctrlDesc.stride + k
            < (ctrl.data.getD []).length) :
    ∃ b, forLoop (fun j b =>
      match vectorIndex t.indices (off + j) with
      | Except.error e => Except.error e
      | Except.ok idx =>
        match vectorIndex t.weights (off + j) with
        | Except.error e => Except.error e
        | Except.ok w =>
          OsdOmpEvalStencilsController.accumulate (ctrl.add (idx * ctrlDesc.stride)) w p len b)
      size z = Except.ok b := by
  obtain ⟨b, hb, -⟩ := forLoop_progress
    (fun j b =>
      match vectorIndex t.indices (off + j) with
      | Except.error e => Except.error e
      | Except.ok idx =>
        match vectorIndex t.weights (off + j) with
        | Except.error e => Except.error e
        | Except.ok w =>
          OsdOmpEvalStencilsController.accumulate (ctrl.add (idx * ctrlDesc.stride)) w p len b)
    (fun _ u => u.length = z.length) size z rfl (by
      intro j hj u hu
      obtain ⟨hidx, hwt, hctl⟩ := hsafe j hj
      have hi : vectorIndex t.indices (off + j) = Except.ok (t.indices.getD (off + j) 0) :=
        vectorIndex_eq_ok.mpr ⟨hidx, rfl⟩
      have hw : vectorIndex t.weights (off + j) = Except.ok (t.weights.getD (off + j) 0) :=
        vectorIndex_real_eq_ok.mpr ⟨hwt, rfl⟩
      simp only [hi, hw]
      obtain ⟨v, hv⟩ := @accumulate_ok
        (ctrl.add (t.indices.getD (off + j) 0 * ctrlDesc.stride))
        (t.weights.getD (off + j) 0) p len u
        (by
          intro k hk
          have := hwin (by omega)
          omega)
        (by
          intro k hk
          simp only [ConstRealPtr.add, hpos]
          exact hctl k hk)
      exact ⟨v, hv, ((accumulate_spec hv).1).trans hu⟩)
  exact ⟨b, hb⟩

/-- The loop body of `_UpdateValues` for element `i`: when it returns, every
lookup it made was in range, the buffer keeps its length, each channel of
element `i` holds the weighted sum of the contract and every other cell is
as before. -/
theorem valuesBody_spec {t : FarStencilTables} {ctrlDesc outDesc : OsdVertexBufferDescriptor}
    {ctrl : ConstRealPtr} {i : Nat} {buf b : List real}
    (hpos : ctrl.pos = ctrlDesc.offset)
    (h : OsdOmpEvalStencilsController.valuesBody t ctrlDesc outDesc ctrl i buf = Except.ok b) :
    ValuesInRange t ctrlDesc outDesc ctrl.data buf.length i ∧ b.length = buf.length ∧
      ∀ c, b[c]? = if outDesc.covers i c
        then some (stencilSum t t.weights ctrlDesc ctrl.data i (c - outDesc.slot i))
        else buf[c]? := by
  unfold OsdOmpEvalStencilsController.valuesBody at h
  simp only [FarStencilTables.GetSizes, FarStencilTables.GetOffsets,
    FarStencilTables.GetControlIndices, FarStencilTables.GetWeights] at h
  cases hs : vectorIndex t.sizes i with
  | error e => simp [hs] at h
  | ok size =>
  simp only [hs] at h
  cases ho : vectorIndex t.offsets i with
  | error e => simp [ho] at h
  | ok off =>
  simp only [ho] at h
  cases hi : vectorAt t.indices off with
  | error e => simp [hi] at h
  | ok index =>
  simp only [hi] at h
  cases hw : vectorAt t.weights off with
  | error e => simp [hw] at h
  | ok weight =>
  simp only [hw] at h
  cases hm : memsetZero buf (i * outDesc.stride + outDesc.offset) outDesc.length with
  | error e => simp [hm] at h
  | ok z =>
  simp only [hm] at h
  obtain ⟨hsz, rfl⟩ := vectorIndex_eq_ok.mp hs
  obtain ⟨hof, rfl⟩ := vectorIndex_eq_ok.mp ho
  obtain ⟨hidx, rfl⟩ := vectorAt_eq_ok.mp hi
  obtain ⟨hwt, rfl⟩ := vectorAt_eq_ok.mp hw
  obtain ⟨hzlen, hzwin, hzcells⟩ := memsetZero_spec hm
  obtain ⟨hblen, hsafe, hcells⟩ := valuesRun_spec hpos (by rw [hzlen]; exact hzwin) h
  refine ⟨⟨hsz, hof, hidx, hwt, hzwin, ?_⟩, by rw [hblen, hzlen], ?_⟩
  · intro j hj
    obtain ⟨h1, h2, h3⟩ := hsafe j hj
    exact ⟨h1, h2, fun k hk => (h3 k hk).2⟩
  · intro c
    rw [hcells c, stencilSum_eq_range]
    unfold OsdVertexBufferDescriptor.covers OsdVertexBufferDescriptor.slot
    by_cases hc : i * outDesc.stride + outDesc.offset ≤ c ∧
        c < i * outDesc.stride + outDesc.offset + outDesc.length
    · rw [if_pos hc, if_pos hc]
      have hz0 : z.getD c 0 = 0 := by
        rw [List.getD_eq_getElem?_getD, hzcells c, if_pos hc]
        rfl
      rw [hz0, zero_add]
    · rw [if_neg hc, if_neg hc, hzcells c, if_neg hc]

theorem valuesBody_ok {t : FarStencilTables} {ctrlDesc outDesc : OsdVertexBufferDescriptor}
    {ctrl : ConstRealPtr} {i : Nat} {buf : List real}
    (hpos : ctrl.pos = ctrlDesc.offset)
    (h : ValuesInRange t ctrlDesc outDesc ctrl.data buf.length i) :
    ∃ b, OsdOmpEvalStencilsController.valuesBody t ctrlDesc outDesc ctrl i buf = Except.ok b := by
  obtain ⟨hsz, hof, hidx, hwt, hwin, hrun⟩ := h
  unfold OsdOmpEvalStencilsController.valuesBody
  simp only [FarStencilTables.GetSizes, FarStencilTables.GetOffsets,
    FarStencilTables.GetControlIndices, FarStencilTables.GetWeights]
  have hs : vectorIndex t.sizes i = Except.ok (t.sizes.getD i 0) :=
    vectorIndex_eq_ok.mpr ⟨hsz, rfl⟩
  have ho : vectorIndex t.offsets i = Except.ok (t.offsets.getD i 0) :=
    vectorIndex_eq_ok.mpr ⟨hof, rfl⟩
  have hi : vectorAt t.indices (t.offsets.getD i 0) = Except.ok (t.offsets.getD i 0) :=
    vectorAt_eq_ok.mpr ⟨hidx, rfl⟩
  have hw : vectorAt t.weights (t.offsets.getD i 0) = Except.ok (t.offsets.getD i 0) :=
    vectorAt_eq_ok.mpr ⟨hwt, rfl⟩
  obtain ⟨z, hz⟩ := @memsetZero_ok buf (i * outDesc.stride + outDesc.offset)
    outDesc.length hwin
  simp only [hs, ho, hi, hw, hz]
  exact valuesRun_ok hpos (by rw [(memsetZero_spec hz).1]; exact hwin) hrun

end OpenSubdiv

/-! ## The loop over the output elements -/

namespace OpenSubdiv

theorem lastWriter_some {d : OsdVertexBufferDescriptor} {n c i : Nat}
    (h : d.lastWriter n c = some i) : i < n ∧ d.covers i c := by
  induction n with
  | zero => simp [OsdVertexBufferDescriptor.lastWriter] at h
  | succ m ih =>
    unfold OsdVertexBufferDescriptor.lastWriter at h
    by_cases hc : d.covers m c
    · rw [if_pos hc] at h
      cases h
      exact ⟨Nat.lt_succ_self _, hc⟩
    · rw [if_neg hc] at h
      exact ⟨Nat.lt_succ_of_lt (ih h).1, (ih h).2⟩

theorem lastWriter_none {d : OsdVertexBufferDescriptor} {n c : Nat} :
    d.lastWriter n c = none ↔ ∀ i, i < n → ¬ d.covers i c := by
  induction n with
  | zero => simp [OsdVertexBufferDescriptor.lastWriter]
  | succ m ih =>
    unfold OsdVertexBufferDescriptor.lastWriter
    by_cases hc : d.covers m c
    · rw [if_pos hc]
      constructor
      · intro h
        cases h
      · intro h
        exact absurd hc (h m (Nat.lt_succ_self m))
    · rw [if_neg hc, ih]
      constructor
      · intro h i hi
        by_cases him : i = m
        · subst him
          exact hc
        · exact h i (by omega)
      · intro h i hi
        exact h i (Nat.lt_succ_of_lt hi)

theorem slot_mono {d : OsdVertexBufferDescriptor} {i j : Nat} (h : i < j) :
    d.slot i + d.stride ≤ d.slot j := by
  unfold OsdVertexBufferDescriptor.slot
  have : (i + 1) * d.stride ≤ j * d.stride := Nat.mul_le_mul_right _ h
  have h2 : (i + 1) * d.stride = i * d.stride + d.stride := by ring
  omega

/-- With `length ≤ stride` the channels of two different elements share no
cell. -/
theorem covers_unique {d : OsdVertexBufferDescriptor} (hd : d.length ≤ d.stride)
    {i j c : Nat} (hi : d.covers i c) (hj : d.covers j c) : i = j := by
  unfold OsdVertexBufferDescriptor.covers at hi hj
  rcases Nat.lt_trichotomy i j with h | h | h
  · have := slot_mono (d := d) h
    omega
  · exact h
  · have := slot_mono (d := d) h
    omega

theorem lastWriter_of_covers {d : OsdVertexBufferDescriptor} (hd : d.length ≤ d.stride)
    {n i c : Nat} (hi : i < n) (hc : d.covers i c) : d.lastWriter n c = some i := by
  cases h : d.lastWriter n c with
  | none => exact absurd hc (lastWriter_none.mp h i hi)
  | some j => rw [covers_unique hd hc (lastWriter_some h).2]

/-- The element loop of `_UpdateValues` over the first `n` elements: when it
returns, every lookup was in range, the buffer keeps its length, a cell that
some element covers holds the weighted sum of the last element covering it,
and every other cell is as before. -/
theorem valuesLoop_spec {t : FarStencilTables} {ctrlDesc outDesc : OsdVertexBufferDescriptor}
    {ctrl : ConstRealPtr} {n : Nat} {buf b : List real}
    (hpos : ctrl.pos = ctrlDesc.offset)
    (h : forLoop (OsdOmpEvalStencilsController.valuesBody t ctrlDesc outDesc ctrl) n buf
      = Except.ok b) :
    (∀ i, i < n → ValuesInRange t ctrlDesc outDesc ctrl.data buf.length i) ∧
      b.length = buf.length ∧
      ∀ c, b[c]? = match outDesc.lastWriter n c with
        | some i => some (stencilSum t t.weights ctrlDesc ctrl.data i (c - outDesc.slot i))
        | none => buf[c]? := by
  have key := forLoop_inversion _
    (fun m u => (∀ i, i < m → ValuesInRange t ctrlDesc outDesc ctrl.data buf.length i) ∧
      u.length = buf.length ∧
      ∀ c, u[c]? = match outDesc.lastWriter m c with
        | some i => some (stencilSum t t.weights ctrlDesc ctrl.data i (c - outDesc.slot i))
        | none => buf[c]?)
    n buf b h ⟨by simp, rfl, by intro c; simp [OsdVertexBufferDescriptor.lastWriter]⟩ (by
      intro m _ u v ⟨hsafe, hlen, hcells⟩ hv
      obtain ⟨hrange, hvlen, hvcells⟩ := valuesBody_spec hpos hv
      refine ⟨?_, by rw [hvlen, hlen], ?_⟩
      · intro i hi
        by_cases him : i = m
        · subst him
          rw [← hlen]
          exact hrange
        · exact hsafe i (by omega)
      · intro c
        rw [hvcells c]
        unfold OsdVertexBufferDescriptor.lastWriter
        by_cases hc : outDesc.covers m c
        · rw [if_pos hc, if_pos hc]
        · rw [if_neg hc, if_neg hc]
          exact hcells c)
  exact key

theorem valuesLoop_ok {t : FarStencilTables} {ctrlDesc outDesc : OsdVertexBufferDescriptor}
    {ctrl : ConstRealPtr} {n : Nat} {buf : List real}
    (hpos : ctrl.pos = ctrlDesc.offset)
    (h : ∀ i, i < n → ValuesInRange t ctrlDesc outDesc ctrl.data buf.length i) :
    ∃ b, forLoop (OsdOmpEvalStencilsController.valuesBody t ctrlDesc outDesc ctrl) n buf
      = Except.ok b := by
  obtain ⟨b, hb, -⟩ := forLoop_progress
    (OsdOmpEvalStencilsController.valuesBody t ctrlDesc outDesc ctrl)
    (fun _ u => u.length = buf.length) n buf rfl (by
      intro i hi u hu
      obtain ⟨v, hv⟩ := @valuesBody_ok t ctrlDesc outDesc ctrl i u hpos
        (by rw [hu]; exact h i hi)
      exact ⟨v, hv, ((valuesBody_spec hpos hv).2.1).trans hu⟩)
  exact ⟨b, hb⟩

end OpenSubdiv

/-! ## The whole call -/

namespace OpenSubdiv

open OsdOmpEvalStencilsController

/-- The three early returns of `_UpdateValues`: no stencil, a failed
capability check, or a null control pointer. -/
theorem updateValues_gate (ctx : OsdCpuEvalStencilsContext)
    (h : ctx.stencils.GetNumStencils = 0 ∨
      ctx.controlDataDesc.CanEval ctx.outputDataDesc = false ∨
      (ctx.controlData = none ∧ ctx.controlDataDesc.offset = 0)) :
    _UpdateValues ctx = Except.ok (0, ctx) := by
  unfold _UpdateValues
  simp only [OsdCpuEvalStencilsContext.GetStencilTables,
    OsdCpuEvalStencilsContext.GetControlDataDescriptor,
    OsdCpuEvalStencilsContext.GetOutputDataDescriptor,
    OsdCpuEvalStencilsContext.GetControlData, ConstRealPtr.add, ConstRealPtr.isNull]
  by_cases hn : ctx.stencils.GetNumStencils = 0
  · simp [hn]
  · by_cases hc : ctx.controlDataDesc.CanEval ctx.outputDataDesc = false
    · simp [hn, hc]
    · rcases h with h | h | ⟨h1, h2⟩
      · exact absurd h hn
      · exact absurd h hc
      · simp [hn, h1, h2]

/-- Past its early returns `_UpdateValues` is the element loop over the output
buffer. -/
theorem updateValues_run (ctx : OsdCpuEvalStencilsContext)
    (hn : ctx.stencils.GetNumStencils ≠ 0)
    (hcan : ctx.controlDataDesc.CanEval ctx.outputDataDesc = true)
    (hnull : ¬ (ctx.controlData = none ∧ ctx.controlDataDesc.offset = 0)) :
    _UpdateValues ctx =
      match forLoop (valuesBody ctx.stencils ctx.controlDataDesc ctx.outputDataDesc
          { data := ctx.controlData, pos := ctx.controlDataDesc.offset })
          ctx.stencils.GetNumStencils ctx.outputData with
      | Except.error e => Except.error e
      | Except.ok b => Except.ok (ctx.stencils.GetNumStencils, { ctx with outputData := b }) := by
  unfold _UpdateValues
  simp only [OsdCpuEvalStencilsContext.GetStencilTables,
    OsdCpuEvalStencilsContext.GetControlDataDescriptor,
    OsdCpuEvalStencilsContext.GetOutputDataDescriptor,
    OsdCpuEvalStencilsContext.GetOutputData,
    OsdCpuEvalStencilsContext.GetControlData, ConstRealPtr.add, ConstRealPtr.isNull]
  have hnull' : (ctx.controlData.isNone && (ctx.controlDataDesc.offset == 0)) = false := by
    cases hd : ctx.controlData with
    | none =>
      have : ctx.controlDataDesc.offset ≠ 0 := fun h0 => hnull ⟨hd, h0⟩
      simp [this]
    | some b => simp
  simp only [hn, hcan, hnull', if_false, Bool.not_true, Bool.false_eq_true, Nat.zero_add]

/-- A call of `_UpdateValues` that returns either took an early return and
changed nothing, or ran the element loop to its end. -/
theorem updateValues_ok_cases {ctx ctx' : OsdCpuEvalStencilsContext} {r : Nat}
    (h : _UpdateValues ctx = Except.ok (r, ctx')) :
    (r = 0 ∧ ctx' = ctx ∧ (ctx.stencils.GetNumStencils = 0 ∨
        ctx.controlDataDesc.CanEval ctx.outputDataDesc = false ∨
        (ctx.controlData = none ∧ ctx.controlDataDesc.offset = 0))) ∨
    (ctx.stencils.GetNumStencils ≠ 0 ∧
      ctx.controlDataDesc.CanEval ctx.outputDataDesc = true ∧
      ¬ (ctx.controlData = none ∧ ctx.controlDataDesc.offset = 0) ∧
      r = ctx.stencils.GetNumStencils ∧
      ∃ b, forLoop (valuesBody ctx.stencils ctx.controlDataDesc ctx.outputDataDesc
          { data := ctx.controlData, pos := ctx.controlDataDesc.offset })
          ctx.stencils.GetNumStencils ctx.outputData = Except.ok b ∧
        ctx' = { ctx with outputData := b }) := by
  by_cases hg : ctx.stencils.GetNumStencils = 0 ∨
      ctx.controlDataDesc.CanEval ctx.outputDataDesc = false ∨
      (ctx.controlData = none ∧ ctx.controlDataDesc.offset = 0)
  · rw [updateValues_gate ctx hg] at h
    simp only [Except.ok.injEq, Prod.mk.injEq] at h
    exact Or.inl ⟨h.1.symm, h.2.symm, hg⟩
  · simp only [not_or] at hg
    obtain ⟨hn, hcan, hnull⟩ := hg
    have hcan' : ctx.controlDataDesc.CanEval ctx.outputDataDesc = true := by
      simpa using hcan
    rw [updateValues_run ctx hn hcan' hnull] at h
    cases hl : forLoop (valuesBody ctx.stencils ctx.controlDataDesc ctx.outputDataDesc
          { data := ctx.controlData, pos := ctx.controlDataDesc.offset })
          ctx.stencils.GetNumStencils ctx.outputData with
    | error e => simp [hl] at h
    | ok b =>
      simp only [hl, Except.ok.injEq, Prod.mk.injEq] at h
      exact Or.inr ⟨hn, hcan', hnull, h.1.symm, b, rfl, h.2.symm⟩

end OpenSubdiv

namespace OpenSubdiv

open OsdOmpEvalStencilsController

/-- A call of `_UpdateValues` that returns a count other than 0 passed the
three checks, made only lookups in range and changed the output buffer alone:
a cell that some element covers holds the weighted sum of the last element
covering it, every other cell is as before. -/
theorem updateValues_spec {ctx ctx' : OsdCpuEvalStencilsContext} {r : Nat}
    (h : _UpdateValues ctx = Except.ok (r, ctx')) (hr : r ≠ 0) :
    r = ctx.stencils.GetNumStencils ∧
      ctx.controlDataDesc.CanEval ctx.outputDataDesc = true ∧
      ¬ (ctx.controlData = none ∧ ctx.controlDataDesc.offset = 0) ∧
      (∀ i, i < ctx.stencils.GetNumStencils →
        ValuesInRange ctx.stencils ctx.controlDataDesc ctx.outputDataDesc ctx.controlData
          ctx.outputData.length i) ∧
      ctx' = { ctx with outputData := ctx'.outputData } ∧
      ctx'.outputData.length = ctx.outputData.length ∧
      ∀ c, ctx'.outputData[c]? = match ctx.outputDataDesc.lastWriter ctx.stencils.GetNumStencils c with
        | some i => some (stencilSum ctx.stencils ctx.stencils.weights ctx.controlDataDesc
            ctx.controlData i (c - ctx.outputDataDesc.slot i))
        | none => ctx.outputData[c]? := by
  rcases updateValues_ok_cases h with ⟨h0, -, -⟩ | ⟨-, hcan, hnull, hrn, b, hb, hctx⟩
  · exact absurd h0 hr
  · obtain ⟨hrange, hlen, hcells⟩ := valuesLoop_spec rfl hb
    subst hctx
    exact ⟨hrn, hcan, hnull, hrange, rfl, hlen, hcells⟩

/-- Past the three checks, with every lookup in range, `_UpdateValues` returns
the number of stencils and a context that differs in the output buffer
alone. -/
theorem updateValues_ok (ctx : OsdCpuEvalStencilsContext)
    (hn : ctx.stencils.GetNumStencils ≠ 0)
    (hcan : ctx.controlDataDesc.CanEval ctx.outputDataDesc = true)
    (hnull : ¬ (ctx.controlData = none ∧ ctx.controlDataDesc.offset = 0))
    (hrange : ∀ i, i < ctx.stencils.GetNumStencils →
      ValuesInRange ctx.stencils ctx.controlDataDesc ctx.outputDataDesc ctx.controlData
        ctx.outputData.length i) :
    ∃ b, _UpdateValues ctx
      = Except.ok (ctx.stencils.GetNumStencils, { ctx with outputData := b }) := by
  obtain ⟨b, hb⟩ := @valuesLoop_ok ctx.stencils ctx.controlDataDesc ctx.outputDataDesc
    { data := ctx.controlData, pos := ctx.controlDataDesc.offset }
    ctx.stencils.GetNumStencils ctx.outputData rfl hrange
  exact ⟨b, by rw [updateValues_run ctx hn hcan hnull, hb]⟩

/-- The lookups of an element depend on the control buffer through its length
alone. -/
theorem ValuesInRange.of_length_eq {t : FarStencilTables}
    {ctrlDesc outDesc : OsdVertexBufferDescriptor} {control control' : Option (List real)}
    {outLength i : Nat} (hlen : (control'.getD []).length = (control.getD []).length)
    (h : ValuesInRange t ctrlDesc outDesc control outLength i) :
    ValuesInRange t ctrlDesc outDesc control' outLength i := by
  unfold ValuesInRange at h ⊢
  rw [hlen]
  exact h

theorem covers_cell (d : OsdVertexBufferDescriptor) {i k : Nat} (hk : k < d.length) :
    d.covers i (d.offset + i * d.stride + k) ∧ d.offset + i * d.stride + k - d.slot i = k := by
  unfold OsdVertexBufferDescriptor.covers OsdVertexBufferDescriptor.slot
  omega

theorem covers_iff_cell (d : OsdVertexBufferDescriptor) {i c : Nat} :
    d.covers i c ↔ ∃ k, k < d.length ∧ c = d.offset + i * d.stride + k := by
  unfold OsdVertexBufferDescriptor.covers OsdVertexBufferDescriptor.slot
  constructor
  · intro h
    exact ⟨c - (i * d.stride + d.offset), by omega, by omega⟩
  · rintro ⟨k, hk, rfl⟩
    omega

end OpenSubdiv

/-! ## The claims on the stencil evaluation -/

namespace OpenSubdiv

open OsdOmpEvalStencilsController

theorem overlapContext_eval :
    _UpdateValues overlapContext = Except.ok (2, { overlapContext with outputData := [2] }) := by
  simp [_UpdateValues, overlapContext, packed, valuesBody, forLoop, accumulate, memsetZero,
    vectorIndex, vectorAt, addAssign, readCell, writeCell, ConstRealPtr.read, ConstRealPtr.add,
    ConstRealPtr.isNull, OsdVertexBufferDescriptor.CanEval,
    OsdCpuEvalStencilsContext.GetStencilTables, FarStencilTables.GetNumStencils,
    FarStencilTables.GetSizes, FarStencilTables.GetOffsets, FarStencilTables.GetControlIndices,
    FarStencilTables.GetWeights, OsdCpuEvalStencilsContext.GetControlDataDescriptor,
    OsdCpuEvalStencilsContext.GetOutputDataDescriptor, OsdCpuEvalStencilsContext.GetControlData,
    OsdCpuEvalStencilsContext.GetOutputData]

theorem emptyRunContext_eval :
    _UpdateValues emptyRunContext = Except.error Fault.outOfRange := by
  simp [_UpdateValues, emptyRunContext, packed, valuesBody, forLoop, accumulate, memsetZero,
    vectorIndex, vectorAt, addAssign, readCell, writeCell, ConstRealPtr.read, ConstRealPtr.add,
    ConstRealPtr.isNull, OsdVertexBufferDescriptor.CanEval,
    OsdCpuEvalStencilsContext.GetStencilTables, FarStencilTables.GetNumStencils,
    FarStencilTables.GetSizes, FarStencilTables.GetOffsets, FarStencilTables.GetControlIndices,
    FarStencilTables.GetWeights, OsdCpuEvalStencilsContext.GetControlDataDescriptor,
    OsdCpuEvalStencilsContext.GetOutputDataDescriptor, OsdCpuEvalStencilsContext.GetControlData,
    OsdCpuEvalStencilsContext.GetOutputData]

/-- C1, as stated, fails on the code.  With an output descriptor of stride 0
and length 1 the two elements of `overlapContext` share cell 0: the call
passes every check and returns 2 with the sum of element 1 in that cell, and
no output buffer at all meets the contract, which asks cell 0 to hold the sum
of element 0 and the sum of element 1.  And on `emptyRunContext`, whose only
run is empty and starts at the end of the index array, the checked lookup
`at(offset)` throws: no count is reported. -/
theorem C1_counterexample :
    (overlapContext.stencils.GetNumStencils ≠ 0 ∧
      overlapContext.controlDataDesc.CanEval overlapContext.outputDataDesc = true ∧
      overlapContext.controlData ≠ none ∧
      _UpdateValues overlapContext
        = Except.ok (2, { overlapContext with outputData := [2] }) ∧
      ¬ ∃ ctx', ValuesContract overlapContext ctx') ∧
    (emptyRunContext.stencils.GetNumStencils ≠ 0 ∧
      emptyRunContext.controlDataDesc.CanEval emptyRunContext.outputDataDesc = true ∧
      emptyRunContext.controlData ≠ none ∧
      _UpdateValues emptyRunContext = Except.error Fault.outOfRange) := by
  refine ⟨⟨by decide, by decide, by simp [overlapContext], overlapContext_eval, ?_⟩,
    ⟨by decide, by decide, by simp [emptyRunContext], emptyRunContext_eval⟩⟩
  rintro ⟨ctx', hcontract⟩
  have h0 := hcontract 0 (by decide) 0 (by decide)
  have h1 := hcontract 1 (by decide) 0 (by decide)
  simp [overlapContext, packed, stencilSum, controlValue] at h0 h1
  rw [h0] at h1
  norm_num at h1

/-- C1 (amended).  For every stencil table with `nstencils > 0` and every
context that passes the capability check with an available control buffer,
whose output descriptor has `length ≤ stride` and for which every lookup of
every element is in range (`ValuesInRange`, which asks in particular that
`offsets[i]` be a position of `indices` and of `weights`), `_UpdateValues`
reports `nstencils` elements processed and leaves in
`out[outDesc.offset + i*outDesc.stride + k]`, for every element `i` and
channel `k < outDesc.length`, the sum over `j` in
`[offsets[i], offsets[i]+sizes[i])` of
`weights[j] * control[ctrlDesc.offset + indices[j]*ctrlDesc.stride + k]`. -/
theorem C1_updateValues_contract (ctx : OsdCpuEvalStencilsContext)
    (hn : ctx.stencils.GetNumStencils ≠ 0)
    (hcan : ctx.controlDataDesc.CanEval ctx.outputDataDesc = true)
    (hctl : ctx.controlData ≠ none)
    (hstride : ctx.outputDataDesc.length ≤ ctx.outputDataDesc.stride)
    (hrange : ∀ i, i < ctx.stencils.GetNumStencils →
      ValuesInRange ctx.stencils ctx.controlDataDesc ctx.outputDataDesc ctx.controlData
        ctx.outputData.length i) :
    ∃ ctx', _UpdateValues ctx = Except.ok (ctx.stencils.GetNumStencils, ctx') ∧
      ValuesContract ctx ctx' := by
  have hnull : ¬ (ctx.controlData = none ∧ ctx.controlDataDesc.offset = 0) :=
    fun h => hctl h.1
  obtain ⟨b, hb⟩ := @valuesLoop_ok ctx.stencils ctx.controlDataDesc ctx.outputDataDesc
    { data := ctx.controlData, pos := ctx.controlDataDesc.offset }
    ctx.stencils.GetNumStencils ctx.outputData rfl hrange
  refine ⟨{ ctx with outputData := b }, ?_, ?_⟩
  · rw [updateValues_run ctx hn hcan hnull, hb]
  · intro i hi k hk
    obtain ⟨-, -, hcells⟩ := valuesLoop_spec rfl hb
    have hcov : ctx.outputDataDesc.covers i
        (ctx.outputDataDesc.offset + i * ctx.outputDataDesc.stride + k) := by
      unfold OsdVertexBufferDescriptor.covers OsdVertexBufferDescriptor.slot
      omega
    have hk' : ctx.outputDataDesc.offset + i * ctx.outputDataDesc.stride + k
        - ctx.outputDataDesc.slot i = k := by
      unfold OsdVertexBufferDescriptor.slot
      omega
    show b[_]? = _
    rw [hcells, lastWriter_of_covers hstride hi hcov]
    simp only [hk']

theorem scenarioContext_inRange (i : Nat) (hi : i < scenarioContext.stencils.GetNumStencils) :
    ValuesInRange scenarioContext.stencils scenarioContext.controlDataDesc
      scenarioContext.outputDataDesc scenarioContext.controlData
      scenarioContext.outputData.length i := by
  have h2 : i < 2 := hi
  unfold ValuesInRange
  interval_cases i <;> decide

/-- C1 witness: the concrete scenario meets every hypothesis. -/
theorem C1_updateValues_contract_witness :
    ∃ ctx', _UpdateValues scenarioContext
        = Except.ok (scenarioContext.stencils.GetNumStencils, ctx') ∧
      ValuesContract scenarioContext ctx' :=
  C1_updateValues_contract scenarioContext (by decide) (by decide)
    (by simp [scenarioContext]) (by decide) scenarioContext_inRange

end OpenSubdiv

namespace OpenSubdiv

open OsdOmpEvalStencilsController

/-- The two early returns of `_UpdateDerivs` before the control pointer is
formed: no stencil, or a capability check that fails for du or for dv. -/
theorem updateDerivs_gate (ctx : OsdCpuEvalStencilsContext)
    (h : ctx.stencils.GetNumStencils = 0 ∨
      ctx.controlDataDesc.CanEval ctx.duDataDesc = false ∨
      ctx.controlDataDesc.CanEval ctx.dvDataDesc = false ∨
      (ctx.controlData = none ∧ ctx.controlDataDesc.offset = 0)) :
    _UpdateDerivs ctx = Except.ok (0, ctx) := by
  unfold _UpdateDerivs
  simp only [OsdCpuEvalStencilsContext.GetStencilTables,
    OsdCpuEvalStencilsContext.GetControlDataDescriptor,
    OsdCpuEvalStencilsContext.GetDuDataDescriptor,
    OsdCpuEvalStencilsContext.GetDvDataDescriptor,
    OsdCpuEvalStencilsContext.GetControlData, ConstRealPtr.add, ConstRealPtr.isNull]
  by_cases hn : ctx.stencils.GetNumStencils = 0
  · simp [hn]
  · by_cases hu : ctx.controlDataDesc.CanEval ctx.duDataDesc = false
    · simp [hn, hu]
    · by_cases hv : ctx.controlDataDesc.CanEval ctx.dvDataDesc = false
      · simp [hn, hv]
      · rcases h with h | h | h | ⟨h1, h2⟩
        · exact absurd h hn
        · exact absurd h hu
        · exact absurd h hv
        · simp [hn, h1, h2]

/-- C2: the code at a context whose du descriptor has one channel and whose dv
descriptor has two.  The call returns 1; the dv stream holds the sum on
channel 0 only, channel 1 is left at the zero of `memset`, while the weighted
sum of the contract on that channel is 7. -/
theorem C2_updateDerivs_unequal_lengths :
    unequalLengthsContext.stencils.GetNumStencils ≠ 0 ∧
    unequalLengthsContext.controlDataDesc.CanEval unequalLengthsContext.duDataDesc = true ∧
    unequalLengthsContext.controlDataDesc.CanEval unequalLengthsContext.dvDataDesc = true ∧
    _UpdateDerivs unequalLengthsContext = Except.ok (1,
      { unequalLengthsContext with outputUDerivData := [5], outputVDerivData := [5, 0] }) ∧
    stencilSum unequalLengthsContext.stencils unequalLengthsContext.stencils.dvWeights
      unequalLengthsContext.controlDataDesc unequalLengthsContext.controlData 0 1 = 7 := by
  refine ⟨by decide, by decide, by decide, ?_, ?_⟩
  · simp [_UpdateDerivs, unequalLengthsContext, packed, derivsBody, forLoop, accumulateDerivs,
      memsetZero, vectorIndex, vectorAt, addAssign, readCell, writeCell, ConstRealPtr.read,
      ConstRealPtr.add, ConstRealPtr.isNull, OsdVertexBufferDescriptor.CanEval,
      OsdCpuEvalStencilsContext.GetStencilTables, FarStencilTables.GetNumStencils,
      FarStencilTables.GetSizes, FarStencilTables.GetOffsets, FarStencilTables.GetControlIndices,
      FarStencilTables.GetDuWeights, FarStencilTables.GetDvWeights,
      OsdCpuEvalStencilsContext.GetControlDataDescriptor,
      OsdCpuEvalStencilsContext.GetDuDataDescriptor, OsdCpuEvalStencilsContext.GetDvDataDescriptor,
      OsdCpuEvalStencilsContext.GetControlData, OsdCpuEvalStencilsContext.GetOutputUDerivData,
      OsdCpuEvalStencilsContext.GetOutputVDerivData]
  · simp [unequalLengthsContext, packed, stencilSum, controlValue]

/-- C3.  For every context whose output descriptor's length exceeds the
control descriptor's length, `_UpdateValues` returns 0 and the context after
the call is the context before it: every cell of the output buffer keeps its
value.  (The table may be empty or not.) -/
theorem C3_updateValues_capability_gate (ctx : OsdCpuEvalStencilsContext)
    (h : ctx.controlDataDesc.length < ctx.outputDataDesc.length) :
    _UpdateValues ctx = Except.ok (0, ctx) :=
  updateValues_gate ctx (Or.inr (Or.inl (by
    simp only [OsdVertexBufferDescriptor.CanEval, decide_eq_false_iff_not]
    omega)))

/-- C3 witness: a non-empty table, an output descriptor of four channels over a
control descriptor of three. -/
theorem C3_updateValues_capability_gate_witness :
    wideOutputContext.stencils.GetNumStencils ≠ 0 ∧
    wideOutputContext.controlDataDesc.length < wideOutputContext.outputDataDesc.length ∧
    _UpdateValues wideOutputContext = Except.ok (0, wideOutputContext) :=
  ⟨by decide, by decide, C3_updateValues_capability_gate wideOutputContext (by decide)⟩

/-- C4: the code at a null control base pointer under a control descriptor of
offset 1.  The pointer tested is the base displaced by the offset, which is
not null: both calls go on to the element loop, return 1 instead of 0 and
zero the channels of element 0 in their output buffers. -/
theorem C4_null_control_nonzero_offset :
    nullControlContext.controlData = none ∧
    nullControlContext.stencils.GetNumStencils ≠ 0 ∧
    _UpdateValues nullControlContext =
      Except.ok (1, { nullControlContext with outputData := [0] }) ∧
    _UpdateDerivs nullControlContext =
      Except.ok (1, { nullControlContext with
        outputUDerivData := [0], outputVDerivData := [0] }) := by
  refine ⟨rfl, by decide, ?_, ?_⟩
  · simp [_UpdateValues, nullControlContext, packed, valuesBody, forLoop, accumulate, memsetZero,
      vectorIndex, vectorAt, addAssign, readCell, writeCell, ConstRealPtr.read,
      ConstRealPtr.add, ConstRealPtr.isNull, OsdVertexBufferDescriptor.CanEval,
      OsdCpuEvalStencilsContext.GetStencilTables, FarStencilTables.GetNumStencils,
      FarStencilTables.GetSizes, FarStencilTables.GetOffsets, FarStencilTables.GetControlIndices,
      FarStencilTables.GetWeights, OsdCpuEvalStencilsContext.GetControlDataDescriptor,
      OsdCpuEvalStencilsContext.GetOutputDataDescriptor, OsdCpuEvalStencilsContext.GetControlData,
      OsdCpuEvalStencilsContext.GetOutputData]
  · simp [_UpdateDerivs, nullControlContext, packed, derivsBody, forLoop, accumulateDerivs,
      memsetZero, vectorIndex, vectorAt, addAssign, readCell, writeCell, ConstRealPtr.read,
      ConstRealPtr.add, ConstRealPtr.isNull, OsdVertexBufferDescriptor.CanEval,
      OsdCpuEvalStencilsContext.GetStencilTables, FarStencilTables.GetNumStencils,
      FarStencilTables.GetSizes, FarStencilTables.GetOffsets, FarStencilTables.GetControlIndices,
      FarStencilTables.GetDuWeights, FarStencilTables.GetDvWeights,
      OsdCpuEvalStencilsContext.GetControlDataDescriptor,
      OsdCpuEvalStencilsContext.GetDuDataDescriptor, OsdCpuEvalStencilsContext.GetDvDataDescriptor,
      OsdCpuEvalStencilsContext.GetControlData, OsdCpuEvalStencilsContext.GetOutputUDerivData,
      OsdCpuEvalStencilsContext.GetOutputVDerivData]

/-- With a control descriptor of offset 0 a null control base pointer ends both
calls with 0 and an unchanged context. -/
theorem null_control_zero_offset (ctx : OsdCpuEvalStencilsContext)
    (hnull : ctx.controlData = none) (hoff : ctx.controlDataDesc.offset = 0) :
    _UpdateValues ctx = Except.ok (0, ctx) ∧ _UpdateDerivs ctx = Except.ok (0, ctx) :=
  ⟨updateValues_gate ctx (Or.inr (Or.inr ⟨hnull, hoff⟩)),
    updateDerivs_gate ctx (Or.inr (Or.inr (Or.inr ⟨hnull, hoff⟩)))⟩

/-- C5.  For every context whose stencil table has zero stencils,
`_UpdateValues` and `_UpdateDerivs` return 0 and the context after the call is
the context before it, whatever the descriptors and buffers are. -/
theorem C5_no_stencils (ctx : OsdCpuEvalStencilsContext)
    (h : ctx.stencils.GetNumStencils = 0) :
    _UpdateValues ctx = Except.ok (0, ctx) ∧ _UpdateDerivs ctx = Except.ok (0, ctx) :=
  ⟨updateValues_gate ctx (Or.inl h), updateDerivs_gate ctx (Or.inl h)⟩

/-- C5 witness: the scenario over a table without stencils. -/
theorem C5_no_stencils_witness :
    noStencilContext.stencils.GetNumStencils = 0 ∧
    _UpdateValues noStencilContext = Except.ok (0, noStencilContext) ∧
    _UpdateDerivs noStencilContext = Except.ok (0, noStencilContext) :=
  ⟨by decide, C5_no_stencils noStencilContext (by decide)⟩

/-- C6.  If the du descriptor or the dv descriptor, either one alone, fails the
capability check against the control descriptor, `_UpdateDerivs` returns 0 and
the context after the call is the context before it: neither the du buffer
nor the dv buffer is written.  (The table may be empty or not.) -/
theorem C6_updateDerivs_capability_gate (ctx : OsdCpuEvalStencilsContext)
    (h : ctx.controlDataDesc.CanEval ctx.duDataDesc = false ∨
      ctx.controlDataDesc.CanEval ctx.dvDataDesc = false) :
    _UpdateDerivs ctx = Except.ok (0, ctx) :=
  updateDerivs_gate ctx (h.elim (fun hu => Or.inr (Or.inl hu))
    (fun hv => Or.inr (Or.inr (Or.inl hv))))

/-- C6 witness: a non-empty table where the du descriptor alone fails the
check. -/
theorem C6_updateDerivs_capability_gate_witness :
    wideDuContext.stencils.GetNumStencils ≠ 0 ∧
    wideDuContext.controlDataDesc.CanEval wideDuContext.duDataDesc = false ∧
    wideDuContext.controlDataDesc.CanEval wideDuContext.dvDataDesc = true ∧
    _UpdateDerivs wideDuContext = Except.ok (0, wideDuContext) :=
  ⟨by decide, by decide, by decide,
    C6_updateDerivs_capability_gate wideDuContext (Or.inl (by decide))⟩

end OpenSubdiv

namespace OpenSubdiv

open OsdOmpEvalStencilsController

theorem overlapEmptyRunContext_eval :
    _UpdateValues overlapEmptyRunContext
      = Except.ok (2, { overlapEmptyRunContext with outputData := [5] }) := by
  simp [_UpdateValues, overlapEmptyRunContext, packed, valuesBody, forLoop, accumulate,
    memsetZero, vectorIndex, vectorAt, addAssign, readCell, writeCell, ConstRealPtr.read,
    ConstRealPtr.add, ConstRealPtr.isNull, OsdVertexBufferDescriptor.CanEval,
    OsdCpuEvalStencilsContext.GetStencilTables, FarStencilTables.GetNumStencils,
    FarStencilTables.GetSizes, FarStencilTables.GetOffsets, FarStencilTables.GetControlIndices,
    FarStencilTables.GetWeights, OsdCpuEvalStencilsContext.GetControlDataDescriptor,
    OsdCpuEvalStencilsContext.GetOutputDataDescriptor, OsdCpuEvalStencilsContext.GetControlData,
    OsdCpuEvalStencilsContext.GetOutputData]

theorem trailingEmptyRunContext_eval :
    _UpdateValues trailingEmptyRunContext = Except.error Fault.outOfRange := by
  simp [_UpdateValues, trailingEmptyRunContext, packed, valuesBody, forLoop, accumulate,
    memsetZero, vectorIndex, vectorAt, addAssign, readCell, writeCell, ConstRealPtr.read,
    ConstRealPtr.add, ConstRealPtr.isNull, OsdVertexBufferDescriptor.CanEval,
    OsdCpuEvalStencilsContext.GetStencilTables, FarStencilTables.GetNumStencils,
    FarStencilTables.GetSizes, FarStencilTables.GetOffsets, FarStencilTables.GetControlIndices,
    FarStencilTables.GetWeights, OsdCpuEvalStencilsContext.GetControlDataDescriptor,
    OsdCpuEvalStencilsContext.GetOutputDataDescriptor, OsdCpuEvalStencilsContext.GetControlData,
    OsdCpuEvalStencilsContext.GetOutputData]

/-- C7, as stated, fails on the code.  In `overlapEmptyRunContext` the output
descriptor has stride 0 and length 1, element 0 has an empty run and element 1
copies the control value 5: the call returns 2 and the one channel of
element 0, cell 0, holds 5.  For the two tables the claim names, an empty run
at the end of the table and an empty index array, the call returns nothing:
the checked lookup `at(offset)` throws. -/
theorem C7_counterexample :
    (overlapEmptyRunContext.stencils.sizes[0]? = some 0 ∧
      ∃ ctx', _UpdateValues overlapEmptyRunContext
          = Except.ok (overlapEmptyRunContext.stencils.GetNumStencils, ctx') ∧
        ctx'.outputData[overlapEmptyRunContext.outputDataDesc.offset
          + 0 * overlapEmptyRunContext.outputDataDesc.stride + 0]? ≠ some 0) ∧
    (trailingEmptyRunContext.stencils.sizes[1]? = some 0 ∧
      _UpdateValues trailingEmptyRunContext = Except.error Fault.outOfRange) ∧
    (emptyRunContext.stencils.indices = [] ∧
      _UpdateValues emptyRunContext = Except.error Fault.outOfRange) := by
  refine ⟨⟨by decide, _, overlapEmptyRunContext_eval, ?_⟩,
    ⟨by decide, trailingEmptyRunContext_eval⟩, ⟨rfl, emptyRunContext_eval⟩⟩
  simp [overlapEmptyRunContext]

/-- C7 (amended).  For every stencil table, every output descriptor with
`length ≤ stride` and every output element `i` with `sizes[i] = 0`, a call of
`_UpdateValues` that returns the number of stencils leaves all
`outDesc.length` channels of element `i` equal to zero. -/
theorem C7_empty_run_zero (ctx ctx' : OsdCpuEvalStencilsContext)
    (hrun : _UpdateValues ctx = Except.ok (ctx.stencils.GetNumStencils, ctx'))
    (hstride : ctx.outputDataDesc.length ≤ ctx.outputDataDesc.stride)
    (i : Nat) (hi : i < ctx.stencils.GetNumStencils)
    (hsize : ctx.stencils.sizes[i]? = some 0)
    (k : Nat) (hk : k < ctx.outputDataDesc.length) :
    ctx'.outputData[ctx.outputDataDesc.offset + i * ctx.outputDataDesc.stride + k]? = some 0 := by
  obtain ⟨-, -, -, -, -, -, hcells⟩ := updateValues_spec hrun (by omega)
  obtain ⟨hcov, hsub⟩ := covers_cell ctx.outputDataDesc (i := i) hk
  rw [hcells, lastWriter_of_covers hstride hi hcov]
  simp only [hsub, stencilSum, List.getD_eq_getElem?_getD, hsize, Option.getD_some, add_zero,
    Finset.Ico_self, Finset.sum_empty]

theorem emptyMiddleRunContext_eval :
    _UpdateValues emptyMiddleRunContext
      = Except.ok (2, { emptyMiddleRunContext with outputData := [0, 5, 9] }) := by
  simp [_UpdateValues, emptyMiddleRunContext, packed, valuesBody, forLoop, accumulate,
    memsetZero, vectorIndex, vectorAt, addAssign, readCell, writeCell, ConstRealPtr.read,
    ConstRealPtr.add, ConstRealPtr.isNull, OsdVertexBufferDescriptor.CanEval,
    OsdCpuEvalStencilsContext.GetStencilTables, FarStencilTables.GetNumStencils,
    FarStencilTables.GetSizes, FarStencilTables.GetOffsets, FarStencilTables.GetControlIndices,
    FarStencilTables.GetWeights, OsdCpuEvalStencilsContext.GetControlDataDescriptor,
    OsdCpuEvalStencilsContext.GetOutputDataDescriptor, OsdCpuEvalStencilsContext.GetControlData,
    OsdCpuEvalStencilsContext.GetOutputData]

/-- C7 witness: element 0 of `emptyMiddleRunContext` has an empty run that
starts inside the index array; the call returns 2 and its channel is zero. -/
theorem C7_empty_run_zero_witness :
    _UpdateValues emptyMiddleRunContext
      = Except.ok (emptyMiddleRunContext.stencils.GetNumStencils,
          { emptyMiddleRunContext with outputData := [0, 5, 9] }) ∧
    ({ emptyMiddleRunContext with outputData := [0, 5, 9] } :
      OsdCpuEvalStencilsContext).outputData[emptyMiddleRunContext.outputDataDesc.offset
        + 0 * emptyMiddleRunContext.outputDataDesc.stride + 0]? = some 0 :=
  ⟨emptyMiddleRunContext_eval,
    C7_empty_run_zero emptyMiddleRunContext _ emptyMiddleRunContext_eval (by decide)
      0 (by decide) (by decide) 0 (by decide)⟩

/-- The ascending order alone: a run of `_UpdateValues` that returns, run
again in ascending order on the context it left, returns the same count and
leaves that context as it is. -/
theorem updateValues_twice_ascending (ctx ctx' : OsdCpuEvalStencilsContext) (r : Nat)
    (h : _UpdateValues ctx = Except.ok (r, ctx')) :
    _UpdateValues ctx' = Except.ok (r, ctx') := by
  by_cases hr : r = 0
  · rcases updateValues_ok_cases h with ⟨-, hctx, -⟩ | ⟨hn, -, -, hrn, -⟩
    · subst hctx
      exact h
    · exact absurd (hrn ▸ hr) hn
  · obtain ⟨hrn, hcan, hnull, hrange, hctx, hlen, hcells⟩ := updateValues_spec h hr
    have hn : ctx.stencils.GetNumStencils ≠ 0 := hrn ▸ hr
    have hs : ctx'.stencils = ctx.stencils := by rw [hctx]
    have hcd : ctx'.controlDataDesc = ctx.controlDataDesc := by rw [hctx]
    have hod : ctx'.outputDataDesc = ctx.outputDataDesc := by rw [hctx]
    have hc : ctx'.controlData = ctx.controlData := by rw [hctx]
    obtain ⟨b, hb⟩ := updateValues_ok ctx' (by rw [hs]; exact hn) (by rw [hcd, hod]; exact hcan)
      (by rw [hc, hcd]; exact hnull) (by rw [hs, hcd, hod, hc, hlen]; exact hrange)
    obtain ⟨-, -, -, -, -, -, hcells'⟩ := updateValues_spec hb (by rw [hs]; exact hn)
    have hbb : b = ctx'.outputData := by
      apply List.ext_getElem?
      intro c
      have h2 := hcells' c
      have h1 := hcells c
      simp only [hs, hcd, hod, hc] at h2
      rw [h2]
      cases hl : ctx.outputDataDesc.lastWriter ctx.stencils.GetNumStencils c with
      | none => rfl
      | some i =>
        rw [hl] at h1
        exact h1.symm
    have hr' : ctx'.stencils.GetNumStencils = r := by rw [hs, hrn]
    rw [hb, hbb, hr']

theorem scenarioContext_eval :
    _UpdateValues scenarioContext
      = Except.ok (2, { scenarioContext with outputData := [2, 3, 4, 3, 4, 5, 9] }) := by
  simp [_UpdateValues, scenarioContext, scenarioTable, packed, valuesBody, forLoop, accumulate,
    memsetZero, vectorIndex, vectorAt, addAssign, readCell, writeCell, ConstRealPtr.read,
    ConstRealPtr.add, ConstRealPtr.isNull, OsdVertexBufferDescriptor.CanEval,
    OsdCpuEvalStencilsContext.GetStencilTables, FarStencilTables.GetNumStencils,
    FarStencilTables.GetSizes, FarStencilTables.GetOffsets, FarStencilTables.GetControlIndices,
    FarStencilTables.GetWeights, OsdCpuEvalStencilsContext.GetControlDataDescriptor,
    OsdCpuEvalStencilsContext.GetOutputDataDescriptor, OsdCpuEvalStencilsContext.GetControlData,
    OsdCpuEvalStencilsContext.GetOutputData]
  norm_num

end OpenSubdiv

namespace OpenSubdiv

open OsdOmpEvalStencilsController

theorem controlValue_scale (a : real) (cs : List real) (d : OsdVertexBufferDescriptor)
    (idx k : Nat) :
    controlValue (some (cs.map (fun v => a * v))) d idx k
      = a * controlValue (some cs) d idx k := by
  simp only [controlValue, Option.getD_some, List.getD_eq_getElem?_getD, List.getElem?_map]
  cases cs[d.offset + idx * d.stride + k]? <;> simp

theorem controlValue_add (c1 c2 : List real) (hlen : c1.length = c2.length)
    (d : OsdVertexBufferDescriptor) (idx k : Nat) :
    controlValue (some (List.zipWith (fun v w => v + w) c1 c2)) d idx k
      = controlValue (some c1) d idx k + controlValue (some c2) d idx k := by
  simp only [controlValue, Option.getD_some, List.getD_eq_getElem?_getD, List.getElem?_zipWith]
  by_cases h : d.offset + idx * d.stride + k < c1.length
  · rw [List.getElem?_eq_getElem h, List.getElem?_eq_getElem (hlen ▸ h)]
    rfl
  · rw [List.getElem?_eq_none (Nat.le_of_not_lt h),
      List.getElem?_eq_none (hlen ▸ Nat.le_of_not_lt h)]
    simp

theorem stencilSum_scale (t : FarStencilTables) (w : List real) (d : OsdVertexBufferDescriptor)
    (a : real) (c : List real) (i k : Nat) :
    stencilSum t w d (some (c.map (fun v => a * v))) i k = a * stencilSum t w d (some c) i k := by
  unfold stencilSum
  rw [Finset.mul_sum]
  refine Finset.sum_congr rfl (fun j _ => ?_)
  rw [controlValue_scale]
  ring

theorem stencilSum_add (t : FarStencilTables) (w : List real) (d : OsdVertexBufferDescriptor)
    (c1 c2 : List real) (hlen : c1.length = c2.length) (i k : Nat) :
    stencilSum t w d (some (List.zipWith (fun v w => v + w) c1 c2)) i k
      = stencilSum t w d (some c1) i k + stencilSum t w d (some c2) i k := by
  unfold stencilSum
  rw [← Finset.sum_add_distrib]
  refine Finset.sum_congr rfl (fun j _ => ?_)
  rw [controlValue_add c1 c2 hlen]
  ring

/-- The count a returning call reports and the cells it writes do not depend
on the values of the control buffer: a call over a control buffer `c` that
returns `r` determines, for any control buffer `c'` of the same length, a
returning call with the same count whose written cells hold the weighted sums
over `c'`. -/
theorem updateValues_transfer (ctx : OsdCpuEvalStencilsContext) (c c' : List real)
    (hlen : c'.length = c.length) (r : Nat) (x : OsdCpuEvalStencilsContext)
    (h : _UpdateValues (ctx.withControl c) = Except.ok (r, x)) :
    ∃ x', _UpdateValues (ctx.withControl c') = Except.ok (r, x') ∧
      ∀ i, i < r → ∀ k, k < ctx.outputDataDesc.length →
        ∃ s, ctx.outputDataDesc.lastWriter ctx.stencils.GetNumStencils
            (ctx.outputDataDesc.offset + i * ctx.outputDataDesc.stride + k) = some s ∧
          x.outputData[ctx.outputDataDesc.offset + i * ctx.outputDataDesc.stride + k]? =
            some (stencilSum ctx.stencils ctx.stencils.weights ctx.controlDataDesc (some c) s
              (ctx.outputDataDesc.offset + i * ctx.outputDataDesc.stride + k
                - ctx.outputDataDesc.slot s)) ∧
          x'.outputData[ctx.outputDataDesc.offset + i * ctx.outputDataDesc.stride + k]? =
            some (stencilSum ctx.stencils ctx.stencils.weights ctx.controlDataDesc (some c') s
              (ctx.outputDataDesc.offset + i * ctx.outputDataDesc.stride + k
                - ctx.outputDataDesc.slot s)) := by
  by_cases hr : r = 0
  · subst hr
    rcases updateValues_ok_cases h with ⟨-, -, hg⟩ | ⟨hn, -, -, hrn, -⟩
    · refine ⟨ctx.withControl c', updateValues_gate _ ?_, fun i hi => absurd hi (Nat.not_lt_zero i)⟩
      rcases hg with hg | hg | ⟨hg, -⟩
      · exact Or.inl hg
      · exact Or.inr (Or.inl hg)
      · simp [OsdCpuEvalStencilsContext.withControl] at hg
    · exact absurd hrn.symm hn
  · obtain ⟨hrn, hcan, -, hrange, -, -, hcells⟩ := updateValues_spec h hr
    have hn : ctx.stencils.GetNumStencils ≠ 0 := fun h0 => hr (hrn.trans h0)
    obtain ⟨b, hb⟩ := updateValues_ok (ctx.withControl c') hn hcan
      (by simp [OsdCpuEvalStencilsContext.withControl])
      (fun i hi => (hrange i hi).of_length_eq (by
        simp [OsdCpuEvalStencilsContext.withControl, hlen]))
    obtain ⟨-, -, -, -, -, -, hcells'⟩ := updateValues_spec hb hn
    refine ⟨_, by rw [hb, hrn]; rfl, ?_⟩
    intro i hi k hk
    obtain ⟨hcov, -⟩ := covers_cell ctx.outputDataDesc (i := i) hk
    cases hl : ctx.outputDataDesc.lastWriter ctx.stencils.GetNumStencils
        (ctx.outputDataDesc.offset + i * ctx.outputDataDesc.stride + k) with
    | none => exact absurd hcov (lastWriter_none.mp hl i (hrn ▸ hi))
    | some s =>
      refine ⟨s, rfl, ?_, ?_⟩
      · have := hcells (ctx.outputDataDesc.offset + i * ctx.outputDataDesc.stride + k)
        simp only [OsdCpuEvalStencilsContext.withControl] at this
        rw [this, hl]
      · have := hcells' (ctx.outputDataDesc.offset + i * ctx.outputDataDesc.stride + k)
        simp only [OsdCpuEvalStencilsContext.withControl] at this
        simp only [OsdCpuEvalStencilsContext.withControl]
        rw [this, hl]

/-- The ascending order alone: over the control buffers `c1` and `c2` of one
length on which `_UpdateValues` returns, it returns the same count over
`a * c1` and over `c1 + c2`, and on every written channel the output over
`a * c1` is `a` times the output over `c1` and the output over `c1 + c2` is
the sum of the outputs over `c1` and over `c2`, each cell being the sum of the
last element of the ascending run to cover it. -/
theorem updateValues_linear_ascending (ctx : OsdCpuEvalStencilsContext) (c1 c2 : List real)
    (a : real) (r1 r2 : Nat) (x1 x2 : OsdCpuEvalStencilsContext)
    (hlen : c1.length = c2.length)
    (h1 : _UpdateValues (ctx.withControl c1) = Except.ok (r1, x1))
    (h2 : _UpdateValues (ctx.withControl c2) = Except.ok (r2, x2)) :
    r1 = r2 ∧
    (∃ xa, _UpdateValues (ctx.withControl (c1.map (fun v => a * v))) = Except.ok (r1, xa) ∧
      ∀ i, i < r1 → ∀ k, k < ctx.outputDataDesc.length →
        ∃ v1, x1.outputData[ctx.outputDataDesc.offset + i * ctx.outputDataDesc.stride + k]?
            = some v1 ∧
          xa.outputData[ctx.outputDataDesc.offset + i * ctx.outputDataDesc.stride + k]?
            = some (a * v1)) ∧
    (∃ xs, _UpdateValues (ctx.withControl (List.zipWith (fun v w => v + w) c1 c2))
        = Except.ok (r1, xs) ∧
      ∀ i, i < r1 → ∀ k, k < ctx.outputDataDesc.length →
        ∃ v1 v2, x1.outputData[ctx.outputDataDesc.offset + i * ctx.outputDataDesc.stride + k]?
            = some v1 ∧
          x2.outputData[ctx.outputDataDesc.offset + i * ctx.outputDataDesc.stride + k]?
            = some v2 ∧
          xs.outputData[ctx.outputDataDesc.offset + i * ctx.outputDataDesc.stride + k]?
            = some (v1 + v2)) := by
  obtain ⟨y2, hy2, hc2⟩ := updateValues_transfer ctx c1 c2 hlen.symm r1 x1 h1
  have h12 : r1 = r2 ∧ y2 = x2 := by
    rw [hy2] at h2
    simpa using h2
  obtain ⟨hr, rfl⟩ := h12
  refine ⟨hr, ?_, ?_⟩
  · obtain ⟨xa, hxa, hca⟩ := updateValues_transfer ctx c1 (c1.map (fun v => a * v))
      (by simp) r1 x1 h1
    refine ⟨xa, hxa, fun i hi k hk => ?_⟩
    obtain ⟨s, -, hs1, hsa⟩ := hca i hi k hk
    exact ⟨_, hs1, by rw [hsa, stencilSum_scale]⟩
  · obtain ⟨xs, hxs, hcs⟩ := updateValues_transfer ctx c1
      (List.zipWith (fun v w => v + w) c1 c2) (by simp [hlen]) r1 x1 h1
    refine ⟨xs, hxs, fun i hi k hk => ?_⟩
    obtain ⟨s, hl, hs1, hss⟩ := hcs i hi k hk
    obtain ⟨s', hl', -, hs2⟩ := hc2 i hi k hk
    have hss' : s' = s := Option.some.inj (hl'.symm.trans hl)
    subst hss'
    exact ⟨_, _, hs1, hs2, by rw [hss, stencilSum_add _ _ _ _ _ hlen]⟩

end OpenSubdiv

namespace OpenSubdiv

open OsdOmpEvalStencilsController

theorem scenarioControl_eval :
    _UpdateValues (scenarioContext.withControl scenarioControl)
      = Except.ok (2, { scenarioContext with outputData := [2, 3, 4, 3, 4, 5, 9] }) :=
  scenarioContext_eval

theorem onesControl_eval :
    _UpdateValues (scenarioContext.withControl onesControl)
      = Except.ok (2, { scenarioContext with
          controlData := some onesControl, outputData := [1, 1, 1, 1, 1, 1, 9] }) := by
  simp [_UpdateValues, scenarioContext, scenarioTable, onesControl, packed, valuesBody, forLoop,
    accumulate, memsetZero, vectorIndex, vectorAt, addAssign, readCell, writeCell,
    ConstRealPtr.read, ConstRealPtr.add, ConstRealPtr.isNull, OsdVertexBufferDescriptor.CanEval,
    OsdCpuEvalStencilsContext.withControl,
    OsdCpuEvalStencilsContext.GetStencilTables, FarStencilTables.GetNumStencils,
    FarStencilTables.GetSizes, FarStencilTables.GetOffsets, FarStencilTables.GetControlIndices,
    FarStencilTables.GetWeights, OsdCpuEvalStencilsContext.GetControlDataDescriptor,
    OsdCpuEvalStencilsContext.GetOutputDataDescriptor, OsdCpuEvalStencilsContext.GetControlData,
    OsdCpuEvalStencilsContext.GetOutputData]
  norm_num

/-- C10.  For every call of `_UpdateValues` that returns, the context after
the call differs from the context before it in the output buffer alone: the
stencil table, the control buffer, the descriptors and the derivative buffers
are unchanged.  The output buffer keeps its length, and every cell that is not
at a position `outDesc.offset + i*outDesc.stride + k` with `i` below the
number of stencils and `k < outDesc.length` keeps its value. -/
theorem C10_updateValues_frame (ctx ctx' : OsdCpuEvalStencilsContext) (r : Nat)
    (h : _UpdateValues ctx = Except.ok (r, ctx')) :
    ctx' = { ctx with outputData := ctx'.outputData } ∧
    ctx'.stencils = ctx.stencils ∧ ctx'.controlData = ctx.controlData ∧
    ctx'.outputData.length = ctx.outputData.length ∧
    ∀ c, (∀ i, i < ctx.stencils.GetNumStencils → ∀ k, k < ctx.outputDataDesc.length →
        c ≠ ctx.outputDataDesc.offset + i * ctx.outputDataDesc.stride + k) →
      ctx'.outputData[c]? = ctx.outputData[c]? := by
  by_cases hr : r = 0
  · rcases updateValues_ok_cases h with ⟨-, hctx, -⟩ | ⟨hn, -, -, hrn, -⟩
    · subst hctx
      exact ⟨rfl, rfl, rfl, rfl, fun _ _ => rfl⟩
    · exact absurd (hrn ▸ hr) hn
  · obtain ⟨-, -, -, -, hctx, hlen, hcells⟩ := updateValues_spec h hr
    refine ⟨hctx, by rw [hctx], by rw [hctx], hlen, ?_⟩
    intro c hc
    have hnone : ctx.outputDataDesc.lastWriter ctx.stencils.GetNumStencils c = none := by
      rw [lastWriter_none]
      intro i hi hcov
      obtain ⟨k, hk, hck⟩ := (covers_iff_cell ctx.outputDataDesc).mp hcov
      exact hc i hi k hk hck
    rw [hcells c, hnone]

/-- C10 witness: the concrete scenario, whose output buffer has a seventh cell
outside the two elements. -/
theorem C10_updateValues_frame_witness :
    _UpdateValues scenarioContext
      = Except.ok (2, { scenarioContext with outputData := [2, 3, 4, 3, 4, 5, 9] }) ∧
    ({ scenarioContext with outputData := [2, 3, 4, 3, 4, 5, 9] } :
      OsdCpuEvalStencilsContext).outputData[6]? = scenarioContext.outputData[6]? :=
  ⟨scenarioContext_eval,
    (C10_updateValues_frame scenarioContext _ 2 scenarioContext_eval).2.2.2.2 6 (by
      intro i hi k hk
      have hi2 : i < 2 := hi
      have hk3 : k < 3 := hk
      show 6 ≠ 0 + i * 3 + k
      omega)⟩

end OpenSubdiv

/-! ## The claims on the derivative evaluation and on the concrete scenarios -/

namespace OpenSubdiv

open OsdOmpEvalStencilsController

/-- C11: the code at a context whose du descriptor has two channels and whose
dv descriptor has one.  Both capability checks pass and the call returns 1.
The only element is element 0 and the declared dv window is the one cell
`dvDesc.offset + 0*dvDesc.stride + 0 = 0`; the call also changes cell 1 of the
dv buffer, from 9 to `9 + 7 = 16`, adding into a cell that `memset` never
zeroed. -/
theorem C11_updateDerivs_dv_outside_window :
    narrowDvContext.stencils.GetNumStencils = 1 ∧
    narrowDvContext.controlDataDesc.CanEval narrowDvContext.duDataDesc = true ∧
    narrowDvContext.controlDataDesc.CanEval narrowDvContext.dvDataDesc = true ∧
    narrowDvContext.dvDataDesc.length < narrowDvContext.duDataDesc.length ∧
    ¬ narrowDvContext.dvDataDesc.covers 0 1 ∧
    narrowDvContext.outputVDerivData[1]? = some 9 ∧
    _UpdateDerivs narrowDvContext = Except.ok (1,
      { narrowDvContext with outputUDerivData := [5, 7], outputVDerivData := [5, 16] }) := by
  refine ⟨by decide, by decide, by decide, by decide, by decide, by simp [narrowDvContext], ?_⟩
  simp [_UpdateDerivs, narrowDvContext, packed, derivsBody, forLoop, accumulateDerivs,
    memsetZero, vectorIndex, vectorAt, addAssign, readCell, writeCell, ConstRealPtr.read,
    ConstRealPtr.add, ConstRealPtr.isNull, OsdVertexBufferDescriptor.CanEval,
    OsdCpuEvalStencilsContext.GetStencilTables, FarStencilTables.GetNumStencils,
    FarStencilTables.GetSizes, FarStencilTables.GetOffsets, FarStencilTables.GetControlIndices,
    FarStencilTables.GetDuWeights, FarStencilTables.GetDvWeights,
    OsdCpuEvalStencilsContext.GetControlDataDescriptor,
    OsdCpuEvalStencilsContext.GetDuDataDescriptor, OsdCpuEvalStencilsContext.GetDvDataDescriptor,
    OsdCpuEvalStencilsContext.GetControlData, OsdCpuEvalStencilsContext.GetOutputUDerivData,
    OsdCpuEvalStencilsContext.GetOutputVDerivData]
  norm_num

/-- C12.  For the stencil table with sizes `[2,1]`, offsets `[0,2]`, indices
`[0,1,1]` and weights `[0.5,0.5,1.0]`, whatever its derivative weights, the
control buffer `[[1,2,3],[3,4,5]]` and tightly packed three-channel
descriptors, `_UpdateValues` returns 2 and the output buffer, whatever its six
cells held before, is `[[2,3,4],[3,4,5]]`; nothing else of the context
changes. -/
theorem C12_updateValues_scenario (duWeights dvWeights : List real)
    (o0 o1 o2 o3 o4 o5 : real) (du dv : List real) :
    _UpdateValues
        (scenarioOver (positionTable duWeights dvWeights) [o0, o1, o2, o3, o4, o5] du dv)
      = Except.ok (2,
          scenarioOver (positionTable duWeights dvWeights) [2, 3, 4, 3, 4, 5] du dv) := by
  simp [_UpdateValues, scenarioOver, positionTable, packed, valuesBody, forLoop, accumulate,
    memsetZero, vectorIndex, vectorAt, addAssign, readCell, writeCell, ConstRealPtr.read,
    ConstRealPtr.add, ConstRealPtr.isNull, OsdVertexBufferDescriptor.CanEval,
    OsdCpuEvalStencilsContext.GetStencilTables, FarStencilTables.GetNumStencils,
    FarStencilTables.GetSizes, FarStencilTables.GetOffsets, FarStencilTables.GetControlIndices,
    FarStencilTables.GetWeights, OsdCpuEvalStencilsContext.GetControlDataDescriptor,
    OsdCpuEvalStencilsContext.GetOutputDataDescriptor, OsdCpuEvalStencilsContext.GetControlData,
    OsdCpuEvalStencilsContext.GetOutputData]
  norm_num

/-- C13.  For the table of the concrete scenario with `duWeights = [0.5,-0.5]`
and `dvWeights = [0,1.0]` on the run of element 0 (any weights `wu`, `wv` on
the run of element 1), the control buffer `[[1,2,3],[3,4,5]]` and tightly
packed three-channel descriptors, `_UpdateDerivs` returns 2 and leaves
element 0 of the du stream equal to `[-1,-1,-1]` and element 0 of the dv
stream equal to `[3,4,5]`, whatever the six cells of each buffer held before;
element 1 holds `wu` and `wv` times the control vertex 1. -/
theorem C13_updateDerivs_scenario (wu wv : real) (out : List real)
    (u0 u1 u2 u3 u4 u5 v0 v1 v2 v3 v4 v5 : real) :
    _UpdateDerivs (scenarioOver (derivativeTable wu wv) out
        [u0, u1, u2, u3, u4, u5] [v0, v1, v2, v3, v4, v5])
      = Except.ok (2, scenarioOver (derivativeTable wu wv) out
          [-1, -1, -1, 3 * wu, 4 * wu, 5 * wu] [3, 4, 5, 3 * wv, 4 * wv, 5 * wv]) := by
  simp [_UpdateDerivs, scenarioOver, derivativeTable, positionTable, packed, derivsBody, forLoop,
    accumulateDerivs, memsetZero, vectorIndex, vectorAt, addAssign, readCell, writeCell,
    ConstRealPtr.read, ConstRealPtr.add, ConstRealPtr.isNull, OsdVertexBufferDescriptor.CanEval,
    OsdCpuEvalStencilsContext.GetStencilTables, FarStencilTables.GetNumStencils,
    FarStencilTables.GetSizes, FarStencilTables.GetOffsets, FarStencilTables.GetControlIndices,
    FarStencilTables.GetDuWeights, FarStencilTables.GetDvWeights,
    OsdCpuEvalStencilsContext.GetControlDataDescriptor,
    OsdCpuEvalStencilsContext.GetDuDataDescriptor, OsdCpuEvalStencilsContext.GetDvDataDescriptor,
    OsdCpuEvalStencilsContext.GetControlData, OsdCpuEvalStencilsContext.GetOutputUDerivData,
    OsdCpuEvalStencilsContext.GetOutputVDerivData]
  norm_num

end OpenSubdiv

/-! ## The claims on the compute controller -/

namespace OpenSubdiv

open OsdOmpComputeController

/-- C14, as stated, fails on the code.  With an empty batch sequence `Refine`
records no call at all: neither `Bind` with the given buffers nor `Unbind`. -/
theorem C14_counterexample :
    (Refine fourThreads idleDispatcher freshState [] (some 1) (some 2)).calls = [] ∧
    RefineCall.Bind (some 1) (some 2) ∉
      (Refine fourThreads idleDispatcher freshState [] (some 1) (some 2)).calls ∧
    RefineCall.Unbind ∉
      (Refine fourThreads idleDispatcher freshState [] (some 1) (some 2)).calls := by
  decide

/-- C14 (amended).  For every controller, context and vertex and varying
buffers, `Refine` with an empty batch sequence returns at once: it dispatches
no kernel, calls neither `Bind` nor `Unbind` and leaves the context as it
was. -/
theorem C14_refine_empty (self : OsdOmpComputeController)
    (dispatcher : OsdOmpComputeController → List FarKernelBatch → Int →
      OsdCpuComputeContext → OsdCpuComputeContext)
    (s : RefineState) (vertexBuffer varyingBuffer : Option Nat) :
    Refine self dispatcher s [] vertexBuffer varyingBuffer = s := by
  simp [Refine]

/-- C15.  For every non-empty batch sequence `Refine` makes four calls in this
order: `omp_set_num_threads`, `Bind` with the given buffers, the dispatch with
level -1, `Unbind`.  Whatever the dispatch does to the context, the context is
Unbound when `Refine` returns.  The three-argument `Refine` is the
four-argument one with a null varying buffer. -/
theorem C15_refine_binds_once (self : OsdOmpComputeController)
    (dispatcher : OsdOmpComputeController → List FarKernelBatch → Int →
      OsdCpuComputeContext → OsdCpuComputeContext)
    (s : RefineState) (batches : List FarKernelBatch)
    (vertexBuffer varyingBuffer : Option Nat) (h : batches ≠ []) :
    (Refine self dispatcher s batches vertexBuffer varyingBuffer).calls =
      s.calls ++ [RefineCall.omp_set_num_threads self._numThreads,
        RefineCall.Bind vertexBuffer varyingBuffer,
        RefineCall.FarDispatcherRefine batches (-1),
        RefineCall.Unbind] ∧
    (Refine self dispatcher s batches vertexBuffer varyingBuffer).context.Unbound ∧
    Refine3 self dispatcher s batches vertexBuffer =
      Refine self dispatcher s batches vertexBuffer none := by
  have he : batches.isEmpty = false := by
    cases batches with
    | nil => exact absurd rfl h
    | cons b bs => rfl
  refine ⟨?_, ?_, rfl⟩
  · simp [Refine, he]
  · simp [Refine, he, OsdCpuComputeContext.Unbound, OsdCpuComputeContext.Unbind]

/-- C15 witness: one batch, a dispatcher that leaves other pointers in the
context. -/
theorem C15_refine_binds_once_witness :
    oneBatch ≠ [] ∧
    (Refine fourThreads rebindingDispatcher freshState oneBatch (some 1) (some 2)).calls =
      freshState.calls ++ [RefineCall.omp_set_num_threads fourThreads._numThreads,
        RefineCall.Bind (some 1) (some 2),
        RefineCall.FarDispatcherRefine oneBatch (-1),
        RefineCall.Unbind] ∧
    (Refine fourThreads rebindingDispatcher freshState oneBatch
      (some 1) (some 2)).context.Unbound ∧
    Refine3 fourThreads rebindingDispatcher freshState oneBatch (some 1) =
      Refine fourThreads rebindingDispatcher freshState oneBatch (some 1) none :=
  ⟨by decide,
    C15_refine_binds_once fourThreads rebindingDispatcher freshState oneBatch
      (some 1) (some 2) (by decide)⟩

/-- C16.  The constructor of `OsdOmpEvalStencilsController` stores the number
of available processors when `numThreads` is -1 and stores `numThreads` itself
for every other integer. -/
theorem C16_construct_numThreads (omp_get_num_procs numThreads : Int) :
    OsdOmpEvalStencilsController.construct omp_get_num_procs (-1) = omp_get_num_procs ∧
    (numThreads ≠ -1 →
      OsdOmpEvalStencilsController.construct omp_get_num_procs numThreads = numThreads) := by
  constructor
  · simp [OsdOmpEvalStencilsController.construct]
  · intro h
    simp [OsdOmpEvalStencilsController.construct, h]

/-- C16 witness: eight processors, and the request for four threads. -/
theorem C16_construct_numThreads_witness :
    OsdOmpEvalStencilsController.construct 8 (-1) = 8 ∧
    OsdOmpEvalStencilsController.construct 8 4 = 4 :=
  ⟨(C16_construct_numThreads 8 4).1, (C16_construct_numThreads 8 4).2 (by decide)⟩

end OpenSubdiv

/-! ## The claims on the predicates -/

namespace Predicates1D

/-- The `()` operator of `Length2DBP1D` holds exactly when the first element is
the longer one. -/
theorem Length2DBP1D_iff (i1 i2 : Interface1D) :
    Length2DBP1D i1 i2 = true ↔ i2.getLength2D < i1.getLength2D := by
  simp [Length2DBP1D]

/-- C20: the code at two elements of 2D lengths 2 and 1.  On the pair (long,
short) the first is not the shorter one, and `Length2DBP1D` returns true; on
the pair (short, long), where the first is the shorter one, it returns
false. -/
theorem C20_length2D_reversed :
    Length2DBP1D longElement shortElement = true ∧
    ¬ (longElement.getLength2D < shortElement.getLength2D) ∧
    Length2DBP1D shortElement longElement = false ∧
    shortElement.getLength2D < longElement.getLength2D := by
  refine ⟨?_, ?_, ?_, ?_⟩ <;>
    simp [Length2DBP1D, Interface1D.getLength2D, longElement, shortElement]

end Predicates1D

/-! ## The claims on the order and the safety of the element steps -/

namespace OpenSubdiv

open OsdOmpEvalStencilsController

/-- The elements of `order` run one after the other under `length ≤ stride`:
when the run returns, every lookup of every element was in range, the buffer
keeps its length, a cell covered by an element of `order` holds the weighted
sum of that element and every other cell is as before. -/
theorem forEachIn_valuesBody_spec {t : FarStencilTables}
    {ctrlDesc outDesc : OsdVertexBufferDescriptor} {ctrl : ConstRealPtr}
    (hpos : ctrl.pos = ctrlDesc.offset) (hd : outDesc.length ≤ outDesc.stride)
    (order : List Nat) (buf b : List real)
    (h : forEachIn (valuesBody t ctrlDesc outDesc ctrl) order buf = Except.ok b) :
    (∀ i, i ∈ order → ValuesInRange t ctrlDesc outDesc ctrl.data buf.length i) ∧
      b.length = buf.length ∧
      (∀ c i, i ∈ order → outDesc.covers i c →
        b[c]? = some (stencilSum t t.weights ctrlDesc ctrl.data i (c - outDesc.slot i))) ∧
      ∀ c, (∀ i, i ∈ order → ¬ outDesc.covers i c) → b[c]? = buf[c]? := by
  induction order generalizing buf with
  | nil =>
    simp only [forEachIn, Except.ok.injEq] at h
    subst h
    exact ⟨by simp, rfl, by simp, fun _ _ => rfl⟩
  | cons i rest ih =>
    simp only [forEachIn] at h
    cases h1 : valuesBody t ctrlDesc outDesc ctrl i buf with
    | error e => simp [h1] at h
    | ok b1 =>
      rw [h1] at h
      obtain ⟨hrange1, hlen1, hcells1⟩ := valuesBody_spec hpos h1
      obtain ⟨hrange, hlen, hin, hout⟩ := ih b1 h
      have hrest : ∀ c, (∀ j, j ∈ rest → ¬ outDesc.covers j c) →
          b[c]? = if outDesc.covers i c
            then some (stencilSum t t.weights ctrlDesc ctrl.data i (c - outDesc.slot i))
            else buf[c]? := fun c hc => (hout c hc).trans (hcells1 c)
      refine ⟨?_, hlen.trans hlen1, ?_, ?_⟩
      · intro j hj
        rcases List.mem_cons.mp hj with rfl | hj
        · exact hrange1
        · rw [← hlen1]
          exact hrange j hj
      · intro c j hj hcov
        by_cases hex : ∃ j', j' ∈ rest ∧ outDesc.covers j' c
        · obtain ⟨j', hj', hcov'⟩ := hex
          rw [covers_unique hd hcov hcov']
          exact hin c j' hj' hcov'
        · have hnone : ∀ j', j' ∈ rest → ¬ outDesc.covers j' c :=
            fun j' hj' hc' => hex ⟨j', hj', hc'⟩
          rcases List.mem_cons.mp hj with rfl | hj
          · rw [hrest c hnone, if_pos hcov]
          · exact absurd hcov (hnone j hj)
      · intro c hc
        rw [hrest c (fun j hj => hc j (List.mem_cons_of_mem _ hj)),
          if_neg (hc i (List.mem_cons_self _ _))]

theorem forEachIn_valuesBody_ok {t : FarStencilTables}
    {ctrlDesc outDesc : OsdVertexBufferDescriptor} {ctrl : ConstRealPtr}
    (hpos : ctrl.pos = ctrlDesc.offset) (order : List Nat) (buf : List real)
    (h : ∀ i, i ∈ order → ValuesInRange t ctrlDesc outDesc ctrl.data buf.length i) :
    ∃ b, forEachIn (valuesBody t ctrlDesc outDesc ctrl) order buf = Except.ok b := by
  induction order generalizing buf with
  | nil => exact ⟨buf, rfl⟩
  | cons i rest ih =>
    obtain ⟨b1, h1⟩ := @valuesBody_ok t ctrlDesc outDesc ctrl i buf hpos
      (h i (List.mem_cons_self _ _))
    have hlen1 := (valuesBody_spec hpos h1).2.1
    obtain ⟨b, hb⟩ := ih b1 (fun j hj => by
      rw [hlen1]
      exact h j (List.mem_cons_of_mem _ hj))
    exact ⟨b, by simp only [forEachIn, h1, hb]⟩

/-- Under `length ≤ stride` the element loop run in the order of a permutation
of `[0, n)` returns exactly when the ascending loop returns, with the same
buffer. -/
theorem forEachIn_perm_iff_forLoop {t : FarStencilTables}
    {ctrlDesc outDesc : OsdVertexBufferDescriptor} {ctrl : ConstRealPtr}
    (hpos : ctrl.pos = ctrlDesc.offset) (hd : outDesc.length ≤ outDesc.stride)
    (n : Nat) (order : List Nat) (hperm : order.Perm (List.range n)) (buf b : List real) :
    forEachIn (valuesBody t ctrlDesc outDesc ctrl) order buf = Except.ok b ↔
      forLoop (valuesBody t ctrlDesc outDesc ctrl) n buf = Except.ok b := by
  have hmem : ∀ i, i ∈ order ↔ i < n := fun i => hperm.mem_iff.trans List.mem_range
  have key : ∀ b1 b2, forEachIn (valuesBody t ctrlDesc outDesc ctrl) order buf = Except.ok b1 →
      forLoop (valuesBody t ctrlDesc outDesc ctrl) n buf = Except.ok b2 → b1 = b2 := by
    intro b1 b2 h1 h2
    obtain ⟨-, -, hin, hout⟩ := forEachIn_valuesBody_spec hpos hd order buf b1 h1
    obtain ⟨-, -, hcells⟩ := valuesLoop_spec hpos h2
    apply List.ext_getElem?
    intro c
    rw [hcells c]
    cases hl : outDesc.lastWriter n c with
    | none =>
      exact hout c (fun i hi => lastWriter_none.mp hl i ((hmem i).mp hi))
    | some i =>
      obtain ⟨hi, hcov⟩ := lastWriter_some hl
      exact hin c i ((hmem i).mpr hi) hcov
  constructor
  · intro h1
    obtain ⟨hrange, -, -, -⟩ := forEachIn_valuesBody_spec hpos hd order buf b h1
    obtain ⟨b2, h2⟩ := @valuesLoop_ok t ctrlDesc outDesc ctrl n buf hpos
      (fun i hi => hrange i ((hmem i).mpr hi))
    rw [h2, key b b2 h1 h2]
  · intro h2
    obtain ⟨hrange, -, -⟩ := valuesLoop_spec hpos h2
    obtain ⟨b1, h1⟩ := forEachIn_valuesBody_ok hpos order buf
      (fun i hi => hrange i ((hmem i).mp hi))
    rw [h1, key b1 b h1 h2]

end OpenSubdiv

namespace OpenSubdiv

open OsdOmpEvalStencilsController

theorem updateValuesInOrder_gate (order : List Nat) (ctx : OsdCpuEvalStencilsContext)
    (h : ctx.stencils.GetNumStencils = 0 ∨
      ctx.controlDataDesc.CanEval ctx.outputDataDesc = false ∨
      (ctx.controlData = none ∧ ctx.controlDataDesc.offset = 0)) :
    _UpdateValuesInOrder order ctx = Except.ok (0, ctx) := by
  unfold _UpdateValuesInOrder
  simp only [OsdCpuEvalStencilsContext.GetStencilTables,
    OsdCpuEvalStencilsContext.GetControlDataDescriptor,
    OsdCpuEvalStencilsContext.GetOutputDataDescriptor,
    OsdCpuEvalStencilsContext.GetControlData, ConstRealPtr.add, ConstRealPtr.isNull]
  by_cases hn : ctx.stencils.GetNumStencils = 0
  · simp [hn]
  · by_cases hc : ctx.controlDataDesc.CanEval ctx.outputDataDesc = false
    · simp [hn, hc]
    · rcases h with h | h | ⟨h1, h2⟩
      · exact absurd h hn
      · exact absurd h hc
      · simp [hn, h1, h2]

theorem updateValuesInOrder_run (order : List Nat) (ctx : OsdCpuEvalStencilsContext)
    (hn : ctx.stencils.GetNumStencils ≠ 0)
    (hcan : ctx.controlDataDesc.CanEval ctx.outputDataDesc = true)
    (hnull : ¬ (ctx.controlData = none ∧ ctx.controlDataDesc.offset = 0)) :
    _UpdateValuesInOrder order ctx =
      match forEachIn (valuesBody ctx.stencils ctx.controlDataDesc ctx.outputDataDesc
          { data := ctx.controlData, pos := ctx.controlDataDesc.offset })
          order ctx.outputData with
      | Except.error e => Except.error e
      | Except.ok b => Except.ok (ctx.stencils.GetNumStencils, { ctx with outputData := b }) := by
  unfold _UpdateValuesInOrder
  simp only [OsdCpuEvalStencilsContext.GetStencilTables,
    OsdCpuEvalStencilsContext.GetControlDataDescriptor,
    OsdCpuEvalStencilsContext.GetOutputDataDescriptor,
    OsdCpuEvalStencilsContext.GetOutputData,
    OsdCpuEvalStencilsContext.GetControlData, ConstRealPtr.add, ConstRealPtr.isNull]
  have hnull' : (ctx.controlData.isNone && (ctx.controlDataDesc.offset == 0)) = false := by
    cases hd : ctx.controlData with
    | none =>
      have : ctx.controlDataDesc.offset ≠ 0 := fun h0 => hnull ⟨hd, h0⟩
      simp [this]
    | some b => simp
  simp only [hn, hcan, hnull', if_false, Bool.not_true, Bool.false_eq_true, Nat.zero_add]

/-- C17, as stated, fails on the code.  `overlapContext` passes the three
checks of `_UpdateValues`.  Its output descriptor has stride 0 and length 1,
so cell 0 is a channel of element 0 and of element 1, two distinct indices
below the number of stencils, and the loop body writes it for both: for
element 0 it turns `[9]` into `[1]`, for element 1 it turns `[1]` into
`[2]`. -/
theorem C17_counterexample :
    overlapContext.stencils.GetNumStencils = 2 ∧
    overlapContext.controlDataDesc.CanEval overlapContext.outputDataDesc = true ∧
    (overlapContext.GetControlData.add overlapContext.controlDataDesc.offset).isNull = false ∧
    overlapContext.outputDataDesc.covers 0 0 ∧ overlapContext.outputDataDesc.covers 1 0 ∧
    valuesBody overlapContext.stencils overlapContext.controlDataDesc
      overlapContext.outputDataDesc
      (overlapContext.GetControlData.add overlapContext.controlDataDesc.offset) 0 [9]
      = Except.ok [1] ∧
    valuesBody overlapContext.stencils overlapContext.controlDataDesc
      overlapContext.outputDataDesc
      (overlapContext.GetControlData.add overlapContext.controlDataDesc.offset) 1 [1]
      = Except.ok [2] := by
  refine ⟨by decide, by decide, by decide, by decide, by decide, ?_, ?_⟩ <;>
    simp [overlapContext, packed, valuesBody, forLoop, accumulate, memsetZero, vectorIndex,
      vectorAt, addAssign, readCell, writeCell, ConstRealPtr.read, ConstRealPtr.add,
      FarStencilTables.GetSizes, FarStencilTables.GetOffsets, FarStencilTables.GetControlIndices,
      FarStencilTables.GetWeights, OsdCpuEvalStencilsContext.GetControlData]

/-- C17 (amended).  For every context whose output descriptor has
`length ≤ stride` and every two distinct output indices `i` and `j`: no cell
is a channel of both, the loop body of `_UpdateValues` for `j`, when it
returns, has changed no cell outside the channels of `j`, and so it has
changed no channel of `i`. -/
theorem C17_disjoint_writes (ctx : OsdCpuEvalStencilsContext)
    (hd : ctx.outputDataDesc.length ≤ ctx.outputDataDesc.stride)
    (i j : Nat) (hij : i ≠ j) :
    (∀ c, ctx.outputDataDesc.covers i c → ¬ ctx.outputDataDesc.covers j c) ∧
    ∀ buf b, valuesBody ctx.stencils ctx.controlDataDesc ctx.outputDataDesc
        (ctx.GetControlData.add ctx.controlDataDesc.offset) j buf = Except.ok b →
      (∀ c, ¬ ctx.outputDataDesc.covers j c → b[c]? = buf[c]?) ∧
      ∀ c, ctx.outputDataDesc.covers i c → b[c]? = buf[c]? := by
  have hdis : ∀ c, ctx.outputDataDesc.covers i c → ¬ ctx.outputDataDesc.covers j c :=
    fun c hi hj => hij (covers_unique hd hi hj)
  refine ⟨hdis, fun buf b hb => ?_⟩
  have hpos : (ctx.GetControlData.add ctx.controlDataDesc.offset).pos
      = ctx.controlDataDesc.offset := by
    simp [OsdCpuEvalStencilsContext.GetControlData, ConstRealPtr.add]
  obtain ⟨-, -, hcells⟩ := valuesBody_spec hpos hb
  have hframe : ∀ c, ¬ ctx.outputDataDesc.covers j c → b[c]? = buf[c]? := by
    intro c hc
    rw [hcells c, if_neg hc]
  exact ⟨hframe, fun c hc => hframe c (hdis c hc)⟩

/-- C17 witness: elements 0 and 1 of the concrete scenario; the body for
element 1, run on the buffer that element 0 left, keeps the three channels of
element 0. -/
theorem C17_disjoint_writes_witness :
    scenarioContext.outputDataDesc.length ≤ scenarioContext.outputDataDesc.stride ∧
    valuesBody scenarioContext.stencils scenarioContext.controlDataDesc
      scenarioContext.outputDataDesc
      (scenarioContext.GetControlData.add scenarioContext.controlDataDesc.offset) 1
      [2, 3, 4, 9, 9, 9, 9] = Except.ok [2, 3, 4, 3, 4, 5, 9] ∧
    ([2, 3, 4, 3, 4, 5, 9] : List real)[2]? = ([2, 3, 4, 9, 9, 9, 9] : List real)[2]? := by
  have hrun : valuesBody scenarioContext.stencils scenarioContext.controlDataDesc
      scenarioContext.outputDataDesc
      (scenarioContext.GetControlData.add scenarioContext.controlDataDesc.offset) 1
      [2, 3, 4, 9, 9, 9, 9] = Except.ok [2, 3, 4, 3, 4, 5, 9] := by
    simp [scenarioContext, scenarioTable, packed, valuesBody, forLoop, accumulate, memsetZero,
      vectorIndex, vectorAt, addAssign, readCell, writeCell, ConstRealPtr.read,
      ConstRealPtr.add, FarStencilTables.GetSizes, FarStencilTables.GetOffsets,
      FarStencilTables.GetControlIndices, FarStencilTables.GetWeights,
      OsdCpuEvalStencilsContext.GetControlData]
  exact ⟨by decide, hrun,
    ((C17_disjoint_writes scenarioContext (by decide) 0 1 (by decide)).2 _ _ hrun).2 2
      (by decide)⟩

/-- C18.  For every context whose output descriptor has `length ≤ stride` and
every permutation `order` of `[0, nstencils)`, `_UpdateValues` with its
per-element body run in that order returns a count and a context exactly when
`_UpdateValues` in ascending order returns them: the final output buffer is
the same. -/
theorem C18_updateValues_order_independent (ctx : OsdCpuEvalStencilsContext)
    (order : List Nat) (hperm : order.Perm (List.range ctx.stencils.GetNumStencils))
    (hd : ctx.outputDataDesc.length ≤ ctx.outputDataDesc.stride)
    (r : Nat) (ctx' : OsdCpuEvalStencilsContext) :
    _UpdateValuesInOrder order ctx = Except.ok (r, ctx') ↔
      _UpdateValues ctx = Except.ok (r, ctx') := by
  by_cases hg : ctx.stencils.GetNumStencils = 0 ∨
      ctx.controlDataDesc.CanEval ctx.outputDataDesc = false ∨
      (ctx.controlData = none ∧ ctx.controlDataDesc.offset = 0)
  · rw [updateValuesInOrder_gate order ctx hg, updateValues_gate ctx hg]
  · simp only [not_or] at hg
    obtain ⟨hn, hcan, hnull⟩ := hg
    have hcan' : ctx.controlDataDesc.CanEval ctx.outputDataDesc = true := by
      simpa using hcan
    rw [updateValuesInOrder_run order ctx hn hcan' hnull, updateValues_run ctx hn hcan' hnull]
    have hiff := @forEachIn_perm_iff_forLoop ctx.stencils ctx.controlDataDesc
      ctx.outputDataDesc { data := ctx.controlData, pos := ctx.controlDataDesc.offset }
      rfl hd ctx.stencils.GetNumStencils order hperm ctx.outputData
    cases h1 : forEachIn (valuesBody ctx.stencils ctx.controlDataDesc ctx.outputDataDesc
        { data := ctx.controlData, pos := ctx.controlDataDesc.offset })
        order ctx.outputData with
    | ok b1 =>
      rw [(hiff b1).mp h1]
    | error e1 =>
      cases h2 : forLoop (valuesBody ctx.stencils ctx.controlDataDesc ctx.outputDataDesc
          { data := ctx.controlData, pos := ctx.controlDataDesc.offset })
          ctx.stencils.GetNumStencils ctx.outputData with
      | ok b2 =>
        have := (hiff b2).mpr h2
        rw [h1] at this
        cases this
      | error e2 =>
        constructor <;> intro h <;> cases h

/-- C18 witness: the concrete scenario with element 1 run before element 0. -/
theorem C18_updateValues_order_independent_witness :
    [1, 0].Perm (List.range scenarioContext.stencils.GetNumStencils) ∧
    scenarioContext.outputDataDesc.length ≤ scenarioContext.outputDataDesc.stride ∧
    _UpdateValuesInOrder [1, 0] scenarioContext
      = Except.ok (2, { scenarioContext with outputData := [2, 3, 4, 3, 4, 5, 9] }) :=
  ⟨List.Perm.swap 0 1 [], by decide,
    (C18_updateValues_order_independent scenarioContext [1, 0] (List.Perm.swap 0 1 [])
      (by decide) 2 _).mpr scenarioContext_eval⟩

/-- What the well-formedness of the table does give: when, besides, every
`offsets[i]` is a position of `indices` (no empty run starts at their end) and
the channels of every element lie in the output buffer, every lookup of every
element is in range, and the element loop returns. -/
theorem wellFormed_steps_ok (ctx : OsdCpuEvalStencilsContext) (numControlVertices : Nat)
    (hwf : WellFormedTable ctx.stencils numControlVertices)
    (hctl : HoldsVertices ctx.controlData ctx.controlDataDesc numControlVertices)
    (hcan : ctx.controlDataDesc.CanEval ctx.outputDataDesc = true)
    (hstart : ∀ i, i < ctx.stencils.GetNumStencils →
      ctx.stencils.offsets.getD i 0 < ctx.stencils.indices.length)
    (hout : ∀ i, i < ctx.stencils.GetNumStencils → ctx.outputDataDesc.length ≠ 0 →
      ctx.outputDataDesc.slot i + ctx.outputDataDesc.length ≤ ctx.outputData.length) :
    (∀ i, i < ctx.stencils.GetNumStencils →
      ValuesInRange ctx.stencils ctx.controlDataDesc ctx.outputDataDesc ctx.controlData
        ctx.outputData.length i) ∧
    ∃ b, forLoop (valuesBody ctx.stencils ctx.controlDataDesc ctx.outputDataDesc
        (ctx.GetControlData.add ctx.controlDataDesc.offset))
        ctx.stencils.GetNumStencils ctx.outputData = Except.ok b := by
  obtain ⟨hsz, hof, hiw, hruns, hidx⟩ := hwf
  have hlen : ctx.outputDataDesc.length ≤ ctx.controlDataDesc.length := by
    simpa [OsdVertexBufferDescriptor.CanEval] using hcan
  have hrange : ∀ i, i < ctx.stencils.GetNumStencils →
      ValuesInRange ctx.stencils ctx.controlDataDesc ctx.outputDataDesc ctx.controlData
        ctx.outputData.length i := by
    intro i hi
    have hi' : i < ctx.stencils.numStencils := hi
    refine ⟨by omega, by omega, hstart i hi, by rw [← hiw]; exact hstart i hi,
      hout i hi, ?_⟩
    intro j hj
    have hrun := hruns i hi'
    have hjin : ctx.stencils.offsets.getD i 0 + j < ctx.stencils.indices.length := by omega
    refine ⟨hjin, by omega, fun k hk => ?_⟩
    have hmem : ctx.stencils.indices.getD (ctx.stencils.offsets.getD i 0 + j) 0
        ∈ ctx.stencils.indices := by
      rw [List.getD_eq_getElem _ _ hjin]
      exact List.getElem_mem _
    have := hctl _ (hidx _ hmem)
    omega
  have hpos : (ctx.GetControlData.add ctx.controlDataDesc.offset).pos
      = ctx.controlDataDesc.offset := by
    simp [OsdCpuEvalStencilsContext.GetControlData, ConstRealPtr.add]
  exact ⟨hrange, @valuesLoop_ok ctx.stencils ctx.controlDataDesc ctx.outputDataDesc
    (ctx.GetControlData.add ctx.controlDataDesc.offset) ctx.stencils.GetNumStencils
    ctx.outputData hpos hrange⟩

/-- C19: the code at a well-formed table whose last element has an empty run.
`trailingEmptyRunContext` has one entry of `sizes` and of `offsets` for each
of its two stencils, `offsets[i] + sizes[i] ≤ |indices| = |weights| = 1` for
both, its one index names the one control vertex that the control buffer
holds, and it passes the three checks.  The step of element 0 succeeds; the
step of element 1, whose empty run starts at `offsets[1] = 1 = |indices|`,
fails at the checked lookup `at(offset)`, and the call returns nothing. -/
theorem C19_trailing_empty_run_throws :
    WellFormedTable trailingEmptyRunContext.stencils 1 ∧
    HoldsVertices trailingEmptyRunContext.controlData trailingEmptyRunContext.controlDataDesc 1 ∧
    trailingEmptyRunContext.stencils.GetNumStencils = 2 ∧
    trailingEmptyRunContext.controlDataDesc.CanEval trailingEmptyRunContext.outputDataDesc
      = true ∧
    (trailingEmptyRunContext.GetControlData.add
      trailingEmptyRunContext.controlDataDesc.offset).isNull = false ∧
    trailingEmptyRunContext.stencils.sizes[1]? = some 0 ∧
    valuesBody trailingEmptyRunContext.stencils trailingEmptyRunContext.controlDataDesc
      trailingEmptyRunContext.outputDataDesc
      (trailingEmptyRunContext.GetControlData.add
        trailingEmptyRunContext.controlDataDesc.offset) 0 [9, 9]
      = Except.ok [5, 9] ∧
    valuesBody trailingEmptyRunContext.stencils trailingEmptyRunContext.controlDataDesc
      trailingEmptyRunContext.outputDataDesc
      (trailingEmptyRunContext.GetControlData.add
        trailingEmptyRunContext.controlDataDesc.offset) 1 [5, 9]
      = Except.error Fault.outOfRange ∧
    _UpdateValues trailingEmptyRunContext = Except.error Fault.outOfRange := by
  refine ⟨?_, ?_, by decide, by decide, by decide, by decide, ?_, ?_,
    trailingEmptyRunContext_eval⟩
  · unfold WellFormedTable
    decide
  · unfold HoldsVertices
    intro v hv
    have hv0 : v = 0 := by omega
    subst hv0
    simp [trailingEmptyRunContext, packed]
  · simp [trailingEmptyRunContext, packed, valuesBody, forLoop, accumulate, memsetZero,
      vectorIndex, vectorAt, addAssign, readCell, writeCell, ConstRealPtr.read,
      ConstRealPtr.add, FarStencilTables.GetSizes, FarStencilTables.GetOffsets,
      FarStencilTables.GetControlIndices, FarStencilTables.GetWeights,
      OsdCpuEvalStencilsContext.GetControlData]
  · simp [trailingEmptyRunContext, packed, valuesBody, forLoop, accumulate, memsetZero,
      vectorIndex, vectorAt, addAssign, readCell, writeCell, ConstRealPtr.read,
      ConstRealPtr.add, FarStencilTables.GetSizes, FarStencilTables.GetOffsets,
      FarStencilTables.GetControlIndices, FarStencilTables.GetWeights,
      OsdCpuEvalStencilsContext.GetControlData]

end OpenSubdiv

namespace Predicates1D

/-- The `()` operator of `EqualToChainingTimeStampUP1D` holds exactly for a
`ViewEdge` whose chaining time stamp is at least `ts`. -/
theorem EqualToChainingTimeStampUP1D_iff (ts : Nat) (inter : Interface1D) :
    EqualToChainingTimeStampUP1D ts inter = true ↔
      ∃ edge, inter.viewEdge = some edge ∧ ts ≤ edge.getChainingTimeStamp := by
  unfold EqualToChainingTimeStampUP1D
  cases inter.viewEdge with
  | none => simp
  | some edge => simp

/-- C21: the code at a `ViewEdge` of time stamp 5 and chaining time stamp 5 and
the value 3.  Neither stamp of the element equals 3, and
`EqualToChainingTimeStampUP1D(3)` returns true, where the sibling
`EqualToTimeStampUP1D(3)` returns false.  And at an element of time stamp 3
that is no `ViewEdge` it returns false although the time stamp equals 3. -/
theorem C21_chaining_time_stamp_not_equality :
    EqualToChainingTimeStampUP1D 3 chainedEdge = true ∧
    chainedEdge.getTimeStamp ≠ 3 ∧
    chainedEdge.viewEdge.map ViewEdge.getChainingTimeStamp ≠ some 3 ∧
    EqualToTimeStampUP1D 3 chainedEdge = false ∧
    EqualToChainingTimeStampUP1D 3 plainElement = false ∧
    plainElement.getTimeStamp = 3 := by
  decide

theorem sameShapeIdInner_iff (current : Id) (shapes2 : List ViewShape) :
    sameShapeIdInner current shapes2 = true ↔ ∃ s2, s2 ∈ shapes2 ∧ s2.getId = current := by
  induction shapes2 with
  | nil => simp [sameShapeIdInner]
  | cons s rest ih =>
    unfold sameShapeIdInner
    by_cases h : s.getId = current
    · simp [h]
    · simp [h, ih]

theorem sameShapeIdOuter_iff (shapes2 shapes1 : List ViewShape) :
    sameShapeIdOuter shapes2 shapes1 = true ↔
      ∃ s1, s1 ∈ shapes1 ∧ ∃ s2, s2 ∈ shapes2 ∧ s1.getId = s2.getId := by
  induction shapes1 with
  | nil => simp [sameShapeIdOuter]
  | cons s rest ih =>
    unfold sameShapeIdOuter
    by_cases h : sameShapeIdInner s.getId shapes2 = true
    · obtain ⟨s2, hs2, he⟩ := (sameShapeIdInner_iff _ _).mp h
      simp only [h, if_true, true_iff]
      exact ⟨s, List.mem_cons_self _ _, s2, hs2, he.symm⟩
    · have hno : ¬ ∃ s2, s2 ∈ shapes2 ∧ s2.getId = s.getId :=
        fun hex => h ((sameShapeIdInner_iff _ _).mpr hex)
      simp only [h, if_false, ih, Bool.false_eq_true]
      constructor
      · rintro ⟨s1, hs1, hrest⟩
        exact ⟨s1, List.mem_cons_of_mem _ hs1, hrest⟩
      · rintro ⟨s1, hs1, s2, hs2, he⟩
        rcases List.mem_cons.mp hs1 with rfl | hs1
        · exact absurd ⟨s2, hs2, he.symm⟩ hno
        · exact ⟨s1, hs1, s2, hs2, he⟩

/-- C22.  For every two `Interface1D` `i1` and `i2`, `SameShapeIdBP1D` returns
true if and only if some shape of `i1` and some shape of `i2` have equal Ids;
it returns false when the shape set of either is empty. -/
theorem C22_sameShapeId (i1 i2 : Interface1D) :
    (SameShapeIdBP1D i1 i2 = true ↔
      ∃ s1, s1 ∈ i1.shapes ∧ ∃ s2, s2 ∈ i2.shapes ∧ s1.getId = s2.getId) ∧
    (i1.shapes = [] ∨ i2.shapes = [] → SameShapeIdBP1D i1 i2 = false) := by
  have hiff : SameShapeIdBP1D i1 i2 = true ↔
      ∃ s1, s1 ∈ i1.shapes ∧ ∃ s2, s2 ∈ i2.shapes ∧ s1.getId = s2.getId := by
    unfold SameShapeIdBP1D
    exact sameShapeIdOuter_iff _ _
  refine ⟨hiff, fun hempty => ?_⟩
  cases hb : SameShapeIdBP1D i1 i2 with
  | false => rfl
  | true =>
    obtain ⟨s1, hs1, s2, hs2, -⟩ := hiff.mp hb
    rcases hempty with h | h
    · rw [h] at hs1
      cases hs1
    · rw [h] at hs2
      cases hs2

/-- C22 witness: two elements that share the shape of Id (2,0), and an element
without shapes. -/
theorem C22_sameShapeId_witness :
    SameShapeIdBP1D twoShapeElement otherShapeElement = true ∧
    SameShapeIdBP1D twoShapeElement plainElement = false :=
  ⟨(C22_sameShapeId twoShapeElement otherShapeElement).1.mpr
      ⟨{ id := { first := 2, second := 0 } }, by decide,
        { id := { first := 2, second := 0 } }, by decide, rfl⟩,
    (C22_sameShapeId twoShapeElement plainElement).2 (Or.inr rfl)⟩

end Predicates1D

/-! ## The claims on materials -/

namespace Material

theorem notEqualLoop_eq_false (a b : Material) (l : List (Fin 4)) :
    notEqualLoop a b l = false ↔
      ∀ i, i ∈ l → a.Diffuse i = b.Diffuse i ∧ a.Specular i = b.Specular i ∧
        a.Ambient i = b.Ambient i ∧ a.Emission i = b.Emission i := by
  induction l with
  | nil => simp [notEqualLoop]
  | cons i rest ih =>
    unfold notEqualLoop
    simp only [diffuse, specular, ambient, emission, List.mem_cons, forall_eq_or_imp]
    by_cases h1 : a.Diffuse i = b.Diffuse i
    · by_cases h2 : a.Specular i = b.Specular i
      · by_cases h3 : a.Ambient i = b.Ambient i
        · by_cases h4 : a.Emission i = b.Emission i
          · simp [h1, h2, h3, h4, ih]
          · simp [h1, h2, h3, h4]
        · simp [h1, h2, h3]
      · simp [h1, h2]
    · simp [h1]

/-- C23.  For every two materials `a` and `b`, `a == b` holds if and only if
their shininess and all four components of each of diffuse, specular, ambient
and emission are equal, and `a == b` is the negation of `a != b`. -/
theorem C23_material_equality (a b : Material) :
    (a.equal b = true ↔
      a.Shininess = b.Shininess ∧
      ∀ i : Fin 4, a.Diffuse i = b.Diffuse i ∧ a.Specular i = b.Specular i ∧
        a.Ambient i = b.Ambient i ∧ a.Emission i = b.Emission i) ∧
    a.equal b = ! (a.notEqual b) := by
  refine ⟨?_, rfl⟩
  have hall : (∀ i : Fin 4, i ∈ ([0, 1, 2, 3] : List (Fin 4)) →
        a.Diffuse i = b.Diffuse i ∧ a.Specular i = b.Specular i ∧
        a.Ambient i = b.Ambient i ∧ a.Emission i = b.Emission i) ↔
      ∀ i : Fin 4, a.Diffuse i = b.Diffuse i ∧ a.Specular i = b.Specular i ∧
        a.Ambient i = b.Ambient i ∧ a.Emission i = b.Emission i := by
    constructor
    · intro h i
      exact h i (by fin_cases i <;> simp)
    · intro h i _
      exact h i
  unfold equal notEqual
  simp only [shininess]
  by_cases hs : a.Shininess = b.Shininess
  · simp only [hs, ne_eq, not_true_eq_false, if_false, Bool.not_eq_true', true_and]
    rw [notEqualLoop_eq_false, hall]
  · simp [hs]

/-- C24.  For every four arrays of four elements and every shininess, the
material that the constructor builds, on whatever storage, returns `iDiffuse`
from `diffuse()`, `iAmbiant` from `ambient()`, `iSpecular` from `specular()`,
`iEmission` from `emission()` and the shininess from `shininess()`; the R, G,
B and A accessors return the components 0, 1, 2 and 3 of these arrays. -/
theorem C24_material_constructor (self : Material)
    (iDiffuse iAmbiant iSpecular iEmission : Fin 4 → ℚ) (iShininess : ℚ) :
    (construct self iDiffuse iAmbiant iSpecular iEmission iShininess).diffuse = iDiffuse ∧
    (construct self iDiffuse iAmbiant iSpecular iEmission iShininess).ambient = iAmbiant ∧
    (construct self iDiffuse iAmbiant iSpecular iEmission iShininess).specular = iSpecular ∧
    (construct self iDiffuse iAmbiant iSpecular iEmission iShininess).emission = iEmission ∧
    (construct self iDiffuse iAmbiant iSpecular iEmission iShininess).shininess = iShininess ∧
    (construct self iDiffuse iAmbiant iSpecular iEmission iShininess).diffuseR = iDiffuse 0 ∧
    (construct self iDiffuse iAmbiant iSpecular iEmission iShininess).diffuseG = iDiffuse 1 ∧
    (construct self iDiffuse iAmbiant iSpecular iEmission iShininess).diffuseB = iDiffuse 2 ∧
    (construct self iDiffuse iAmbiant iSpecular iEmission iShininess).diffuseA = iDiffuse 3 ∧
    (construct self iDiffuse iAmbiant iSpecular iEmission iShininess).ambientR = iAmbiant 0 ∧
    (construct self iDiffuse iAmbiant iSpecular iEmission iShininess).ambientG = iAmbiant 1 ∧
    (construct self iDiffuse iAmbiant iSpecular iEmission iShininess).ambientB = iAmbiant 2 ∧
    (construct self iDiffuse iAmbiant iSpecular iEmission iShininess).ambientA = iAmbiant 3 ∧
    (construct self iDiffuse iAmbiant iSpecular iEmission iShininess).specularR = iSpecular 0 ∧
    (construct self iDiffuse iAmbiant iSpecular iEmission iShininess).specularG = iSpecular 1 ∧
    (construct self iDiffuse iAmbiant iSpecular iEmission iShininess).specularB = iSpecular 2 ∧
    (construct self iDiffuse iAmbiant iSpecular iEmission iShininess).specularA = iSpecular 3 ∧
    (construct self iDiffuse iAmbiant iSpecular iEmission iShininess).emissionR = iEmission 0 ∧
    (construct self iDiffuse iAmbiant iSpecular iEmission iShininess).emissionG = iEmission 1 ∧
    (construct self iDiffuse iAmbiant iSpecular iEmission iShininess).emissionB = iEmission 2 ∧
    (construct self iDiffuse iAmbiant iSpecular iEmission iShininess).emissionA = iEmission 3 := by
  have hd : (construct self iDiffuse iAmbiant iSpecular iEmission iShininess).Diffuse
      = iDiffuse := by
    funext i
    fin_cases i <;> simp [construct, forEach4, Function.update]
  have ha : (construct self iDiffuse iAmbiant iSpecular iEmission iShininess).Ambient
      = iAmbiant := by
    funext i
    fin_cases i <;> simp [construct, forEach4, Function.update]
  have hs : (construct self iDiffuse iAmbiant iSpecular iEmission iShininess).Specular
      = iSpecular := by
    funext i
    fin_cases i <;> simp [construct, forEach4, Function.update]
  have he : (construct self iDiffuse iAmbiant iSpecular iEmission iShininess).Emission
      = iEmission := by
    funext i
    fin_cases i <;> simp [construct, forEach4, Function.update]
  simp only [diffuse, ambient, specular, emission, shininess, diffuseR, diffuseG, diffuseB,
    diffuseA, ambientR, ambientG, ambientB, ambientA, specularR, specularG, specularB,
    specularA, emissionR, emissionG, emissionB, emissionA, hd, ha, hs, he, true_and,
    and_true]
  rfl

/-- C25.  For every material and every `r`, `g`, `b`, `a`: `SetDiffuse` makes
the diffuse colour `(r, g, b, a)` and leaves specular, ambient, emission and
shininess as they were; `SetSpecular`, `SetAmbient` and `SetEmission` likewise
change their own colour only, and `SetShininess(s)` changes the shininess
only. -/
theorem C25_material_setters (m : Material) (r g b a s : ℚ) :
    ((m.SetDiffuse r g b a).Diffuse = colour r g b a ∧
      (m.SetDiffuse r g b a).Specular = m.Specular ∧
      (m.SetDiffuse r g b a).Ambient = m.Ambient ∧
      (m.SetDiffuse r g b a).Emission = m.Emission ∧
      (m.SetDiffuse r g b a).Shininess = m.Shininess) ∧
    ((m.SetSpecular r g b a).Specular = colour r g b a ∧
      (m.SetSpecular r g b a).Diffuse = m.Diffuse ∧
      (m.SetSpecular r g b a).Ambient = m.Ambient ∧
      (m.SetSpecular r g b a).Emission = m.Emission ∧
      (m.SetSpecular r g b a).Shininess = m.Shininess) ∧
    ((m.SetAmbient r g b a).Ambient = colour r g b a ∧
      (m.SetAmbient r g b a).Diffuse = m.Diffuse ∧
      (m.SetAmbient r g b a).Specular = m.Specular ∧
      (m.SetAmbient r g b a).Emission = m.Emission ∧
      (m.SetAmbient r g b a).Shininess = m.Shininess) ∧
    ((m.SetEmission r g b a).Emission = colour r g b a ∧
      (m.SetEmission r g b a).Diffuse = m.Diffuse ∧
      (m.SetEmission r g b a).Specular = m.Specular ∧
      (m.SetEmission r g b a).Ambient = m.Ambient ∧
      (m.SetEmission r g b a).Shininess = m.Shininess) ∧
    ((m.SetShininess s).Shininess = s ∧
      (m.SetShininess s).Diffuse = m.Diffuse ∧
      (m.SetShininess s).Specular = m.Specular ∧
      (m.SetShininess s).Ambient = m.Ambient ∧
      (m.SetShininess s).Emission = m.Emission) := by
  refine ⟨⟨?_, rfl, rfl, rfl, rfl⟩, ⟨?_, rfl, rfl, rfl, rfl⟩, ⟨?_, rfl, rfl, rfl, rfl⟩,
    ⟨?_, rfl, rfl, rfl, rfl⟩, ⟨rfl, rfl, rfl, rfl, rfl⟩⟩
  · funext i
    fin_cases i <;> simp [SetDiffuse, colour, Function.update]
  · funext i
    fin_cases i <;> simp [SetSpecular, colour, Function.update]
  · funext i
    fin_cases i <;> simp [SetAmbient, colour, Function.update]
  · funext i
    fin_cases i <;> simp [SetEmission, colour, Function.update]

end Material

/-! ## The claims on the silhouette geometry engine -/

namespace SilhouetteGeomEngine

/-- C26.  For every edge `fe` and every parameter `t`, whatever the state of
the engine, `ImageToWorldParameter(fe, t)` returns `t`. -/
theorem C26_imageToWorldParameter_identity {FEdge : Type} (s : SilhouetteGeomEngine)
    (fe : FEdge) (t : ℚ) :
    ImageToWorldParameter s fe t = t :=
  rfl

theorem assign_apply (m : Fin 4 → Fin 4 → ℚ) (i j : Fin 4) (x : ℚ) (a b : Fin 4) :
    assign m i j x a b = if a = i ∧ b = j then x else m a b := by
  unfold assign
  by_cases ha : a = i
  · subst ha
    by_cases hb : b = j
    · subst hb
      simp
    · simp [Function.update, hb]
  · simp [Function.update, ha]

theorem assign_same (m : Fin 4 → Fin 4 → ℚ) (i j : Fin 4) (x : ℚ) :
    assign m i j x i j = x := by
  simp [assign_apply]

theorem assign_assign (m : Fin 4 → Fin 4 → ℚ) (i j : Fin 4) (x y : ℚ) :
    assign (assign m i j x) i j y = assign m i j y := by
  funext a b
  simp only [assign_apply]
  split_ifs <;> rfl

/-- Sixteen assignments, one to each cell in the order of the loop nest, leave
the array of the assigned values. -/
theorem fill_eq (v m : Fin 4 → Fin 4 → ℚ) :
    forEach4 (fun i m => forEach4 (fun j m => assign m i j (v i j)) m) m = v := by
  funext a b
  fin_cases a <;> fin_cases b <;> simp [forEach4, assign_apply]

theorem copyModelView_eq (MV : Fin 4 → Fin 4 → ℚ) (s : SilhouetteGeomEngine) :
    copyModelView MV s = { s with
      _modelViewMatrix :=
        forEach4 (fun i m => forEach4 (fun j m => assign m i j (MV j i)) m) s._modelViewMatrix,
      _glModelViewMatrix :=
        forEach4 (fun i m => forEach4 (fun j m => assign m i j (MV i j)) m)
          s._glModelViewMatrix } :=
  rfl

theorem copyProjection_eq (P : Fin 4 → Fin 4 → ℚ) (s : SilhouetteGeomEngine) :
    copyProjection P s = { s with
      _projectionMatrix :=
        forEach4 (fun i m => forEach4 (fun j m => assign m i j (P j i)) m) s._projectionMatrix,
      _glProjectionMatrix :=
        forEach4 (fun i m => forEach4 (fun j m => assign m i j (P i j)) m)
          s._glProjectionMatrix } :=
  rfl

theorem productLoop_eq (s : SilhouetteGeomEngine) (i j : Fin 4) :
    forEach4 (fun k (s : SilhouetteGeomEngine) =>
        let sum := s._transform i j + s._projectionMatrix i k * s._modelViewMatrix k j
        { s with _transform := assign s._transform i j sum }) s
      = { s with
          _transform :=
            forEach4 (fun k t =>
              assign t i j (t i j + s._projectionMatrix i k * s._modelViewMatrix k j))
              s._transform } :=
  rfl

/-- One cell of the third loop nest: set to 0, then the four products added
one after the other, leaves the sum of the products. -/
theorem cell_eq (P M t : Fin 4 → Fin 4 → ℚ) (i j : Fin 4) :
    forEach4 (fun k t => assign t i j (t i j + P i k * M k j)) (assign t i j 0)
      = assign t i j (∑ k, P i k * M k j) := by
  simp only [forEach4, assign_same, assign_assign, Fin.sum_univ_four, zero_add]

theorem cellLoop_eq (s : SilhouetteGeomEngine) (i j : Fin 4) :
    forEach4 (fun k (s : SilhouetteGeomEngine) =>
        let sum := s._transform i j + s._projectionMatrix i k * s._modelViewMatrix k j
        { s with _transform := assign s._transform i j sum })
        { s with _transform := assign s._transform i j 0 }
      = { s with
          _transform :=
            assign s._transform i j (∑ k, s._projectionMatrix i k * s._modelViewMatrix k j) } := by
  rw [productLoop_eq]
  simp only [cell_eq]

theorem rowLoop_eq (s : SilhouetteGeomEngine) (i : Fin 4) :
    forEach4 (fun j (s : SilhouetteGeomEngine) =>
        { s with
          _transform :=
            assign s._transform i j
              (∑ k, s._projectionMatrix i k * s._modelViewMatrix k j) }) s
      = { s with
          _transform :=
            forEach4 (fun j t =>
              assign t i j (∑ k, s._projectionMatrix i k * s._modelViewMatrix k j))
              s._transform } :=
  rfl

theorem rowsLoop_eq (s : SilhouetteGeomEngine) :
    forEach4 (fun i (s : SilhouetteGeomEngine) =>
        { s with
          _transform :=
            forEach4 (fun j t =>
              assign t i j (∑ k, s._projectionMatrix i k * s._modelViewMatrix k j))
              s._transform }) s
      = { s with
          _transform :=
            forEach4 (fun i t => forEach4 (fun j t =>
              assign t i j (∑ k, s._projectionMatrix i k * s._modelViewMatrix k j)) t)
              s._transform } :=
  rfl

/-- The third loop nest leaves in `_transform` the product of
`_projectionMatrix` and `_modelViewMatrix` and changes nothing else. -/
theorem combine_eq (s : SilhouetteGeomEngine) :
    combine s = { s with
      _transform := fun i j => ∑ k, s._projectionMatrix i k * s._modelViewMatrix k j } := by
  unfold combine
  simp only [cellLoop_eq, rowLoop_eq, rowsLoop_eq]
  rw [fill_eq (fun i j => ∑ k, s._projectionMatrix i k * s._modelViewMatrix k j)]

theorem viewportLoop_eq (s : SilhouetteGeomEngine) (vp : Fin 4 → Int) :
    forEach4 (fun i (s : SilhouetteGeomEngine) =>
        { s with _viewport := Function.update s._viewport i (vp i) }) s
      = { s with _viewport := vp } := by
  have h : forEach4 (fun i (w : Fin 4 → Int) => Function.update w i (vp i)) s._viewport = vp := by
    funext i
    fin_cases i <;> simp [forEach4, Function.update]
  have h2 : forEach4 (fun i (s : SilhouetteGeomEngine) =>
        { s with _viewport := Function.update s._viewport i (vp i) }) s
      = { s with
          _viewport := forEach4 (fun i (w : Fin 4 → Int) => Function.update w i (vp i))
            s._viewport } := rfl
  rw [h2, h]

theorem translation_eq (w : Fin 3 → ℚ) (x y z : ℚ) :
    Function.update (Function.update (Function.update w 0 x) 1 y) 2 z = ![x, y, z] := by
  funext i
  fin_cases i <;> simp [Function.update]

/-- The state that `SetTransform` leaves, member by member. -/
theorem setTransform_eq (s : SilhouetteGeomEngine) (MV P : Fin 4 → Fin 4 → ℚ)
    (vp : Fin 4 → Int) (f : ℚ) :
    SetTransform s MV P vp f =
      { _translation := ![MV 3 0, MV 3 1, MV 3 2],
        _modelViewMatrix := fun i j => MV j i,
        _projectionMatrix := fun i j => P j i,
        _transform := fun i j => ∑ k, P k i * MV j k,
        _viewport := vp,
        _Focal := f,
        _glProjectionMatrix := P,
        _glModelViewMatrix := MV,
        _znear := s._znear,
        _zfar := s._zfar } := by
  unfold SetTransform
  simp only [copyModelView_eq, copyProjection_eq, combine_eq, viewportLoop_eq, fill_eq,
    translation_eq]

/-- C27.  After `SetTransform(MV, P, vp, f)`, for all `i`, `j`:
`_modelViewMatrix[i][j] = MV[j][i]` and `_projectionMatrix[i][j] = P[j][i]`,
`_glModelViewMatrix[i][j] = MV[i][j]` and `_glProjectionMatrix[i][j] = P[i][j]`,
`_transform[i][j]` is the sum over `k` of
`_projectionMatrix[i][k] * _modelViewMatrix[k][j]`,
`_translation = (MV[3][0], MV[3][1], MV[3][2])`, `_viewport = vp` and
`_Focal = f`; `_znear` and `_zfar` are unchanged. -/
theorem C27_setTransform_members (s : SilhouetteGeomEngine) (MV P : Fin 4 → Fin 4 → ℚ)
    (vp : Fin 4 → Int) (f : ℚ) :
    (∀ i j, (SetTransform s MV P vp f)._modelViewMatrix i j = MV j i ∧
      (SetTransform s MV P vp f)._projectionMatrix i j = P j i ∧
      (SetTransform s MV P vp f)._glModelViewMatrix i j = MV i j ∧
      (SetTransform s MV P vp f)._glProjectionMatrix i j = P i j ∧
      (SetTransform s MV P vp f)._transform i j =
        ∑ k, (SetTransform s MV P vp f)._projectionMatrix i k *
          (SetTransform s MV P vp f)._modelViewMatrix k j) ∧
    (SetTransform s MV P vp f)._translation = ![MV 3 0, MV 3 1, MV 3 2] ∧
    (SetTransform s MV P vp f)._viewport = vp ∧
    (SetTransform s MV P vp f)._Focal = f ∧
    (SetTransform s MV P vp f)._znear = s._znear ∧
    (SetTransform s MV P vp f)._zfar = s._zfar := by
  rw [setTransform_eq]
  exact ⟨fun i j => ⟨rfl, rfl, rfl, rfl, rfl⟩, rfl, rfl, rfl, rfl, rfl⟩

/-- C28.  After `SetTransform(MV, P, vp, f)` the matrix `_transform` is the
transpose of the product `MV * P`: `_transform[i][j]` is the sum over `k` of
`MV[j][k] * P[k][i]`; identity inputs give the identity. -/
theorem C28_setTransform_transposed_product (s : SilhouetteGeomEngine)
    (MV P : Fin 4 → Fin 4 → ℚ) (vp : Fin 4 → Int) (f : ℚ) :
    (∀ i j, (SetTransform s MV P vp f)._transform i j = ∑ k, MV j k * P k i) ∧
    (SetTransform s identity4 identity4 vp f)._transform = identity4 := by
  have h : ∀ (A B : Fin 4 → Fin 4 → ℚ) (i j : Fin 4),
      (SetTransform s A B vp f)._transform i j = ∑ k, A j k * B k i := by
    intro A B i j
    rw [setTransform_eq]
    show ∑ k, B k i * A j k = ∑ k, A j k * B k i
    exact Finset.sum_congr rfl (fun k _ => mul_comm (B k i) (A j k))
  refine ⟨h MV P, ?_⟩
  funext i j
  rw [h]
  fin_cases i <;> fin_cases j <;> simp [Fin.sum_univ_four, identity4]

end SilhouetteGeomEngine

/-! ## The derivative evaluation against the position evaluation -/

namespace OpenSubdiv

open OsdOmpEvalStencilsController

theorem forLoop_succ_eq_ok {σ : Type} (body : Nat → σ → Except Fault σ) (n : Nat) (s t : σ) :
    forLoop body (n + 1) s = Except.ok t ↔
      ∃ u, forLoop body n s = Except.ok u ∧ body n u = Except.ok t := by
  simp only [forLoop]
  cases h : forLoop body n s with
  | error e => simp
  | ok u => simp

/-- A loop over a pair of states whose body acts on each component by a body of
its own returns exactly when both component loops return, with their
results. -/
theorem forLoop_pair {α β : Type} (bodyP : Nat → α × β → Except Fault (α × β))
    (body1 : Nat → α → Except Fault α) (body2 : Nat → β → Except Fault β)
    (h : ∀ k s1 s2 t1 t2, bodyP k (s1, s2) = Except.ok (t1, t2) ↔
      body1 k s1 = Except.ok t1 ∧ body2 k s2 = Except.ok t2)
    (n : Nat) (s1 : α) (s2 : β) (t1 : α) (t2 : β) :
    forLoop bodyP n (s1, s2) = Except.ok (t1, t2) ↔
      forLoop body1 n s1 = Except.ok t1 ∧ forLoop body2 n s2 = Except.ok t2 := by
  induction n generalizing t1 t2 with
  | zero => simp [forLoop]
  | succ m ih =>
    rw [forLoop_succ_eq_ok, forLoop_succ_eq_ok, forLoop_succ_eq_ok]
    constructor
    · rintro ⟨⟨u1, u2⟩, hu, hb⟩
      obtain ⟨h1, h2⟩ := (ih u1 u2).mp hu
      obtain ⟨hb1, hb2⟩ := (h m u1 u2 t1 t2).mp hb
      exact ⟨⟨u1, h1, hb1⟩, ⟨u2, h2, hb2⟩⟩
    · rintro ⟨⟨u1, h1, hb1⟩, ⟨u2, h2, hb2⟩⟩
      exact ⟨(u1, u2), (ih u1 u2).mpr ⟨h1, h2⟩, (h m u1 u2 t1 t2).mpr ⟨hb1, hb2⟩⟩

/-- The innermost loop of `_UpdateDerivs` acts on the du buffer and on the dv
buffer as the innermost loop of `_UpdateValues` does, with the du weight and
the dv weight, both over the one channel count it is given. -/
theorem accumulateDerivs_eq_ok (cv : ConstRealPtr) (wu wv : real) (du dv len : Nat)
    (s1 s2 t1 t2 : List real) :
    accumulateDerivs cv wu wv du dv len (s1, s2) = Except.ok (t1, t2) ↔
      accumulate cv wu du len s1 = Except.ok t1 ∧ accumulate cv wv dv len s2 = Except.ok t2 := by
  unfold accumulateDerivs accumulate
  apply forLoop_pair
  intro k a1 a2 b1 b2
  cases hr : cv.read k with
  | error e => simp
  | ok x =>
    cases ha : addAssign a1 (du + k) (x * wu) with
    | error e => simp [ha]
    | ok y1 =>
      cases hb : addAssign a2 (dv + k) (x * wv) with
      | error e => simp [ha, hb]
      | ok y2 => simp [ha, hb]

/-- With the derivative weights equal to the weights and one descriptor for
both streams, the loop body of `_UpdateDerivs` acts on each of its two buffers
as the loop body of `_UpdateValues` acts on the output buffer. -/
theorem derivsBody_eq_ok {t : FarStencilTables} (hdu : t.duWeights = t.weights)
    (hdv : t.dvWeights = t.weights) (ctrlDesc outDesc : OsdVertexBufferDescriptor)
    (ctrl : ConstRealPtr) (i : Nat) (s1 s2 t1 t2 : List real) :
    derivsBody t ctrlDesc outDesc outDesc ctrl i (s1, s2) = Except.ok (t1, t2) ↔
      valuesBody t ctrlDesc outDesc ctrl i s1 = Except.ok t1 ∧
      valuesBody t ctrlDesc outDesc ctrl i s2 = Except.ok t2 := by
  unfold derivsBody valuesBody
  simp only [FarStencilTables.GetSizes, FarStencilTables.GetOffsets,
    FarStencilTables.GetControlIndices, FarStencilTables.GetWeights,
    FarStencilTables.GetDuWeights, FarStencilTables.GetDvWeights, hdu, hdv]
  cases hs : vectorIndex t.sizes i with
  | error e => simp [hs]
  | ok size =>
  cases ho : vectorIndex t.offsets i with
  | error e => simp [hs, ho]
  | ok off =>
  cases hi : vectorAt t.indices off with
  | error e => simp [hs, ho, hi]
  | ok index =>
  cases hw : vectorAt t.weights off with
  | error e => simp [hs, ho, hi, hw]
  | ok weight =>
  cases hmu : memsetZero s1 (i * outDesc.stride + outDesc.offset) outDesc.length with
  | error e => simp [hs, ho, hi, hw, hmu]
  | ok z1 =>
  cases hmv : memsetZero s2 (i * outDesc.stride + outDesc.offset) outDesc.length with
  | error e => simp [hs, ho, hi, hw, hmu, hmv]
  | ok z2 =>
    simp only [hs, ho, hi, hw, hmu, hmv]
    apply forLoop_pair
    intro j a1 a2 b1 b2
    cases hx : vectorIndex t.indices (index + j) with
    | error e => simp [hx]
    | ok idx =>
      cases hy : vectorIndex t.weights (weight + j) with
      | error e => simp [hx, hy]
      | ok w =>
        simp only [hx, hy]
        exact accumulateDerivs_eq_ok _ _ _ _ _ _ _ _ _ _

end OpenSubdiv

namespace OpenSubdiv

open OsdOmpEvalStencilsController

/-- Past its early returns `_UpdateDerivs` is the element loop over the pair of
the du buffer and the dv buffer. -/
theorem updateDerivs_run (ctx : OsdCpuEvalStencilsContext)
    (hn : ctx.stencils.GetNumStencils ≠ 0)
    (hcu : ctx.controlDataDesc.CanEval ctx.duDataDesc = true)
    (hcv : ctx.controlDataDesc.CanEval ctx.dvDataDesc = true)
    (hnull : ¬ (ctx.controlData = none ∧ ctx.controlDataDesc.offset = 0)) :
    _UpdateDerivs ctx =
      match forLoop (derivsBody ctx.stencils ctx.controlDataDesc ctx.duDataDesc ctx.dvDataDesc
          { data := ctx.controlData, pos := ctx.controlDataDesc.offset })
          ctx.stencils.GetNumStencils (ctx.outputUDerivData, ctx.outputVDerivData) with
      | Except.error e => Except.error e
      | Except.ok data =>
        Except.ok (ctx.stencils.GetNumStencils,
          { ctx with outputUDerivData := data.1, outputVDerivData := data.2 }) := by
  unfold _UpdateDerivs
  simp only [OsdCpuEvalStencilsContext.GetStencilTables,
    OsdCpuEvalStencilsContext.GetControlDataDescriptor,
    OsdCpuEvalStencilsContext.GetDuDataDescriptor,
    OsdCpuEvalStencilsContext.GetDvDataDescriptor,
    OsdCpuEvalStencilsContext.GetOutputUDerivData,
    OsdCpuEvalStencilsContext.GetOutputVDerivData,
    OsdCpuEvalStencilsContext.GetControlData, ConstRealPtr.add, ConstRealPtr.isNull]
  have hnull' : (ctx.controlData.isNone && (ctx.controlDataDesc.offset == 0)) = false := by
    cases hd : ctx.controlData with
    | none =>
      have : ctx.controlDataDesc.offset ≠ 0 := fun h0 => hnull ⟨hd, h0⟩
      simp [this]
    | some b => simp
  simp only [hn, hcu, hcv, hnull', if_false, Bool.not_true, Bool.false_eq_true, Nat.zero_add,
    Bool.and_self]

/-- With the derivative weights equal to the weights and the du and dv
descriptors equal to the output descriptor, the element loop of
`_UpdateDerivs` returns a pair of buffers exactly when the element loop of
`_UpdateValues`, run on the du buffer and run on the dv buffer, returns
them. -/
theorem derivsLoop_eq_ok {t : FarStencilTables} (hdu : t.duWeights = t.weights)
    (hdv : t.dvWeights = t.weights) (ctrlDesc outDesc : OsdVertexBufferDescriptor)
    (ctrl : ConstRealPtr) (n : Nat) (s1 s2 t1 t2 : List real) :
    forLoop (derivsBody t ctrlDesc outDesc outDesc ctrl) n (s1, s2) = Except.ok (t1, t2) ↔
      forLoop (valuesBody t ctrlDesc outDesc ctrl) n s1 = Except.ok t1 ∧
      forLoop (valuesBody t ctrlDesc outDesc ctrl) n s2 = Except.ok t2 :=
  forLoop_pair _ _ _ (fun k a1 a2 b1 b2 =>
    derivsBody_eq_ok hdu hdv ctrlDesc outDesc ctrl k a1 a2 b1 b2) n s1 s2 t1 t2

/-- Two runs of the element loop of `_UpdateValues` on two buffers: on every
cell that some element covers they leave the same value. -/
theorem valuesLoop_agree {t : FarStencilTables} {ctrlDesc outDesc : OsdVertexBufferDescriptor}
    {ctrl : ConstRealPtr} {n : Nat} {buf1 buf2 b1 b2 : List real}
    (hpos : ctrl.pos = ctrlDesc.offset)
    (h1 : forLoop (valuesBody t ctrlDesc outDesc ctrl) n buf1 = Except.ok b1)
    (h2 : forLoop (valuesBody t ctrlDesc outDesc ctrl) n buf2 = Except.ok b2)
    (i k : Nat) (hi : i < n) (hk : k < outDesc.length) :
    b1[outDesc.offset + i * outDesc.stride + k]? =
      b2[outDesc.offset + i * outDesc.stride + k]? := by
  obtain ⟨-, -, hc1⟩ := valuesLoop_spec hpos h1
  obtain ⟨-, -, hc2⟩ := valuesLoop_spec hpos h2
  obtain ⟨hcov, -⟩ := covers_cell outDesc (i := i) hk
  rw [hc1, hc2]
  cases hl : outDesc.lastWriter n (outDesc.offset + i * outDesc.stride + k) with
  | none => exact absurd hcov (lastWriter_none.mp hl i hi)
  | some s => rfl

/-- The ascending order alone: with the derivative weights equal to the
weights and the du and dv descriptors equal to the output descriptor, when
`_UpdateValues` returns the count `r`, `_UpdateDerivs` returns `r` too over du
and dv buffers of the length of the output buffer, and whenever it returns it
agrees with `_UpdateValues` on every written channel. -/
theorem updateDerivs_agree_ascending (ctx : OsdCpuEvalStencilsContext)
    (hdu : ctx.stencils.duWeights = ctx.stencils.weights)
    (hdv : ctx.stencils.dvWeights = ctx.stencils.weights)
    (hud : ctx.duDataDesc = ctx.outputDataDesc)
    (hvd : ctx.dvDataDesc = ctx.outputDataDesc)
    (r : Nat) (ctx1 : OsdCpuEvalStencilsContext)
    (h : _UpdateValues ctx = Except.ok (r, ctx1)) :
    (ctx.outputUDerivData.length = ctx.outputData.length →
      ctx.outputVDerivData.length = ctx.outputData.length →
      ∃ ctx2, _UpdateDerivs ctx = Except.ok (r, ctx2)) ∧
    ∀ r2 ctx2, _UpdateDerivs ctx = Except.ok (r2, ctx2) →
      r2 = r ∧
      (∀ i, i < r → ∀ k, k < ctx.outputDataDesc.length →
        ctx2.outputUDerivData[ctx.outputDataDesc.offset + i * ctx.outputDataDesc.stride + k]?
          = ctx1.outputData[ctx.outputDataDesc.offset + i * ctx.outputDataDesc.stride + k]? ∧
        ctx2.outputVDerivData[ctx.outputDataDesc.offset + i * ctx.outputDataDesc.stride + k]?
          = ctx1.outputData[ctx.outputDataDesc.offset + i * ctx.outputDataDesc.stride + k]?) ∧
      (ctx.outputUDerivData = ctx.outputData → ctx2.outputUDerivData = ctx1.outputData) ∧
      (ctx.outputVDerivData = ctx.outputData → ctx2.outputVDerivData = ctx1.outputData) := by
  rcases updateValues_ok_cases h with ⟨hr, hctx, hg⟩ | ⟨hn, hcan, hnull, hrn, b, hb, hctx⟩
  · have hgate : _UpdateDerivs ctx = Except.ok (0, ctx) := by
      apply updateDerivs_gate
      rw [hud, hvd]
      rcases hg with hg | hg | hg
      · exact Or.inl hg
      · exact Or.inr (Or.inl hg)
      · exact Or.inr (Or.inr (Or.inr hg))
    subst hr hctx
    refine ⟨fun _ _ => ⟨_, hgate⟩, fun r2 ctx2 h2 => ?_⟩
    rw [hgate] at h2
    simp only [Except.ok.injEq, Prod.mk.injEq] at h2
    obtain ⟨hr2, hc2⟩ := h2
    subst hr2 hc2
    exact ⟨rfl, fun i hi => absurd hi (Nat.not_lt_zero i), fun e => e, fun e => e⟩
  · have hrun := updateDerivs_run ctx hn (by rw [hud]; exact hcan) (by rw [hvd]; exact hcan)
      hnull
    rw [hud, hvd] at hrun
    have hloop := @derivsLoop_eq_ok ctx.stencils hdu hdv ctx.controlDataDesc
      ctx.outputDataDesc { data := ctx.controlData, pos := ctx.controlDataDesc.offset }
      ctx.stencils.GetNumStencils ctx.outputUDerivData ctx.outputVDerivData
    obtain ⟨hrange, -, -⟩ := valuesLoop_spec rfl hb
    subst hrn hctx
    refine ⟨fun hul hvl => ?_, fun r2 ctx2 h2 => ?_⟩
    · obtain ⟨x, hx⟩ := @valuesLoop_ok ctx.stencils ctx.controlDataDesc ctx.outputDataDesc
        { data := ctx.controlData, pos := ctx.controlDataDesc.offset }
        ctx.stencils.GetNumStencils ctx.outputUDerivData rfl (by rw [hul]; exact hrange)
      obtain ⟨y, hy⟩ := @valuesLoop_ok ctx.stencils ctx.controlDataDesc ctx.outputDataDesc
        { data := ctx.controlData, pos := ctx.controlDataDesc.offset }
        ctx.stencils.GetNumStencils ctx.outputVDerivData rfl (by rw [hvl]; exact hrange)
      rw [hrun, (hloop x y).mpr ⟨hx, hy⟩]
      exact ⟨_, rfl⟩
    · rw [hrun] at h2
      cases hl : forLoop (derivsBody ctx.stencils ctx.controlDataDesc ctx.outputDataDesc
          ctx.outputDataDesc { data := ctx.controlData, pos := ctx.controlDataDesc.offset })
          ctx.stencils.GetNumStencils (ctx.outputUDerivData, ctx.outputVDerivData) with
      | error e => simp [hl] at h2
      | ok data =>
        obtain ⟨x, y⟩ := data
        simp only [hl, Except.ok.injEq, Prod.mk.injEq] at h2
        obtain ⟨hr2, hc2⟩ := h2
        obtain ⟨hx, hy⟩ := (hloop x y).mp hl
        subst hc2
        refine ⟨hr2.symm, fun i hi k hk => ⟨?_, ?_⟩, fun e => ?_, fun e => ?_⟩
        · exact valuesLoop_agree rfl hx hb i k hi hk
        · exact valuesLoop_agree rfl hy hb i k hi hk
        · rw [e, hb] at hx
          exact (Except.ok.inj hx).symm
        · rw [e, hb] at hy
          exact (Except.ok.inj hy).symm

theorem agreeingContext_eval :
    _UpdateValues agreeingContext
      = Except.ok (2, { agreeingContext with outputData := [2, 3, 4, 3, 4, 5] }) := by
  simp [_UpdateValues, agreeingContext, scenarioOver, positionTable, packed, valuesBody, forLoop,
    accumulate, memsetZero, vectorIndex, vectorAt, addAssign, readCell, writeCell,
    ConstRealPtr.read, ConstRealPtr.add, ConstRealPtr.isNull, OsdVertexBufferDescriptor.CanEval,
    OsdCpuEvalStencilsContext.GetStencilTables, FarStencilTables.GetNumStencils,
    FarStencilTables.GetSizes, FarStencilTables.GetOffsets, FarStencilTables.GetControlIndices,
    FarStencilTables.GetWeights, OsdCpuEvalStencilsContext.GetControlDataDescriptor,
    OsdCpuEvalStencilsContext.GetOutputDataDescriptor, OsdCpuEvalStencilsContext.GetControlData,
    OsdCpuEvalStencilsContext.GetOutputData]
  norm_num

end OpenSubdiv

/-! ## Idempotence, linearity and the two evaluators under every order of the loop -/

namespace OpenSubdiv

open OsdOmpEvalStencilsController

theorem forEachIn_cons_eq_ok {σ : Type} (body : Nat → σ → Except Fault σ) (i : Nat)
    (rest : List Nat) (s t : σ) :
    forEachIn body (i :: rest) s = Except.ok t ↔
      ∃ u, body i s = Except.ok u ∧ forEachIn body rest u = Except.ok t := by
  simp only [forEachIn]
  cases h : body i s with
  | error e => simp
  | ok u => simp

/-- The iterations of a loop over a pair of states, run in the order of a
list: when the body acts on each component by a body of its own, the run
returns exactly when both component runs return, with their results. -/
theorem forEachIn_pair {α β : Type} (bodyP : Nat → α × β → Except Fault (α × β))
    (body1 : Nat → α → Except Fault α) (body2 : Nat → β → Except Fault β)
    (h : ∀ k s1 s2 t1 t2, bodyP k (s1, s2) = Except.ok (t1, t2) ↔
      body1 k s1 = Except.ok t1 ∧ body2 k s2 = Except.ok t2)
    (order : List Nat) (s1 : α) (s2 : β) (t1 : α) (t2 : β) :
    forEachIn bodyP order (s1, s2) = Except.ok (t1, t2) ↔
      forEachIn body1 order s1 = Except.ok t1 ∧ forEachIn body2 order s2 = Except.ok t2 := by
  induction order generalizing s1 s2 with
  | nil => simp [forEachIn]
  | cons i rest ih =>
    rw [forEachIn_cons_eq_ok, forEachIn_cons_eq_ok, forEachIn_cons_eq_ok]
    constructor
    · rintro ⟨⟨u1, u2⟩, hb, hu⟩
      obtain ⟨h1, h2⟩ := (ih u1 u2).mp hu
      obtain ⟨hb1, hb2⟩ := (h i s1 s2 u1 u2).mp hb
      exact ⟨⟨u1, hb1, h1⟩, ⟨u2, hb2, h2⟩⟩
    · rintro ⟨⟨u1, hb1, h1⟩, ⟨u2, hb2, h2⟩⟩
      exact ⟨(u1, u2), (h i s1 s2 u1 u2).mpr ⟨hb1, hb2⟩, (ih u1 u2).mpr ⟨h1, h2⟩⟩

/-- Under `length ≤ stride` the position evaluation with its elements run in
the order of a permutation of `[0, nstencils)` returns a count and a context
exactly when the ascending run returns them. -/
theorem updateValuesInOrder_iff_ascending (ctx : OsdCpuEvalStencilsContext)
    (order : List Nat) (hperm : order.Perm (List.range ctx.stencils.GetNumStencils))
    (hd : ctx.outputDataDesc.length ≤ ctx.outputDataDesc.stride)
    (r : Nat) (ctx' : OsdCpuEvalStencilsContext) :
    _UpdateValuesInOrder order ctx = Except.ok (r, ctx') ↔
      _UpdateValues ctx = Except.ok (r, ctx') := by
  by_cases hg : ctx.stencils.GetNumStencils = 0 ∨
      ctx.controlDataDesc.CanEval ctx.outputDataDesc = false ∨
      (ctx.controlData = none ∧ ctx.controlDataDesc.offset = 0)
  · rw [updateValuesInOrder_gate order ctx hg, updateValues_gate ctx hg]
  · simp only [not_or] at hg
    obtain ⟨hn, hcan, hnull⟩ := hg
    have hcan' : ctx.controlDataDesc.CanEval ctx.outputDataDesc = true := by
      simpa using hcan
    rw [updateValuesInOrder_run order ctx hn hcan' hnull, updateValues_run ctx hn hcan' hnull]
    have hiff := @forEachIn_perm_iff_forLoop ctx.stencils ctx.controlDataDesc
      ctx.outputDataDesc { data := ctx.controlData, pos := ctx.controlDataDesc.offset }
      rfl hd ctx.stencils.GetNumStencils order hperm ctx.outputData
    cases h1 : forEachIn (valuesBody ctx.stencils ctx.controlDataDesc ctx.outputDataDesc
        { data := ctx.controlData, pos := ctx.controlDataDesc.offset })
        order ctx.outputData with
    | ok b1 =>
      rw [(hiff b1).mp h1]
    | error e1 =>
      cases h2 : forLoop (valuesBody ctx.stencils ctx.controlDataDesc ctx.outputDataDesc
          { data := ctx.controlData, pos := ctx.controlDataDesc.offset })
          ctx.stencils.GetNumStencils ctx.outputData with
      | ok b2 =>
        have := (hiff b2).mpr h2
        rw [h1] at this
        cases this
      | error e2 =>
        constructor <;> intro h <;> cases h

/-- A returning call of `_UpdateValues` leaves the stencil table and the
output descriptor as they were. -/
theorem updateValues_keeps_layout {ctx ctx' : OsdCpuEvalStencilsContext} {r : Nat}
    (h : _UpdateValues ctx = Except.ok (r, ctx')) :
    ctx'.stencils = ctx.stencils ∧ ctx'.outputDataDesc = ctx.outputDataDesc := by
  rcases updateValues_ok_cases h with ⟨-, hctx, -⟩ | ⟨-, -, -, -, b, -, hctx⟩
  · rw [hctx]
    exact ⟨rfl, rfl⟩
  · rw [hctx]
    exact ⟨rfl, rfl⟩

theorem updateDerivsInOrder_gate (order : List Nat) (ctx : OsdCpuEvalStencilsContext)
    (h : ctx.stencils.GetNumStencils = 0 ∨
      ctx.controlDataDesc.CanEval ctx.duDataDesc = false ∨
      ctx.controlDataDesc.CanEval ctx.dvDataDesc = false ∨
      (ctx.controlData = none ∧ ctx.controlDataDesc.offset = 0)) :
    _UpdateDerivsInOrder order ctx = Except.ok (0, ctx) := by
  unfold _UpdateDerivsInOrder
  simp only [OsdCpuEvalStencilsContext.GetStencilTables,
    OsdCpuEvalStencilsContext.GetControlDataDescriptor,
    OsdCpuEvalStencilsContext.GetDuDataDescriptor,
    OsdCpuEvalStencilsContext.GetDvDataDescriptor,
    OsdCpuEvalStencilsContext.GetControlData, ConstRealPtr.add, ConstRealPtr.isNull]
  by_cases hn : ctx.stencils.GetNumStencils = 0
  · simp [hn]
  · by_cases hu : ctx.controlDataDesc.CanEval ctx.duDataDesc = false
    · simp [hn, hu]
    · by_cases hv : ctx.controlDataDesc.CanEval ctx.dvDataDesc = false
      · simp [hn, hv]
      · rcases h with h | h | h | ⟨h1, h2⟩
        · exact absurd h hn
        · exact absurd h hu
        · exact absurd h hv
        · simp [hn, h1, h2]

theorem updateDerivsInOrder_run (order : List Nat) (ctx : OsdCpuEvalStencilsContext)
    (hn : ctx.stencils.GetNumStencils ≠ 0)
    (hcu : ctx.controlDataDesc.CanEval ctx.duDataDesc = true)
    (hcv : ctx.controlDataDesc.CanEval ctx.dvDataDesc = true)
    (hnull : ¬ (ctx.controlData = none ∧ ctx.controlDataDesc.offset = 0)) :
    _UpdateDerivsInOrder order ctx =
      match forEachIn (derivsBody ctx.stencils ctx.controlDataDesc ctx.duDataDesc
          ctx.dvDataDesc { data := ctx.controlData, pos := ctx.controlDataDesc.offset })
          order (ctx.outputUDerivData, ctx.outputVDerivData) with
      | Except.error e => Except.error e
      | Except.ok data =>
        Except.ok (ctx.stencils.GetNumStencils,
          { ctx with outputUDerivData := data.1, outputVDerivData := data.2 }) := by
  unfold _UpdateDerivsInOrder
  simp only [OsdCpuEvalStencilsContext.GetStencilTables,
    OsdCpuEvalStencilsContext.GetControlDataDescriptor,
    OsdCpuEvalStencilsContext.GetDuDataDescriptor,
    OsdCpuEvalStencilsContext.GetDvDataDescriptor,
    OsdCpuEvalStencilsContext.GetOutputUDerivData,
    OsdCpuEvalStencilsContext.GetOutputVDerivData,
    OsdCpuEvalStencilsContext.GetControlData, ConstRealPtr.add, ConstRealPtr.isNull]
  have hnull' : (ctx.controlData.isNone && (ctx.controlDataDesc.offset == 0)) = false := by
    cases hd : ctx.controlData with
    | none =>
      have : ctx.controlDataDesc.offset ≠ 0 := fun h0 => hnull ⟨hd, h0⟩
      simp [this]
    | some b => simp
  simp only [hn, hcu, hcv, hnull', if_false, Bool.not_true, Bool.false_eq_true, Nat.zero_add,
    Bool.and_self]

/-- With the derivative weights equal to the weights, one descriptor of
`length ≤ stride` for both derivative streams, the derivative evaluation with
its elements run in the order of a permutation of `[0, nstencils)` returns a
count and a context exactly when the ascending run returns them. -/
theorem updateDerivsInOrder_iff_ascending (ctx : OsdCpuEvalStencilsContext)
    (hdu : ctx.stencils.duWeights = ctx.stencils.weights)
    (hdv : ctx.stencils.dvWeights = ctx.stencils.weights)
    (hvd : ctx.dvDataDesc = ctx.duDataDesc)
    (order : List Nat) (hperm : order.Perm (List.range ctx.stencils.GetNumStencils))
    (hd : ctx.duDataDesc.length ≤ ctx.duDataDesc.stride)
    (r : Nat) (ctx' : OsdCpuEvalStencilsContext) :
    _UpdateDerivsInOrder order ctx = Except.ok (r, ctx') ↔
      _UpdateDerivs ctx = Except.ok (r, ctx') := by
  by_cases hg : ctx.stencils.GetNumStencils = 0 ∨
      ctx.controlDataDesc.CanEval ctx.duDataDesc = false ∨
      ctx.controlDataDesc.CanEval ctx.dvDataDesc = false ∨
      (ctx.controlData = none ∧ ctx.controlDataDesc.offset = 0)
  · rw [updateDerivsInOrder_gate order ctx hg, updateDerivs_gate ctx hg]
  · simp only [not_or] at hg
    obtain ⟨hn, hcu, hcv, hnull⟩ := hg
    have hcu' : ctx.controlDataDesc.CanEval ctx.duDataDesc = true := by
      simpa using hcu
    have hcv' : ctx.controlDataDesc.CanEval ctx.dvDataDesc = true := by
      simpa using hcv
    rw [updateDerivsInOrder_run order ctx hn hcu' hcv' hnull,
      updateDerivs_run ctx hn hcu' hcv' hnull, hvd]
    have hiff : ∀ x y,
        forEachIn (derivsBody ctx.stencils ctx.controlDataDesc ctx.duDataDesc ctx.duDataDesc
          { data := ctx.controlData, pos := ctx.controlDataDesc.offset })
          order (ctx.outputUDerivData, ctx.outputVDerivData) = Except.ok (x, y) ↔
        forLoop (derivsBody ctx.stencils ctx.controlDataDesc ctx.duDataDesc ctx.duDataDesc
          { data := ctx.controlData, pos := ctx.controlDataDesc.offset })
          ctx.stencils.GetNumStencils (ctx.outputUDerivData, ctx.outputVDerivData)
          = Except.ok (x, y) := by
      intro x y
      rw [derivsLoop_eq_ok hdu hdv,
        forEachIn_pair _ _ _ (fun k a1 a2 b1 b2 =>
          derivsBody_eq_ok hdu hdv ctx.controlDataDesc ctx.duDataDesc
            { data := ctx.controlData, pos := ctx.controlDataDesc.offset } k a1 a2 b1 b2),
        @forEachIn_perm_iff_forLoop ctx.stencils ctx.controlDataDesc
          ctx.duDataDesc { data := ctx.controlData, pos := ctx.controlDataDesc.offset }
          rfl hd ctx.stencils.GetNumStencils order hperm ctx.outputUDerivData,
        @forEachIn_perm_iff_forLoop ctx.stencils ctx.controlDataDesc
          ctx.duDataDesc { data := ctx.controlData, pos := ctx.controlDataDesc.offset }
          rfl hd ctx.stencils.GetNumStencils order hperm ctx.outputVDerivData]
    cases h1 : forEachIn (derivsBody ctx.stencils ctx.controlDataDesc ctx.duDataDesc
        ctx.duDataDesc { data := ctx.controlData, pos := ctx.controlDataDesc.offset })
        order (ctx.outputUDerivData, ctx.outputVDerivData) with
    | ok b1 =>
      obtain ⟨x, y⟩ := b1
      rw [(hiff x y).mp h1]
    | error e1 =>
      cases h2 : forLoop (derivsBody ctx.stencils ctx.controlDataDesc ctx.duDataDesc
          ctx.duDataDesc { data := ctx.controlData, pos := ctx.controlDataDesc.offset })
          ctx.stencils.GetNumStencils (ctx.outputUDerivData, ctx.outputVDerivData) with
      | ok b2 =>
        obtain ⟨x, y⟩ := b2
        have := (hiff x y).mpr h2
        rw [h1] at this
        cases this
      | error e2 =>
        constructor <;> intro h <;> cases h

end OpenSubdiv

namespace OpenSubdiv

open OsdOmpEvalStencilsController

/-- C8, as stated, fails on the code.  `overlapContext` has an output
descriptor of stride 0 and length 1, so its two elements share cell 0 and the
cell holds the sum of the element that ran last.  A first call that runs the
elements in ascending order returns 2 and leaves `[2]`; a second call on that
buffer that runs element 1 before element 0, another order of the same
parallel loop, returns 2 and leaves `[1]`. -/
theorem C8_counterexample :
    [1, 0].Perm (List.range overlapContext.stencils.GetNumStencils) ∧
    _UpdateValues overlapContext = Except.ok (2, { overlapContext with outputData := [2] }) ∧
    _UpdateValuesInOrder [1, 0] { overlapContext with outputData := [2] }
      = Except.ok (2, { overlapContext with outputData := [1] }) := by
  refine ⟨List.Perm.swap 0 1 [], overlapContext_eval, ?_⟩
  simp [_UpdateValuesInOrder, overlapContext, packed, valuesBody, forLoop, forEachIn, accumulate,
    memsetZero, vectorIndex, vectorAt, addAssign, readCell, writeCell, ConstRealPtr.read,
    ConstRealPtr.add, ConstRealPtr.isNull, OsdVertexBufferDescriptor.CanEval,
    OsdCpuEvalStencilsContext.GetStencilTables, FarStencilTables.GetNumStencils,
    FarStencilTables.GetSizes, FarStencilTables.GetOffsets, FarStencilTables.GetControlIndices,
    FarStencilTables.GetWeights, OsdCpuEvalStencilsContext.GetControlDataDescriptor,
    OsdCpuEvalStencilsContext.GetOutputDataDescriptor, OsdCpuEvalStencilsContext.GetControlData,
    OsdCpuEvalStencilsContext.GetOutputData]

/-- C8 (amended).  For every context whose output descriptor has
`length ≤ stride`: when a call of `_UpdateValues` that runs the elements in
the order `order1`, any permutation of `[0, nstencils)`, returns, a second
call on the context it left that runs them in the order `order2`, any
permutation too, returns the same count and leaves that context as it is.  The
ascending run of `_UpdateValues` returns that count and that context as well,
on the first context and on the one the first call left. -/
theorem C8_updateValues_idempotent (ctx ctx' : OsdCpuEvalStencilsContext) (r : Nat)
    (order1 order2 : List Nat)
    (hd : ctx.outputDataDesc.length ≤ ctx.outputDataDesc.stride)
    (hp1 : order1.Perm (List.range ctx.stencils.GetNumStencils))
    (hp2 : order2.Perm (List.range ctx.stencils.GetNumStencils))
    (h : _UpdateValuesInOrder order1 ctx = Except.ok (r, ctx')) :
    _UpdateValuesInOrder order2 ctx' = Except.ok (r, ctx') ∧
    _UpdateValues ctx = Except.ok (r, ctx') ∧
    _UpdateValues ctx' = Except.ok (r, ctx') := by
  have ha := (updateValuesInOrder_iff_ascending ctx order1 hp1 hd r ctx').mp h
  have hb := updateValues_twice_ascending ctx ctx' r ha
  obtain ⟨hs, ho⟩ := updateValues_keeps_layout ha
  exact ⟨(updateValuesInOrder_iff_ascending ctx' order2 (by rw [hs]; exact hp2)
    (by rw [ho]; exact hd) r ctx').mpr hb, ha, hb⟩

theorem scenarioContext_eval_descending :
    _UpdateValuesInOrder [1, 0] scenarioContext
      = Except.ok (2, { scenarioContext with outputData := [2, 3, 4, 3, 4, 5, 9] }) :=
  (updateValuesInOrder_iff_ascending scenarioContext [1, 0] (List.Perm.swap 0 1 [])
    (by decide) 2 _).mpr scenarioContext_eval

/-- C8 witness: the concrete scenario, run with element 1 before element 0 and
run again in ascending order. -/
theorem C8_updateValues_idempotent_witness :
    scenarioContext.outputDataDesc.length ≤ scenarioContext.outputDataDesc.stride ∧
    [1, 0].Perm (List.range scenarioContext.stencils.GetNumStencils) ∧
    [0, 1].Perm (List.range scenarioContext.stencils.GetNumStencils) ∧
    _UpdateValuesInOrder [1, 0] scenarioContext
      = Except.ok (2, { scenarioContext with outputData := [2, 3, 4, 3, 4, 5, 9] }) ∧
    _UpdateValuesInOrder [0, 1] { scenarioContext with outputData := [2, 3, 4, 3, 4, 5, 9] }
      = Except.ok (2, { scenarioContext with outputData := [2, 3, 4, 3, 4, 5, 9] }) :=
  ⟨by decide, List.Perm.swap 0 1 [], List.Perm.refl _, scenarioContext_eval_descending,
    (C8_updateValues_idempotent scenarioContext _ 2 [1, 0] [0, 1] (by decide)
      (List.Perm.swap 0 1 []) (List.Perm.refl _) scenarioContext_eval_descending).1⟩

end OpenSubdiv

namespace OpenSubdiv

open OsdOmpEvalStencilsController

/-- C9, as stated, fails on the code.  The two elements of `overlapContext`
share cell 0 of the output buffer, a written channel, and the cell holds the
sum of the element that ran last.  Over the control buffer `[1, 2]` a call
that runs the elements in ascending order leaves 2 in it; over `2 * [1, 2]` a
call that runs element 1 before element 0, another order of the same parallel
loop, leaves 2 in it too, not `2 * 2`. -/
theorem C9_counterexample :
    [1, 0].Perm (List.range overlapContext.stencils.GetNumStencils) ∧
    _UpdateValues (overlapContext.withControl [1, 2])
      = Except.ok (2, { overlapContext with controlData := some [1, 2], outputData := [2] }) ∧
    _UpdateValuesInOrder [1, 0] (overlapContext.withControl ([1, 2].map (fun v => 2 * v)))
      = Except.ok (2, { overlapContext with controlData := some [2, 4], outputData := [2] }) ∧
    (2 : real) ≠ 2 * 2 := by
  refine ⟨List.Perm.swap 0 1 [], ?_, ?_, by norm_num⟩
  · simp [_UpdateValues, overlapContext, packed, valuesBody, forLoop, accumulate,
      memsetZero, vectorIndex, vectorAt, addAssign, readCell, writeCell, ConstRealPtr.read,
      ConstRealPtr.add, ConstRealPtr.isNull, OsdVertexBufferDescriptor.CanEval,
      OsdCpuEvalStencilsContext.withControl,
      OsdCpuEvalStencilsContext.GetStencilTables, FarStencilTables.GetNumStencils,
      FarStencilTables.GetSizes, FarStencilTables.GetOffsets,
      FarStencilTables.GetControlIndices, FarStencilTables.GetWeights,
      OsdCpuEvalStencilsContext.GetControlDataDescriptor,
      OsdCpuEvalStencilsContext.GetOutputDataDescriptor,
      OsdCpuEvalStencilsContext.GetControlData, OsdCpuEvalStencilsContext.GetOutputData]
  · simp [_UpdateValuesInOrder, overlapContext, packed, valuesBody, forLoop, forEachIn,
      accumulate, memsetZero, vectorIndex, vectorAt, addAssign, readCell, writeCell,
      ConstRealPtr.read, ConstRealPtr.add, ConstRealPtr.isNull,
      OsdVertexBufferDescriptor.CanEval, OsdCpuEvalStencilsContext.withControl,
      OsdCpuEvalStencilsContext.GetStencilTables, FarStencilTables.GetNumStencils,
      FarStencilTables.GetSizes, FarStencilTables.GetOffsets,
      FarStencilTables.GetControlIndices, FarStencilTables.GetWeights,
      OsdCpuEvalStencilsContext.GetControlDataDescriptor,
      OsdCpuEvalStencilsContext.GetOutputDataDescriptor,
      OsdCpuEvalStencilsContext.GetControlData, OsdCpuEvalStencilsContext.GetOutputData]
    norm_num

/-- C9 (amended).  `_UpdateValues` is linear in the control data where the
output descriptor has `length ≤ stride`, whatever the order in which each call
runs the elements.  Let the call return over the control buffers `c1` and
`c2` of one length, bound in turn to the same context, with the elements run
in the orders `o1` and `o2`.  Then it returns the same count over `a * c1`
with the elements run in the order `oa` and over `c1 + c2` with the elements
run in the order `os`, as the ascending run does, and on every written
channel, the cells `outDesc.offset + i*outDesc.stride + k` with `i` below the
count and `k < outDesc.length`, the output over `a * c1` is `a` times the
output over `c1` and the output over `c1 + c2` is the sum of the outputs over
`c1` and over `c2`.  The four orders are any permutations of
`[0, nstencils)`. -/
theorem C9_updateValues_linear (ctx : OsdCpuEvalStencilsContext) (c1 c2 : List real)
    (a : real) (r1 r2 : Nat) (x1 x2 : OsdCpuEvalStencilsContext) (o1 o2 oa os : List Nat)
    (hd : ctx.outputDataDesc.length ≤ ctx.outputDataDesc.stride)
    (hp1 : o1.Perm (List.range ctx.stencils.GetNumStencils))
    (hp2 : o2.Perm (List.range ctx.stencils.GetNumStencils))
    (hpa : oa.Perm (List.range ctx.stencils.GetNumStencils))
    (hps : os.Perm (List.range ctx.stencils.GetNumStencils))
    (hlen : c1.length = c2.length)
    (h1 : _UpdateValuesInOrder o1 (ctx.withControl c1) = Except.ok (r1, x1))
    (h2 : _UpdateValuesInOrder o2 (ctx.withControl c2) = Except.ok (r2, x2)) :
    r1 = r2 ∧
    (∃ xa, _UpdateValuesInOrder oa (ctx.withControl (c1.map (fun v => a * v)))
        = Except.ok (r1, xa) ∧
      _UpdateValues (ctx.withControl (c1.map (fun v => a * v))) = Except.ok (r1, xa) ∧
      ∀ i, i < r1 → ∀ k, k < ctx.outputDataDesc.length →
        ∃ v1, x1.outputData[ctx.outputDataDesc.offset + i * ctx.outputDataDesc.stride + k]?
            = some v1 ∧
          xa.outputData[ctx.outputDataDesc.offset + i * ctx.outputDataDesc.stride + k]?
            = some (a * v1)) ∧
    (∃ xs, _UpdateValuesInOrder os (ctx.withControl (List.zipWith (fun v w => v + w) c1 c2))
        = Except.ok (r1, xs) ∧
      _UpdateValues (ctx.withControl (List.zipWith (fun v w => v + w) c1 c2))
        = Except.ok (r1, xs) ∧
      ∀ i, i < r1 → ∀ k, k < ctx.outputDataDesc.length →
        ∃ v1 v2, x1.outputData[ctx.outputDataDesc.offset + i * ctx.outputDataDesc.stride + k]?
            = some v1 ∧
          x2.outputData[ctx.outputDataDesc.offset + i * ctx.outputDataDesc.stride + k]?
            = some v2 ∧
          xs.outputData[ctx.outputDataDesc.offset + i * ctx.outputDataDesc.stride + k]?
            = some (v1 + v2)) := by
  have e1 := (updateValuesInOrder_iff_ascending (ctx.withControl c1) o1 hp1 hd r1 x1).mp h1
  have e2 := (updateValuesInOrder_iff_ascending (ctx.withControl c2) o2 hp2 hd r2 x2).mp h2
  obtain ⟨hr, ⟨xa, hxa, ha⟩, ⟨xs, hxs, hs⟩⟩ :=
    updateValues_linear_ascending ctx c1 c2 a r1 r2 x1 x2 hlen e1 e2
  exact ⟨hr,
    ⟨xa, (updateValuesInOrder_iff_ascending (ctx.withControl (c1.map (fun v => a * v))) oa
      hpa hd r1 xa).mpr hxa, hxa, ha⟩,
    ⟨xs, (updateValuesInOrder_iff_ascending
      (ctx.withControl (List.zipWith (fun v w => v + w) c1 c2)) os hps hd r1 xs).mpr hxs,
      hxs, hs⟩⟩

theorem scenarioControl_eval_descending :
    _UpdateValuesInOrder [1, 0] (scenarioContext.withControl scenarioControl)
      = Except.ok (2, { scenarioContext with outputData := [2, 3, 4, 3, 4, 5, 9] }) :=
  (updateValuesInOrder_iff_ascending (scenarioContext.withControl scenarioControl) [1, 0]
    (List.Perm.swap 0 1 []) (by decide) 2 _).mpr scenarioControl_eval

theorem onesControl_eval_inOrder :
    _UpdateValuesInOrder [0, 1] (scenarioContext.withControl onesControl)
      = Except.ok (2, { scenarioContext with
          controlData := some onesControl, outputData := [1, 1, 1, 1, 1, 1, 9] }) :=
  (updateValuesInOrder_iff_ascending (scenarioContext.withControl onesControl) [0, 1]
    (List.Perm.refl _) (by decide) 2 _).mpr onesControl_eval

/-- C9 witness: the concrete scenario over its control buffer, with element 1
run before element 0, and over a buffer of ones, with the scalar 2. -/
theorem C9_updateValues_linear_witness :
    scenarioContext.outputDataDesc.length ≤ scenarioContext.outputDataDesc.stride ∧
    [1, 0].Perm (List.range scenarioContext.stencils.GetNumStencils) ∧
    scenarioControl.length = onesControl.length ∧
    _UpdateValuesInOrder [1, 0] (scenarioContext.withControl scenarioControl)
      = Except.ok (2, { scenarioContext with outputData := [2, 3, 4, 3, 4, 5, 9] }) ∧
    _UpdateValuesInOrder [0, 1] (scenarioContext.withControl onesControl)
      = Except.ok (2, { scenarioContext with
          controlData := some onesControl, outputData := [1, 1, 1, 1, 1, 1, 9] }) ∧
    ∃ xa xs,
      _UpdateValuesInOrder [1, 0]
          (scenarioContext.withControl (scenarioControl.map (fun v => 2 * v)))
        = Except.ok (2, xa) ∧
      _UpdateValuesInOrder [0, 1] (scenarioContext.withControl
          (List.zipWith (fun v w => v + w) scenarioControl onesControl))
        = Except.ok (2, xs) ∧
      xa.outputData[0]? = some (2 * 2) ∧ xs.outputData[0]? = some (2 + 1) := by
  refine ⟨by decide, List.Perm.swap 0 1 [], rfl, scenarioControl_eval_descending,
    onesControl_eval_inOrder, ?_⟩
  obtain ⟨-, ⟨xa, hxa, -, ha⟩, ⟨xs, hxs, -, hs⟩⟩ :=
    C9_updateValues_linear scenarioContext scenarioControl onesControl 2 2 2 _ _
      [1, 0] [0, 1] [1, 0] [0, 1] (by decide) (List.Perm.swap 0 1 []) (List.Perm.refl _)
      (List.Perm.swap 0 1 []) (List.Perm.refl _) rfl
      scenarioControl_eval_descending onesControl_eval_inOrder
  refine ⟨xa, xs, hxa, hxs, ?_, ?_⟩
  · obtain ⟨v1, hv1, hva⟩ := ha 0 (by decide) 0 (by decide)
    have : v1 = 2 := by
      simpa [scenarioContext, packed] using hv1.symm
    subst this
    simpa [scenarioContext, packed] using hva
  · obtain ⟨v1, v2, hv1, hv2, hvs⟩ := hs 0 (by decide) 0 (by decide)
    have e1 : v1 = 2 := by
      simpa [scenarioContext, packed] using hv1.symm
    have e2 : v2 = 1 := by
      simpa [scenarioContext, packed] using hv2.symm
    subst e1 e2
    simpa [scenarioContext, packed] using hvs

end OpenSubdiv

namespace OpenSubdiv

open OsdOmpEvalStencilsController

/-- C29, as stated, fails on the code.  In `overlapAgreeingContext` the
derivative weights are the weights and the du and dv descriptors are the
output descriptor, of stride 0 and length 1, so the two elements share cell 0
of each buffer and the cell holds the sum of the element that ran last.
`_UpdateValues` with the elements run in ascending order returns 2 and leaves
`[2]` in the output buffer; `_UpdateDerivs` with element 1 run before
element 0, another order of its parallel loop, returns 2 and leaves `[1]` in
the du buffer and in the dv buffer. -/
theorem C29_counterexample :
    overlapAgreeingContext.stencils.duWeights = overlapAgreeingContext.stencils.weights ∧
    overlapAgreeingContext.stencils.dvWeights = overlapAgreeingContext.stencils.weights ∧
    overlapAgreeingContext.duDataDesc = overlapAgreeingContext.outputDataDesc ∧
    overlapAgreeingContext.dvDataDesc = overlapAgreeingContext.outputDataDesc ∧
    [1, 0].Perm (List.range overlapAgreeingContext.stencils.GetNumStencils) ∧
    _UpdateValues overlapAgreeingContext
      = Except.ok (2, { overlapAgreeingContext with outputData := [2] }) ∧
    _UpdateDerivsInOrder [1, 0] overlapAgreeingContext
      = Except.ok (2, { overlapAgreeingContext with
          outputUDerivData := [1], outputVDerivData := [1] }) := by
  refine ⟨rfl, rfl, rfl, rfl, List.Perm.swap 0 1 [], ?_, ?_⟩
  · simp [_UpdateValues, overlapAgreeingContext, overlapContext, packed, valuesBody, forLoop,
      accumulate, memsetZero, vectorIndex, vectorAt, addAssign, readCell, writeCell,
      ConstRealPtr.read, ConstRealPtr.add, ConstRealPtr.isNull,
      OsdVertexBufferDescriptor.CanEval,
      OsdCpuEvalStencilsContext.GetStencilTables, FarStencilTables.GetNumStencils,
      FarStencilTables.GetSizes, FarStencilTables.GetOffsets,
      FarStencilTables.GetControlIndices, FarStencilTables.GetWeights,
      OsdCpuEvalStencilsContext.GetControlDataDescriptor,
      OsdCpuEvalStencilsContext.GetOutputDataDescriptor,
      OsdCpuEvalStencilsContext.GetControlData, OsdCpuEvalStencilsContext.GetOutputData]
  · simp [_UpdateDerivsInOrder, overlapAgreeingContext, overlapContext, packed, derivsBody,
      forLoop, forEachIn, accumulateDerivs, memsetZero, vectorIndex, vectorAt, addAssign,
      readCell, writeCell, ConstRealPtr.read, ConstRealPtr.add, ConstRealPtr.isNull,
      OsdVertexBufferDescriptor.CanEval,
      OsdCpuEvalStencilsContext.GetStencilTables, FarStencilTables.GetNumStencils,
      FarStencilTables.GetSizes, FarStencilTables.GetOffsets,
      FarStencilTables.GetControlIndices, FarStencilTables.GetDuWeights,
      FarStencilTables.GetDvWeights, OsdCpuEvalStencilsContext.GetControlDataDescriptor,
      OsdCpuEvalStencilsContext.GetDuDataDescriptor,
      OsdCpuEvalStencilsContext.GetDvDataDescriptor,
      OsdCpuEvalStencilsContext.GetControlData,
      OsdCpuEvalStencilsContext.GetOutputUDerivData,
      OsdCpuEvalStencilsContext.GetOutputVDerivData]

/-- C29 (amended).  Let the duWeights and dvWeights arrays of the table both
equal its weights array, let the du and dv descriptors both equal the output
descriptor, and let that descriptor have `length ≤ stride`.  Let
`_UpdateValues` with the elements run in the order `ov` return the count `r`,
and let `_UpdateDerivs` run the elements in the order `od`, both any
permutations of `[0, nstencils)`.  The ascending run of `_UpdateValues`
returns the same count and context.  When the du and dv buffers have the
length of the output buffer, `_UpdateDerivs` returns `r` too.  Whenever
`_UpdateDerivs` returns, its ascending run returns the same, it returns `r`,
and on every written channel, the cells `outDesc.offset + i*outDesc.stride + k`
with `i < r` and `k < outDesc.length`, the du buffer and the dv buffer hold
the value that `_UpdateValues` leaves in the output buffer; a derivative
buffer that starts with the contents of the output buffer ends as the output
buffer ends. -/
theorem C29_derivs_agree_with_values (ctx : OsdCpuEvalStencilsContext)
    (hdu : ctx.stencils.duWeights = ctx.stencils.weights)
    (hdv : ctx.stencils.dvWeights = ctx.stencils.weights)
    (hud : ctx.duDataDesc = ctx.outputDataDesc)
    (hvd : ctx.dvDataDesc = ctx.outputDataDesc)
    (hd : ctx.outputDataDesc.length ≤ ctx.outputDataDesc.stride)
    (ov od : List Nat)
    (hpv : ov.Perm (List.range ctx.stencils.GetNumStencils))
    (hpd : od.Perm (List.range ctx.stencils.GetNumStencils))
    (r : Nat) (ctx1 : OsdCpuEvalStencilsContext)
    (h : _UpdateValuesInOrder ov ctx = Except.ok (r, ctx1)) :
    _UpdateValues ctx = Except.ok (r, ctx1) ∧
    (ctx.outputUDerivData.length = ctx.outputData.length →
      ctx.outputVDerivData.length = ctx.outputData.length →
      ∃ ctx2, _UpdateDerivsInOrder od ctx = Except.ok (r, ctx2)) ∧
    ∀ r2 ctx2, _UpdateDerivsInOrder od ctx = Except.ok (r2, ctx2) →
      _UpdateDerivs ctx = Except.ok (r2, ctx2) ∧
      r2 = r ∧
      (∀ i, i < r → ∀ k, k < ctx.outputDataDesc.length →
        ctx2.outputUDerivData[ctx.outputDataDesc.offset + i * ctx.outputDataDesc.stride + k]?
          = ctx1.outputData[ctx.outputDataDesc.offset + i * ctx.outputDataDesc.stride + k]? ∧
        ctx2.outputVDerivData[ctx.outputDataDesc.offset + i * ctx.outputDataDesc.stride + k]?
          = ctx1.outputData[ctx.outputDataDesc.offset + i * ctx.outputDataDesc.stride + k]?) ∧
      (ctx.outputUDerivData = ctx.outputData → ctx2.outputUDerivData = ctx1.outputData) ∧
      (ctx.outputVDerivData = ctx.outputData → ctx2.outputVDerivData = ctx1.outputData) := by
  have ha := (updateValuesInOrder_iff_ascending ctx ov hpv hd r ctx1).mp h
  have hiff := updateDerivsInOrder_iff_ascending ctx hdu hdv (hvd.trans hud.symm) od hpd
    (by rw [hud]; exact hd)
  obtain ⟨hex, hall⟩ := updateDerivs_agree_ascending ctx hdu hdv hud hvd r ctx1 ha
  refine ⟨ha, fun hu hv => ?_, fun r2 ctx2 h2 => ?_⟩
  · obtain ⟨ctx2, h2⟩ := hex hu hv
    exact ⟨ctx2, (hiff r ctx2).mpr h2⟩
  · have h2' := (hiff r2 ctx2).mp h2
    exact ⟨h2', hall r2 ctx2 h2'⟩

theorem agreeingContext_eval_descending :
    _UpdateValuesInOrder [1, 0] agreeingContext
      = Except.ok (2, { agreeingContext with outputData := [2, 3, 4, 3, 4, 5] }) :=
  (updateValuesInOrder_iff_ascending agreeingContext [1, 0] (List.Perm.swap 0 1 [])
    (by decide) 2 _).mpr agreeingContext_eval

/-- C29 witness: the concrete scenario with the weights as derivative weights;
`_UpdateValues` with element 1 run before element 0 returns 2, and so does
`_UpdateDerivs` in ascending order. -/
theorem C29_derivs_agree_with_values_witness :
    agreeingContext.stencils.duWeights = agreeingContext.stencils.weights ∧
    agreeingContext.stencils.dvWeights = agreeingContext.stencils.weights ∧
    agreeingContext.duDataDesc = agreeingContext.outputDataDesc ∧
    agreeingContext.dvDataDesc = agreeingContext.outputDataDesc ∧
    agreeingContext.outputDataDesc.length ≤ agreeingContext.outputDataDesc.stride ∧
    [1, 0].Perm (List.range agreeingContext.stencils.GetNumStencils) ∧
    _UpdateValuesInOrder [1, 0] agreeingContext
      = Except.ok (2, { agreeingContext with outputData := [2, 3, 4, 3, 4, 5] }) ∧
    ∃ ctx2, _UpdateDerivsInOrder [0, 1] agreeingContext = Except.ok (2, ctx2) :=
  ⟨rfl, rfl, rfl, rfl, by decide, List.Perm.swap 0 1 [], agreeingContext_eval_descending,
    (C29_derivs_agree_with_values agreeingContext rfl rfl rfl rfl (by decide) [1, 0] [0, 1]
      (List.Perm.swap 0 1 []) (List.Perm.refl _) 2 _
      agreeingContext_eval_descending).2.1 rfl rfl⟩

end OpenSubdiv
